import Mathlib

/-!
# RWXLoader: a shallow embedding of `src/RWXLoader.js`

The loader reads a RenderWare script (RWX) line by line and builds a three.js
scene graph.  This file transcribes the loader into Lean and proves (or refutes)
statements of its specification.

Conventions of the embedding

* JavaScript numbers are modelled by exact rationals (`ℚ`); rounding of IEEE
  doubles and of `Float32Array` storage is not modelled.  A buffer entry that
  would be `undefined`/`NaN` in JavaScript is `none`.
* JavaScript objects that are mutated through several references (`Matrix4`,
  `Group`) live in explicit heaps (`Ctx.mats`, `Ctx.groups`); a reference is the
  index of the object in its heap, and `new` appends to the heap.
* A JavaScript array used as a stack keeps its order: the last element of the
  list is the top of the stack, element `0` is the bottom.
* A thrown `TypeError` is the `Except.error` result.
* The parts of three.js the loader calls (`Matrix4`, `Vector4`, `Object3D.add`,
  `Object3D.clone`, `BufferGeometry.addGroup`) are modelled on the library's
  documented behaviour; trigonometry and the shape triangulator are parameters
  (`Env`).
-/

namespace RWX

/-! ## three.js `Matrix4` -/

/-- The sixteen `elements` of a three.js `Matrix4`, in column-major order:
`eK` is `elements[K]`, so `e12 e13 e14` hold the translation part. -/
structure Matrix4 where
  e0 : ℚ
  e1 : ℚ
  e2 : ℚ
  e3 : ℚ
  e4 : ℚ
  e5 : ℚ
  e6 : ℚ
  e7 : ℚ
  e8 : ℚ
  e9 : ℚ
  e10 : ℚ
  e11 : ℚ
  e12 : ℚ
  e13 : ℚ
  e14 : ℚ
  e15 : ℚ
deriving DecidableEq, Repr

namespace Matrix4

/-- The value of `new Matrix4()` and of `Matrix4.identity()`. -/
def identity : Matrix4 :=
  ⟨1, 0, 0, 0, 0, 1, 0, 0, 0, 0, 1, 0, 0, 0, 0, 1⟩

/-- The product `a × b` computed by `Matrix4.multiplyMatrices( a, b )`;
`a.multiply( b )` stores it into `a`. -/
def multiply (a b : Matrix4) : Matrix4 :=
  { e0 := a.e0 * b.e0 + a.e4 * b.e1 + a.e8 * b.e2 + a.e12 * b.e3
    e4 := a.e0 * b.e4 + a.e4 * b.e5 + a.e8 * b.e6 + a.e12 * b.e7
    e8 := a.e0 * b.e8 + a.e4 * b.e9 + a.e8 * b.e10 + a.e12 * b.e11
    e12 := a.e0 * b.e12 + a.e4 * b.e13 + a.e8 * b.e14 + a.e12 * b.e15
    e1 := a.e1 * b.e0 + a.e5 * b.e1 + a.e9 * b.e2 + a.e13 * b.e3
    e5 := a.e1 * b.e4 + a.e5 * b.e5 + a.e9 * b.e6 + a.e13 * b.e7
    e9 := a.e1 * b.e8 + a.e5 * b.e9 + a.e9 * b.e10 + a.e13 * b.e11
    e13 := a.e1 * b.e12 + a.e5 * b.e13 + a.e9 * b.e14 + a.e13 * b.e15
    e2 := a.e2 * b.e0 + a.e6 * b.e1 + a.e10 * b.e2 + a.e14 * b.e3
    e6 := a.e2 * b.e4 + a.e6 * b.e5 + a.e10 * b.e6 + a.e14 * b.e7
    e10 := a.e2 * b.e8 + a.e6 * b.e9 + a.e10 * b.e10 + a.e14 * b.e11
    e14 := a.e2 * b.e12 + a.e6 * b.e13 + a.e10 * b.e14 + a.e14 * b.e15
    e3 := a.e3 * b.e0 + a.e7 * b.e1 + a.e11 * b.e2 + a.e15 * b.e3
    e7 := a.e3 * b.e4 + a.e7 * b.e5 + a.e11 * b.e6 + a.e15 * b.e7
    e11 := a.e3 * b.e8 + a.e7 * b.e9 + a.e11 * b.e10 + a.e15 * b.e11
    e15 := a.e3 * b.e12 + a.e7 * b.e13 + a.e11 * b.e14 + a.e15 * b.e15 }

/-- The matrix set by `makeTranslation( x, y, z )`. -/
def makeTranslation (x y z : ℚ) : Matrix4 :=
  ⟨1, 0, 0, 0, 0, 1, 0, 0, 0, 0, 1, 0, x, y, z, 1⟩

/-- The matrix set by `makeScale( x, y, z )`. -/
def makeScale (x y z : ℚ) : Matrix4 :=
  ⟨x, 0, 0, 0, 0, y, 0, 0, 0, 0, z, 0, 0, 0, 0, 1⟩

/-- The matrix set by `makeRotationX( theta )`, given `c = cos theta` and
`s = sin theta`: rows `(1,0,0,0) (0,c,-s,0) (0,s,c,0) (0,0,0,1)`. -/
def makeRotationX (c s : ℚ) : Matrix4 :=
  ⟨1, 0, 0, 0, 0, c, s, 0, 0, -s, c, 0, 0, 0, 0, 1⟩

/-- The matrix set by `makeRotationY( theta )`: rows
`(c,0,s,0) (0,1,0,0) (-s,0,c,0) (0,0,0,1)`. -/
def makeRotationY (c s : ℚ) : Matrix4 :=
  ⟨c, 0, -s, 0, 0, 1, 0, 0, s, 0, c, 0, 0, 0, 0, 1⟩

/-- The matrix set by `makeRotationZ( theta )`: rows
`(c,-s,0,0) (s,c,0,0) (0,0,1,0) (0,0,0,1)`. -/
def makeRotationZ (c s : ℚ) : Matrix4 :=
  ⟨c, s, 0, 0, -s, c, 0, 0, 0, 0, 1, 0, 0, 0, 0, 1⟩

/-- The matrix read by `fromArray( array )`: `elements[ i ] = array[ i ]`.  The
loader only calls it on an array of length 16. -/
def fromArray (a : List ℚ) : Matrix4 :=
  ⟨a.getD 0 0, a.getD 1 0, a.getD 2 0, a.getD 3 0, a.getD 4 0, a.getD 5 0,
   a.getD 6 0, a.getD 7 0, a.getD 8 0, a.getD 9 0, a.getD 10 0, a.getD 11 0,
   a.getD 12 0, a.getD 13 0, a.getD 14 0, a.getD 15 0⟩

/-- The `elements` array of a matrix. -/
def elements (m : Matrix4) : List ℚ :=
  [m.e0, m.e1, m.e2, m.e3, m.e4, m.e5, m.e6, m.e7, m.e8, m.e9, m.e10, m.e11,
   m.e12, m.e13, m.e14, m.e15]

/-- The `x, y, z` of `new Vector4( x, y, z ).applyMatrix4( m )`; the vector's
`w` is the constructor default `1` and no perspective division is done. -/
def applyToPoint (m : Matrix4) (x y z : ℚ) : ℚ × ℚ × ℚ :=
  (m.e0 * x + m.e4 * y + m.e8 * z + m.e12,
   m.e1 * x + m.e5 * y + m.e9 * z + m.e13,
   m.e2 * x + m.e6 * y + m.e10 * z + m.e14)

end Matrix4

/-- External numeric collaborators of the loader.
`cosDeg d` and `sinDeg d` stand for `Math.cos( MathUtils.degToRad( d ) )` and
`Math.sin( MathUtils.degToRad( d ) )`.
`shape vertices loop` stands for the `ShapeBufferGeometry` built in
`triangulateFacesWithShapes` from the projection of a loop that is not empty: it
returns the vertex count of the geometry and its index array, three indices per
triangle. -/
structure Env where
  cosDeg : ℚ → ℚ
  sinDeg : ℚ → ℚ
  shape : List (Option ℚ) → List (Option Int) → Nat × List (Nat × Nat × Nat)

/-! ## Working material and material manager -/

/-- Decimal digits of `n`, left-padded with zeros to at least three characters. -/
def pad3 (n : Nat) : String :=
  (if n < 10 then "00" else if n < 100 then "0" else "") ++ Nat.repr n

/-- The string `x.toFixed( 3 )`: sign, then the integer `n` nearest to
`|x| * 1000` (the larger one on a tie) written with three decimals.  Faithful
for `|x| < 10^21`; above that JavaScript switches to exponent notation. -/
def toFixed3 (x : ℚ) : String :=
  let n : Nat := (Rat.floor (|x| * 1000 + 1 / 2)).toNat
  (if x < 0 then "-" else "") ++ Nat.repr (n / 1000) ++ "." ++ pad3 (n % 1000)

/-- The class `RWXMaterial`, with the defaults of its field initialisers.
`lightsampling`: FACET 1, VERTEX 2.  `geometrysampling`: POINTCLOUD 1,
WIREFRAME 2, SOLID 3.  `materialmode`: NONE 0, NULL 1, DOUBLE 2.
`texturemodes` holds LIT 1.  The unused field `transform` is left out. -/
structure RWXMaterial where
  color : List ℚ := [0, 0, 0]
  surface : List ℚ := [0, 0, 0]
  opacity : ℚ := 1
  lightsampling : Nat := 1
  geometrysampling : Nat := 3
  texturemodes : List Nat := [1]
  materialmode : Nat := 1
  texture : Option String := none
  mask : Option String := none
  collision : Bool := true
deriving DecidableEq, Repr

/-- ToInt32 of an integer-valued number. -/
def toInt32 (n : Int) : Int :=
  let m := n % 4294967296
  if m ≥ 2147483648 then m - 4294967296 else m

/-- The value of `Math.trunc( x )`. -/
def trunc (x : ℚ) : Int :=
  if x < 0 then - Rat.floor (- x) else Rat.floor x

/-- The value of `RWXMaterial.getColorHexValue()`. -/
def RWXMaterial.getColorHexValue (m : RWXMaterial) : Int :=
  toInt32 (toInt32 (trunc (m.color.getD 0 0 * 255)) * 65536)
    + toInt32 (toInt32 (trunc (m.color.getD 1 0 * 255)) * 256)
    + trunc (m.color.getD 2 0 * 255)

/-- The value of `RWXMaterial.getMatSignature()`: the fields are concatenated
without any separator. -/
def RWXMaterial.getMatSignature (m : RWXMaterial) : String :=
  let sign := toFixed3 (m.color.getD 0 0) ++ toFixed3 (m.color.getD 1 0)
    ++ toFixed3 (m.color.getD 2 0)
  let sign := sign ++ (toFixed3 (m.surface.getD 0 0) ++ toFixed3 (m.surface.getD 1 0)
    ++ toFixed3 (m.surface.getD 2 0))
  let sign := sign ++ toFixed3 m.opacity
  let sign := sign ++ (Nat.repr m.lightsampling ++ Nat.repr m.geometrysampling)
  let sign := m.texturemodes.foldl (fun acc tm => acc ++ Nat.repr tm) sign
  let sign := sign ++ Nat.repr m.materialmode
  let sign := match m.texture with
    | some t => sign ++ t
    | none => sign
  let sign := match m.mask with
    | some k => sign ++ k
    | none => sign
  sign ++ (if m.collision then "true" else "false")

/-- The resource returned by `makeThreeMaterial` (`phongMat` with its loading
promises).  `id` tells resource objects apart (the number of resources made
before it in this parse), `name` is the signature stored as the material name,
and `source` is the value the working material had when the resource was made:
every attribute of the three.js material is computed from it. -/
structure ThreeMaterial where
  id : Nat
  name : String
  source : RWXMaterial
deriving DecidableEq, Repr

/-- The function `makeThreeMaterial( rwxMaterial, ... )`; `n` is the number of
resources made so far. -/
def makeThreeMaterial (n : Nat) (rwxMaterial : RWXMaterial) : ThreeMaterial :=
  { id := n, name := rwxMaterial.getMatSignature, source := rwxMaterial }

/-- The class `RWXMaterialManager`; `threeMaterialMap` lists its keys in
insertion order.  The configuration fields (folder, extensions, zip helpers)
only feed the asynchronous texture loading and are left out. -/
structure RWXMaterialManager where
  currentRWXMaterial : RWXMaterial := {}
  threeMaterialMap : List (String × ThreeMaterial) := []
  currentMaterialID : Option Nat := none
  currentMaterialList : List ThreeMaterial := []
  currentMaterialSignature : String := ""
deriving DecidableEq, Repr

/-- The value of `this.threeMaterialMap[ key ]` (`none` for `undefined`). -/
def lookupMaterial (map : List (String × ThreeMaterial)) (key : String) : Option ThreeMaterial :=
  (map.find? (fun p => p.1 == key)).map Prod.snd

/-- The method `RWXMaterialManager.getCurrentMaterialID()`: the returned slot and
the manager after the call. -/
def RWXMaterialManager.getCurrentMaterialID (m : RWXMaterialManager) :
    Option Nat × RWXMaterialManager :=
  let materialSignature := m.currentRWXMaterial.getMatSignature
  let (res, m1) :=
    match lookupMaterial m.threeMaterialMap materialSignature with
    | none =>
      let made := makeThreeMaterial m.threeMaterialMap.length m.currentRWXMaterial
      (made, { m with threeMaterialMap := m.threeMaterialMap ++ [(materialSignature, made)] })
    | some r => (r, m)
  let m2 :=
    if m1.currentMaterialSignature != materialSignature then
      { m1 with
        currentMaterialSignature := materialSignature
        currentMaterialID :=
          match m1.currentMaterialID with
          | none => some 0
          | some k => some (k + 1)
        currentMaterialList := m1.currentMaterialList ++ [res] }
    else m1
  (m2.currentMaterialID, m2)

/-- The method `RWXMaterialManager.resetCurrentMaterialList()`. -/
def RWXMaterialManager.resetCurrentMaterialList (m : RWXMaterialManager) : RWXMaterialManager :=
  { m with
    currentMaterialID := none
    currentMaterialList := []
    currentMaterialSignature := ""
    currentRWXMaterial := {} }

/-! ## Scene graph objects -/

/-- One entry of `BufferGeometry.groups`, as pushed by
`addGroup( start, count, materialIndex )`; a `null` material index is `none`. -/
structure GeomGroup where
  start : Nat
  count : Nat
  materialIndex : Option Nat
deriving DecidableEq, Repr

/-- A `Mesh` as built by `makeMeshToCurrentGroup`, recorded by what the loader
hands to three.js: `position` and `uv` are the arrays given to
`new Float32Array( ... )`, `index` is the plain array given to `setIndex`,
`groups` are the geometry groups and `material` is the material array.  The
library stores the index in a `Uint16Array` or `Uint32Array`; what it stores is
`Mesh.indexArray` below (an index `-1` is kept here as `-1` and stored as
`65535`). -/
structure Mesh where
  position : List (Option ℚ)
  uv : List (Option ℚ)
  index : List Int
  groups : List GeomGroup
  material : List ThreeMaterial
deriving DecidableEq, Repr

/-- The `LineSegments` object built by `addQuad` under wireframe sampling: the
18 position numbers handed to the temporary geometry and the line colour. -/
structure Lines where
  position : List (Option ℚ)
  color : Int
deriving DecidableEq, Repr

/-- A child of a `Group`: another group (by reference), a mesh or a line set. -/
inductive Child where
  | group (id : Nat)
  | mesh (m : Mesh)
  | lines (l : Lines)
deriving DecidableEq, Repr

/-- A three.js `Group` object: its `children`, its `matrix` and
`userData[ 'rwx' ].axisAlignment` (`none` when `userData` has no `rwx` entry). -/
structure GroupObj where
  children : List Child := []
  matrix : Matrix4 := Matrix4.identity
  axisAlignment : Option String := none
deriving DecidableEq, Repr

/-- Replace the element at position `i` by its image under `f`. -/
def modifyAt {α : Type} (f : α → α) : Nat → List α → List α
  | _, [] => []
  | 0, x :: xs => f x :: xs
  | i + 1, x :: xs => x :: modifyAt f i xs

/-- The value of `array.pop()` together with the array after the call. -/
def pop {α : Type} (xs : List α) : Option α × List α :=
  (xs.getLast?, xs.dropLast)

/-- The value of `buffer[ i ]` for a numeric buffer: `none` outside the buffer. -/
def at? (buffer : List (Option ℚ)) (i : Int) : Option ℚ :=
  if i < 0 then none else (buffer.get? i.toNat).join

/-! ## Parse context -/

/-- A thrown JavaScript exception. -/
inductive Err where
  | typeError
  | rangeError
deriving DecidableEq, Repr

/-- The object `ctx` of `RWXLoader.parse`, the two local variables
`transformBeforeProto` and `groupBeforeProto`, and the two object heaps.
`rwxClumpStack` and `loadingPromises` never influence the scene graph and are
left out.  Note that the source stores the *group* in `transformBeforeProto` and
the *transform* in `groupBeforeProto`. -/
structure Ctx where
  groups : List GroupObj := []
  mats : List Matrix4 := [Matrix4.identity]
  groupStack : List Nat := []
  currentGroup : Option Nat := none
  transformStack : List (Option Nat) := []
  transformSaves : List Nat := []
  currentTransform : Option Nat := some 0
  currentBufferGeometry : Option (List GeomGroup) := none
  currentBufferVertices : List (Option ℚ) := []
  currentBufferUVs : List (Option ℚ) := []
  currentBufferFaces : List Int := []
  currentBufferFaceCount : Nat := 0
  currentBufferGroupFirstFaceID : Nat := 0
  previousMaterialID : Option Nat := none
  rwxProtoDict : List (String × Nat) := []
  materialManager : RWXMaterialManager := {}
  transformBeforeProto : Option Nat := none
  groupBeforeProto : Option Nat := none
deriving DecidableEq, Repr

namespace Ctx

/-- The matrix object behind a reference. -/
def mat (ctx : Ctx) (r : Nat) : Matrix4 :=
  ctx.mats.getD r Matrix4.identity

/-- Allocate a matrix object: the heap after `new Matrix4()` (or `clone()`) and
the new reference. -/
def newMatrix (ctx : Ctx) (m : Matrix4) : Ctx × Nat :=
  ({ ctx with mats := ctx.mats ++ [m] }, ctx.mats.length)

/-- Overwrite the matrix object behind `r` (an in-place update, seen through
every reference to that object). -/
def setMat (ctx : Ctx) (r : Nat) (m : Matrix4) : Ctx :=
  { ctx with mats := ctx.mats.set r m }

/-- The call `group.add( child )` on the group object behind `id`. -/
def addChild (ctx : Ctx) (id : Nat) (c : Child) : Ctx :=
  { ctx with groups := modifyAt (fun g => { g with children := g.children ++ [c] }) id ctx.groups }

/-- The value of `ctx.rwxProtoDict[ name ]`. -/
def proto (ctx : Ctx) (name : String) : Option Nat :=
  (ctx.rwxProtoDict.find? (fun p => p.1 == name)).map Prod.snd

end Ctx

/-- The assignment `dict[ name ] = id`: an existing key keeps its place. -/
def setProto (dict : List (String × Nat)) (name : String) (id : Nat) : List (String × Nat) :=
  if dict.any (fun p => p.1 == name) then
    dict.map (fun p => if p.1 == name then (name, id) else p)
  else dict ++ [(name, id)]

/-- One step of the loop of `getFinalTransform`: `transform.multiply( t )`;
multiplying by an `undefined` or `null` entry throws. -/
def multiplyEntry (ctx : Ctx) (transform : Matrix4) (t : Option Nat) : Except Err Matrix4 :=
  match t with
  | some r => pure (transform.multiply (ctx.mat r))
  | none => throw Err.typeError

/-- The function `getFinalTransform( ctx )`: the product of the stack entries,
bottom first, times the current transform. -/
def getFinalTransform (ctx : Ctx) : Except Err Matrix4 := do
  let transform ← ctx.transformStack.foldlM (multiplyEntry ctx) Matrix4.identity
  multiplyEntry ctx transform ctx.currentTransform

/-! ## Geometry accumulation -/

/-- The function `commitBufferGeometryGroup( ctx )`.  `addGroup` on a `null`
geometry throws. -/
def commitBufferGeometryGroup (ctx : Ctx) : Except Err Ctx :=
  match ctx.currentBufferGeometry with
  | none => throw Err.typeError
  | some groups =>
    let added : GeomGroup :=
      { start := ctx.currentBufferGroupFirstFaceID
        count := ctx.currentBufferFaceCount * 3
        materialIndex := ctx.previousMaterialID }
    let (id, manager) := ctx.materialManager.getCurrentMaterialID
    pure { ctx with
      currentBufferGeometry := some (groups ++ [added])
      materialManager := manager
      previousMaterialID := id
      currentBufferGroupFirstFaceID := ctx.currentBufferGroupFirstFaceID + ctx.currentBufferFaceCount * 3
      currentBufferFaceCount := 0 }

/-- The function `resetGeometry( ctx )`. -/
def resetGeometry (ctx : Ctx) : Except Err Ctx := do
  let ctx ← if ctx.currentBufferFaceCount > 0 then commitBufferGeometryGroup ctx else pure ctx
  pure { ctx with
    currentBufferGeometry := some []
    currentBufferVertices := []
    currentBufferUVs := []
    currentBufferFaces := []
    currentBufferFaceCount := 0
    currentBufferGroupFirstFaceID := 0
    previousMaterialID := none }

/-- The function `makeMeshToCurrentGroup( ctx )`.  The mesh records the arrays
handed to `new Float32Array( ... )` and to `setIndex`; see `Mesh`. -/
def makeMeshToCurrentGroup (ctx : Ctx) : Except Err Ctx := do
  let ctx ← if ctx.currentBufferFaceCount > 0 then commitBufferGeometryGroup ctx else pure ctx
  if ctx.currentBufferFaces.length > 0 then
    match ctx.currentBufferGeometry, ctx.currentGroup with
    | some groups, some g =>
      let mesh : Mesh :=
        { position := ctx.currentBufferVertices
          uv := ctx.currentBufferUVs
          index := ctx.currentBufferFaces
          groups := groups
          material := ctx.materialManager.currentMaterialList }
      pure (ctx.addChild g (Child.mesh mesh))
    | _, _ => throw Err.typeError
  else pure ctx

/-- The material check that opens `addTriangle`, `addQuad` and `addPolygon`:
resolve the current material and commit the open group when the slot differs
from `previousMaterialID`. -/
def checkMaterial (ctx : Ctx) : Except Err Ctx :=
  let (id, manager) := ctx.materialManager.getCurrentMaterialID
  let ctx := { ctx with materialManager := manager }
  if id ≠ ctx.previousMaterialID then commitBufferGeometryGroup ctx else pure ctx

/-- The function `addTriangle( ctx, a, b, c )`. -/
def addTriangle (ctx : Ctx) (a b c : Int) : Except Err Ctx := do
  let ctx ← checkMaterial ctx
  pure { ctx with
    currentBufferFaceCount := ctx.currentBufferFaceCount + 1
    currentBufferFaces := ctx.currentBufferFaces ++ [a, b, c] }

/-- The three numbers `buffer[ i * 3 ], buffer[ i * 3 + 1 ], buffer[ i * 3 + 2 ]`. -/
def xyzAt (buffer : List (Option ℚ)) (i : Int) : List (Option ℚ) :=
  [at? buffer (i * 3), at? buffer (i * 3 + 1), at? buffer (i * 3 + 2)]

/-- The function `addQuad( ctx, a, b, c, d )`.  Under wireframe sampling (2) a
`LineSegments` child over the corners `a b c a c d` is added to the current
group instead of faces. -/
def addQuad (ctx : Ctx) (a b c d : Int) : Except Err Ctx := do
  let ctx ← checkMaterial ctx
  if ctx.materialManager.currentRWXMaterial.geometrysampling = 2 then
    let v := ctx.currentBufferVertices
    let lines : Lines :=
      { position := xyzAt v a ++ xyzAt v b ++ xyzAt v c ++ xyzAt v a ++ xyzAt v c ++ xyzAt v d
        color := ctx.materialManager.currentRWXMaterial.getColorHexValue }
    match ctx.currentGroup with
    | some g => pure (ctx.addChild g (Child.lines lines))
    | none => throw Err.typeError
  else
    pure { ctx with
      currentBufferFaceCount := ctx.currentBufferFaceCount + 2
      currentBufferFaces := ctx.currentBufferFaces ++ [a, b, c] ++ [a, c, d] }

/-- The function `triangulateFacesWithShapes( vertices, uvs, loop )`: the new
vertices (the loop's own positions, one per vertex of the shape geometry), the
new uvs (copied in loop order) and the faces (the shape indices shifted by the
number of vertices already in the buffer).  For an empty loop
`new Shape( projVertices )` reads `points[ 0 ].x` of an empty array and throws a
`TypeError`. -/
def triangulateFacesWithShapes (env : Env) (vertices uvs : List (Option ℚ))
    (loop : List (Option Int)) : Except Err (List (Option ℚ) × List (Option ℚ) × List Int) :=
  if loop = [] then throw Err.typeError
  else
    let offset : Int := (vertices.length / 3 : Nat)
    let newUvs := loop.flatMap (fun i =>
      match i with
      | some k => [at? uvs (k * 2), at? uvs (k * 2 + 1)]
      | none => [none, none])
    let (count, shapeIndices) := env.shape vertices loop
    let newVertices := (List.range count).flatMap (fun i =>
      match (loop.get? i).join with
      | some k => xyzAt vertices k
      | none => [none, none, none])
    let faces := shapeIndices.flatMap (fun t => [(t.1 : Int) + offset, (t.2.1 : Int) + offset, (t.2.2 : Int) + offset])
    pure (newVertices, newUvs, faces)

/-- The function `addPolygon( ctx, indices )`; it throws when the triangulator
does, that is for an empty loop. -/
def addPolygon (env : Env) (ctx : Ctx) (indices : List (Option Int)) : Except Err Ctx := do
  let ctx ← checkMaterial ctx
  let (newVertices, newUVs, newFaces) ←
    triangulateFacesWithShapes env ctx.currentBufferVertices ctx.currentBufferUVs indices
  pure { ctx with
    currentBufferVertices := ctx.currentBufferVertices ++ newVertices
    currentBufferUVs := ctx.currentBufferUVs ++ newUVs
    currentBufferFaceCount := ctx.currentBufferFaceCount + newFaces.length / 3
    currentBufferFaces := ctx.currentBufferFaces ++ newFaces }

/-! ## Group and transform stacks -/

/-- The function `pushCurrentGroup( ctx )`. -/
def pushCurrentGroup (ctx : Ctx) : Except Err Ctx :=
  match ctx.currentGroup with
  | none => throw Err.typeError
  | some g =>
    let group := ctx.groups.length
    let ctx := { ctx with groups := ctx.groups ++ [({} : GroupObj)] }
    let ctx := ctx.addChild g (Child.group group)
    pure { ctx with groupStack := ctx.groupStack ++ [g], currentGroup := some group }

/-- The function `popCurrentGroup( ctx )`. -/
def popCurrentGroup (ctx : Ctx) : Ctx :=
  { ctx with currentGroup := (pop ctx.groupStack).1, groupStack := (pop ctx.groupStack).2 }

/-- The function `pushCurrentTransform( ctx )`. -/
def pushCurrentTransform (ctx : Ctx) : Ctx :=
  let ctx := { ctx with transformStack := ctx.transformStack ++ [ctx.currentTransform] }
  let (ctx, r) := ctx.newMatrix Matrix4.identity
  { ctx with currentTransform := some r }

/-- The function `popCurrentTransform( ctx )`. -/
def popCurrentTransform (ctx : Ctx) : Ctx :=
  { ctx with
    currentTransform := (pop ctx.transformStack).1.join
    transformStack := (pop ctx.transformStack).2 }

/-- The function `saveCurrentTransform( ctx )`. -/
def saveCurrentTransform (ctx : Ctx) : Except Err Ctx :=
  match ctx.currentTransform with
  | none => throw Err.typeError
  | some r =>
    let (ctx, copy) := ctx.newMatrix (ctx.mat r)
    pure { ctx with transformSaves := ctx.transformSaves ++ [copy] }

/-- The function `loadCurrentTransform( ctx )`. -/
def loadCurrentTransform (ctx : Ctx) : Ctx :=
  if ctx.transformSaves.length > 0 then
    { ctx with
      currentTransform := (pop ctx.transformSaves).1
      transformSaves := (pop ctx.transformSaves).2 }
  else
    let (ctx, r) := ctx.newMatrix Matrix4.identity
    { ctx with currentTransform := some r }

/-! ## Prototype instancing: `Object3D.clone` -/

/-- Clone the children of a group in order; `cloneOne` clones a child group. -/
def cloneChildren (cloneOne : List GroupObj → Nat → Option (List GroupObj × Nat)) :
    List Child → List GroupObj → Option (List GroupObj × List Child)
  | [], arena => some (arena, [])
  | Child.group id :: rest, arena =>
    match cloneOne arena id with
    | none => none
    | some (arena1, id1) =>
      match cloneChildren cloneOne rest arena1 with
      | none => none
      | some (arena2, kids) => some (arena2, Child.group id1 :: kids)
  | Child.mesh m :: rest, arena =>
    match cloneChildren cloneOne rest arena with
    | none => none
    | some (arena1, kids) => some (arena1, Child.mesh m :: kids)
  | Child.lines l :: rest, arena =>
    match cloneChildren cloneOne rest arena with
    | none => none
    | some (arena1, kids) => some (arena1, Child.lines l :: kids)

/-- The call `group.clone()` (recursive): a new group object with the matrix and
user data of the source and clones of its children; meshes and line sets keep
their (frozen) geometry.  The recursion depth is bounded by `fuel`; `none` means
the bound was hit or a reference is dangling. -/
def cloneGroup : Nat → List GroupObj → Nat → Option (List GroupObj × Nat)
  | 0, _, _ => none
  | fuel + 1, arena, id =>
    match arena.get? id with
    | none => none
    | some g =>
      let n := arena.length
      match cloneChildren (cloneGroup fuel) g.children (arena ++ [{ g with children := [] }]) with
      | none => none
      | some (arena1, kids) => some (arena1.set n { g with children := kids }, n)

/-- The call `object.applyMatrix4( m )` on the group behind `id`: its matrix is
premultiplied by `m`.  The library first recomputes the matrix from position,
quaternion and scale (`updateMatrix`) and decomposes the product afterwards;
neither is modelled.  The loader applies it to new clones of prototype groups and
to the root, whose matrix and placement are the identity. -/
def applyMatrix4 (ctx : Ctx) (id : Nat) (m : Matrix4) : Ctx :=
  { ctx with groups := modifyAt (fun g => { g with matrix := m.multiply g.matrix }) id ctx.groups }

/-! ## Commands: one per branch of the dispatch loop of `parse` -/

/-- What a matched line carries into its branch of `RWXLoader.parse`.  Vertex
indices are the numbers written in the text (1-based).  There is no command for
`modelend`: the loop never tests `modelendRegex`. -/
inductive Command where
  | modelbegin
  | clumpbegin
  | clumpend
  | transformbegin
  | transformend
  | protobegin (name : String)
  | protoend
  | protoinstance (name : String)
  | texture (name : String) (mask : Option String)
  | triangle (i j k : Nat)
  | quad (i j k l : Nat)
  | polygon (polyLen : Nat) (polyStrIDs : List Nat)
  | vertex (x y z : ℚ) (uv : Option (ℚ × ℚ))
  | color (cprops : List ℚ)
  | opacity (v : ℚ)
  | identity
  | transform (tprops : List ℚ)
  | translate (tprops : List ℚ)
  | rotate (rprops : List ℚ)
  | scale (sprops : List ℚ)
  | surface (sprops : List ℚ)
  | ambient (v : ℚ)
  | diffuse (v : ℚ)
  | specular (v : ℚ)
  | materialmode (mode : String)
  | collision (value : String)
  | lightsampling (value : String)
  | geometrysampling (value : String)
  | axisalignment (value : String)
deriving DecidableEq, Repr

/-- The value of `s.toLowerCase()` (on the ASCII words the patterns admit). -/
def toLowerCase (s : String) : String :=
  String.mk (s.data.map Char.toLower)

/-- Update the working material. -/
def Ctx.setMaterial (ctx : Ctx) (f : RWXMaterial → RWXMaterial) : Ctx :=
  { ctx with materialManager :=
      { ctx.materialManager with currentRWXMaterial := f ctx.materialManager.currentRWXMaterial } }

/-- The statement `ctx.currentTransform.multiply( m )`. -/
def multiplyCurrent (ctx : Ctx) (m : Matrix4) : Except Err Ctx :=
  match ctx.currentTransform with
  | some r => pure (ctx.setMat r ((ctx.mat r).multiply m))
  | none => throw Err.typeError

/-- The index loop built by the polygon branch: the first `polyLen` entries of
`polyStrIDs`, each minus one, in reverse order (`unshift`); a missing entry
yields `NaN`. -/
def polyIDs (polyLen : Nat) (polyStrIDs : List Nat) : List (Option Int) :=
  (List.range polyLen).foldl
    (fun acc polyI => ((polyStrIDs.get? polyI).map (fun (id : Nat) => (id : Int) - 1)) :: acc) []

/-- The body of the branch of `RWXLoader.parse` taken by a matched line. -/
def exec (env : Env) (ctx : Ctx) : Command → Except Err Ctx
  | Command.modelbegin =>
    let g := ctx.groups.length
    let groupStack := ctx.groupStack ++ [g]
    let groups := modifyAt (fun o => { o with axisAlignment := some "none" })
      (groupStack.headD 0) (ctx.groups ++ [({} : GroupObj)])
    pure { ctx with
      groups := groups
      groupStack := groupStack
      currentGroup := groupStack.getLast?
      transformStack := ctx.transformStack ++ [ctx.currentTransform] }
  | Command.clumpbegin => do
    let ctx ← makeMeshToCurrentGroup ctx
    let ctx ← resetGeometry ctx
    let ctx ← pushCurrentGroup ctx
    pure (pushCurrentTransform ctx)
  | Command.clumpend => do
    let ctx ← makeMeshToCurrentGroup ctx
    let ctx := popCurrentTransform ctx
    let ctx := popCurrentGroup ctx
    let ctx ← resetGeometry ctx
    pure { ctx with materialManager := ctx.materialManager.resetCurrentMaterialList }
  | Command.transformbegin => saveCurrentTransform ctx
  | Command.transformend => pure (loadCurrentTransform ctx)
  | Command.protobegin name => do
    let ctx := { ctx with
      transformBeforeProto := ctx.currentGroup
      groupBeforeProto := ctx.currentTransform }
    let g := ctx.groups.length
    let ctx := { ctx with
      groups := ctx.groups ++ [({} : GroupObj)]
      rwxProtoDict := setProto ctx.rwxProtoDict name g }
    let (ctx, r) := ctx.newMatrix Matrix4.identity
    let ctx := { ctx with currentTransform := some r }
    let ctx ← resetGeometry ctx
    let ctx := ctx.setMaterial (fun _ => {})
    pure { ctx with currentGroup := ctx.proto name }
  | Command.protoend => do
    let ctx ← makeMeshToCurrentGroup ctx
    let ctx := { ctx with
      currentGroup := ctx.transformBeforeProto
      currentTransform := ctx.groupBeforeProto }
    let ctx ← resetGeometry ctx
    pure { ctx with materialManager := ctx.materialManager.resetCurrentMaterialList }
  | Command.protoinstance name =>
    match ctx.proto name with
    | none => throw Err.typeError
    | some source =>
      match cloneGroup (ctx.groups.length + 1) ctx.groups source with
      | none => throw Err.rangeError
      | some (groups, protoMesh) => do
        let ctx := { ctx with groups := groups }
        let tmpTransform ← getFinalTransform ctx
        let ctx := applyMatrix4 ctx protoMesh tmpTransform
        match ctx.currentGroup with
        | some g => pure (ctx.addChild g (Child.group protoMesh))
        | none => throw Err.typeError
  | Command.texture name mask =>
    let ctx := ctx.setMaterial (fun m =>
      { m with texture := if toLowerCase name = "null" then none else some name })
    pure (ctx.setMaterial (fun m => { m with mask := mask }))
  | Command.triangle i j k => addTriangle ctx ((i : Int) - 1) ((j : Int) - 1) ((k : Int) - 1)
  | Command.quad i j k l =>
    addQuad ctx ((i : Int) - 1) ((j : Int) - 1) ((k : Int) - 1) ((l : Int) - 1)
  | Command.polygon polyLen polyStrIDs => addPolygon env ctx (polyIDs polyLen polyStrIDs)
  | Command.vertex x y z uv => do
    let final ← getFinalTransform ctx
    let tmpVertex := final.applyToPoint x y z
    let ctx := { ctx with
      currentBufferVertices :=
        ctx.currentBufferVertices ++ [some tmpVertex.1, some tmpVertex.2.1, some tmpVertex.2.2] }
    match uv with
    | some (u, v) =>
      pure { ctx with currentBufferUVs := ctx.currentBufferUVs ++ [some u, some (1 - v)] }
    | none => pure { ctx with currentBufferUVs := ctx.currentBufferUVs ++ [some 0, some 0] }
  | Command.color cprops =>
    if cprops.length = 3 then pure (ctx.setMaterial (fun m => { m with color := cprops }))
    else pure ctx
  | Command.opacity v => pure (ctx.setMaterial (fun m => { m with opacity := v }))
  | Command.identity =>
    match ctx.currentTransform with
    | some r => pure (ctx.setMat r Matrix4.identity)
    | none => throw Err.typeError
  | Command.transform tprops =>
    if tprops.length = 16 then
      let tprops := if tprops.getD 15 0 = 0 then tprops.set 15 1 else tprops
      match ctx.currentTransform with
      | some r => pure (ctx.setMat r (Matrix4.fromArray tprops))
      | none => throw Err.typeError
    else pure ctx
  | Command.translate tprops =>
    if tprops.length = 3 then
      multiplyCurrent ctx (Matrix4.makeTranslation (tprops.getD 0 0) (tprops.getD 1 0) (tprops.getD 2 0))
    else pure ctx
  | Command.rotate rprops =>
    if rprops.length = 4 then do
      let angle := rprops.getD 3 0
      let ctx ← if rprops.getD 0 0 ≠ 0 then
          multiplyCurrent ctx (Matrix4.makeRotationX (env.cosDeg (rprops.getD 0 0 * angle))
            (env.sinDeg (rprops.getD 0 0 * angle)))
        else pure ctx
      let ctx ← if rprops.getD 1 0 ≠ 0 then
          multiplyCurrent ctx (Matrix4.makeRotationY (env.cosDeg (rprops.getD 1 0 * angle))
            (env.sinDeg (rprops.getD 1 0 * angle)))
        else pure ctx
      if rprops.getD 2 0 ≠ 0 then
        multiplyCurrent ctx (Matrix4.makeRotationZ (env.cosDeg (rprops.getD 2 0 * angle))
          (env.sinDeg (rprops.getD 2 0 * angle)))
      else pure ctx
    else pure ctx
  | Command.scale sprops =>
    if sprops.length = 3 then
      multiplyCurrent ctx (Matrix4.makeScale (sprops.getD 0 0) (sprops.getD 1 0) (sprops.getD 2 0))
    else pure ctx
  | Command.surface sprops => pure (ctx.setMaterial (fun m => { m with surface := sprops }))
  | Command.ambient v => pure (ctx.setMaterial (fun m => { m with surface := m.surface.set 0 v }))
  | Command.diffuse v => pure (ctx.setMaterial (fun m => { m with surface := m.surface.set 1 v }))
  | Command.specular v => pure (ctx.setMaterial (fun m => { m with surface := m.surface.set 2 v }))
  | Command.materialmode mode =>
    let matMode := toLowerCase mode
    if matMode = "none" then pure (ctx.setMaterial (fun m => { m with materialmode := 0 }))
    else if matMode = "null" then pure (ctx.setMaterial (fun m => { m with materialmode := 1 }))
    else if matMode = "double" then pure (ctx.setMaterial (fun m => { m with materialmode := 2 }))
    else pure ctx
  | Command.collision value =>
    let collision := toLowerCase value
    if collision = "on" then pure (ctx.setMaterial (fun m => { m with collision := true }))
    else if collision = "off" then pure (ctx.setMaterial (fun m => { m with collision := false }))
    else pure ctx
  | Command.lightsampling value =>
    if toLowerCase value = "vertex" then pure (ctx.setMaterial (fun m => { m with lightsampling := 2 }))
    else pure (ctx.setMaterial (fun m => { m with lightsampling := 1 }))
  | Command.geometrysampling value =>
    let gs := toLowerCase value
    if gs = "pointcloud" then pure (ctx.setMaterial (fun m => { m with geometrysampling := 1 }))
    else if gs = "wireframe" then pure (ctx.setMaterial (fun m => { m with geometrysampling := 2 }))
    else pure (ctx.setMaterial (fun m => { m with geometrysampling := 3 }))
  | Command.axisalignment value =>
    match ctx.groupStack.head? with
    | none => throw Err.typeError
    | some root =>
      match (ctx.groups.get? root).bind (fun o => o.axisAlignment) with
      | none => throw Err.typeError
      | some _ =>
        let groups := modifyAt (fun o => { o with axisAlignment := some (toLowerCase value) })
          root ctx.groups
        pure { ctx with groups := groups }

/-- Run the branches of a list of commands in order, stopping at the first
exception. -/
def execAll (env : Env) (ctx : Ctx) (cmds : List Command) : Except Err Ctx :=
  cmds.foldlM (exec env) ctx

/-- The end of `parse`: `ctx.groupStack[ 0 ].applyMatrix4( scale_ten )`; the
reference of the root handed to `onParse` comes with the final context.
(Flattening and waiting for textures are options applied to that root.) -/
def finish (ctx : Ctx) : Except Err (Ctx × Nat) :=
  match ctx.groupStack.head? with
  | none => throw Err.typeError
  | some root => pure (applyMatrix4 ctx root (Matrix4.makeScale 10 10 10), root)

/-! ## JavaScript regular expressions (the subset the loader uses) -/

/-- Abstract syntax of a pattern.  `grp i r` is the `i`-th capturing group of
the pattern, numbered by its opening parenthesis as in JavaScript. -/
inductive Re where
  | chr (c : Char)
  | cls (ranges : List (Char × Char))
  | any
  | bol
  | eol
  | seq (a b : Re)
  | alt (a b : Re)
  | star (r : Re)
  | opt (r : Re)
  | rep (n : Nat) (r : Re)
  | grp (i : Nat) (r : Re)
deriving Repr

/-- A position of the matcher in the subject: the index reached, the text that
remains, and the captures made so far (most recent first). -/
structure MState where
  pos : Nat
  rest : List Char
  caps : List (Nat × List Char)
deriving DecidableEq, Repr

namespace Re

/-- One or more repetitions, `r+`. -/
def plus (r : Re) : Re := seq r (star r)

/-- The concatenation of a list of patterns. -/
def cat : List Re → Re
  | [] => star (cls [])
  | [r] => r
  | r :: rs => seq r (cat rs)

/-- The literal word `w`. -/
def word (w : String) : Re := cat (w.data.map chr)

/-- The capturing groups inside a pattern. -/
def groups : Re → List Nat
  | chr _ => []
  | cls _ => []
  | any => []
  | bol => []
  | eol => []
  | seq a b => groups a ++ groups b
  | alt a b => groups a ++ groups b
  | star r => groups r
  | opt r => groups r
  | rep _ r => groups r
  | grp i r => i :: groups r

end Re

/-- A line terminator of JavaScript: `.` does not match these. -/
def isLineTerminator (c : Char) : Bool :=
  c = '\n' || c = '\r' || c.toNat = 0x2028 || c.toNat = 0x2029

/-- The canonical form of a character for a comparison under the `i` flag (no
`u` flag): ASCII letters are folded, other characters that could fold onto an
ASCII letter are kept apart by the standard. -/
def canonicalize (ic : Bool) (c : Char) : Char :=
  if ic then c.toUpper else c

/-- Whether character `x` matches the class made of the given ranges. -/
def inClass (ic : Bool) (ranges : List (Char × Char)) (x : Char) : Bool :=
  ranges.any (fun r => (r.1.val ≤ x.val && x.val ≤ r.2.val)
    || (ic && ((r.1.val ≤ x.toUpper.val && x.toUpper.val ≤ r.2.val)
      || (r.1.val ≤ x.toLower.val && x.toLower.val ≤ r.2.val))))

/-- Consume one character of the subject. -/
def MState.step (st : MState) (ok : Char → Bool) (k : MState → Option MState) : Option MState :=
  match st.rest with
  | [] => none
  | x :: xs => if ok x then k { st with pos := st.pos + 1, rest := xs } else none

/-- Forget the captures of the given groups (done at the start of every
iteration of a quantified pattern). -/
def MState.clear (gs : List Nat) (st : MState) : MState :=
  { st with caps := st.caps.filter (fun p => !gs.contains p.1) }

/-- Greedy `r*` with backtracking: `body` matches `r`; an iteration that
consumes nothing is rejected. -/
def starLoop (body : MState → (MState → Option MState) → Option MState) (gs : List Nat) :
    Nat → MState → (MState → Option MState) → Option MState
  | 0, st, k => k st
  | fuel + 1, st, k =>
    match body (st.clear gs)
        (fun st1 => if st1.pos = st.pos then none else starLoop body gs fuel st1 k) with
    | some r => some r
    | none => k st

/-- Exactly `n` repetitions, `r{n}`. -/
def repLoop (body : MState → (MState → Option MState) → Option MState) (gs : List Nat) :
    Nat → MState → (MState → Option MState) → Option MState
  | 0, st, k => k st
  | n + 1, st, k => body (st.clear gs) (fun st1 => repLoop body gs n st1 k)

/-- The backtracking matcher: `run ic r st k` matches `r` at `st` and hands the
state reached to the continuation `k`; alternatives are tried left to right and
quantifiers are greedy.  `ic` is the `i` flag. -/
def Re.run (ic : Bool) : Re → MState → (MState → Option MState) → Option MState
  | Re.chr c, st, k => st.step (fun x => canonicalize ic x = canonicalize ic c) k
  | Re.cls ranges, st, k => st.step (inClass ic ranges) k
  | Re.any, st, k => st.step (fun x => !isLineTerminator x) k
  | Re.bol, st, k => if st.pos = 0 then k st else none
  | Re.eol, st, k => if st.rest.isEmpty then k st else none
  | Re.seq a b, st, k => Re.run ic a st (fun st1 => Re.run ic b st1 k)
  | Re.alt a b, st, k =>
    match Re.run ic a st k with
    | some r => some r
    | none => Re.run ic b st k
  | Re.star r, st, k => starLoop (Re.run ic r) r.groups (st.rest.length + 1) st k
  | Re.opt r, st, k =>
    match Re.run ic r (st.clear r.groups) k with
    | some r => some r
    | none => k st
  | Re.rep n r, st, k => repLoop (Re.run ic r) r.groups n st k
  | Re.grp i r, st, k =>
    Re.run ic r st (fun st1 =>
      k { st1 with caps := (i, st.rest.take (st1.pos - st.pos)) :: st1.caps })

/-- Try the pattern at index `pos`, then at the following indices: the first
start that matches wins.  Returns the start index with the final state. -/
def Re.search (ic : Bool) (r : Re) : Nat → Nat → List Char → Option (Nat × MState)
  | 0, pos, rest => (Re.run ic r ⟨pos, rest, []⟩ some).map (fun st => (pos, st))
  | fuel + 1, pos, rest =>
    match Re.run ic r ⟨pos, rest, []⟩ some with
    | some st => some (pos, st)
    | none =>
      match rest with
      | [] => none
      | _ :: xs => Re.search ic r fuel (pos + 1) xs

/-- The call `regex.exec( s )` for a pattern without the `g` flag: the search
starts at index 0.  The result is the capture list of the match. -/
def Re.exec (ic : Bool) (r : Re) (s : List Char) : Option MState :=
  (Re.search ic r s.length 0 s).map Prod.snd

/-- The call `regex.exec( s )` for a pattern with the `g` flag and the given
`lastIndex`: the search starts at `lastIndex`; a match moves `lastIndex` to its
end, a failure resets it to 0.  Returns the match and the new `lastIndex`. -/
def Re.execGlobal (r : Re) (lastIndex : Nat) (s : List Char) : Option MState × Nat :=
  if lastIndex > s.length then (none, 0)
  else
    match Re.search false r (s.length - lastIndex) lastIndex (s.drop lastIndex) with
    | some (_, st) => (some st, st.pos)
    | none => (none, 0)

/-- The value of `res[ i ]` after a match (`none` for `undefined`). -/
def MState.group (st : MState) (i : Nat) : Option (List Char) :=
  (st.caps.find? (fun p => p.1 = i)).map Prod.snd

/-- The call `s.match( regex )` for a pattern with the `g` flag: the matched
substrings, left to right.  (A match is never empty for the two patterns used.) -/
def Re.matchAll (r : Re) : Nat → Nat → List Char → List (List Char)
  | 0, _, _ => []
  | fuel + 1, pos, rest =>
    match Re.search false r rest.length pos rest with
    | none => []
    | some (start, st) =>
      let found := (rest.drop (start - pos)).take (st.pos - start)
      if st.pos = start then
        found :: Re.matchAll r fuel (st.pos + 1) (st.rest.drop 1)
      else found :: Re.matchAll r fuel st.pos st.rest

/-! ## The patterns of `RWXLoader` -/

/-- A single space. -/
def sp : Re := Re.chr ' '

/-- The class `[0-9]`. -/
def digit : Re := Re.cls [('0', '9')]

/-- The class `[.]`. -/
def dot : Re := Re.cls [('.', '.')]

/-- The class `[A-Za-z0-9_\-]`. -/
def nameChar : Re := Re.cls [('A', 'Z'), ('a', 'z'), ('0', '9'), ('_', '_'), ('-', '-')]

/-- The pattern `[+-]?([0-9]+([.][0-9]*)?|[.][0-9]+)` whose two groups are
numbered `g` and `g + 1`. -/
def floatBody (g : Nat) : Re :=
  Re.seq (Re.opt (Re.cls [('+', '+'), ('-', '-')]))
    (Re.grp g (Re.alt
      (Re.seq digit.plus (Re.opt (Re.grp (g + 1) (Re.seq dot (Re.star digit)))))
      (Re.seq dot digit.plus)))

/-- The group `( +[+-]?([0-9]+([.][0-9]*)?|[.][0-9]+))`, numbered `g`. -/
def spFloat (g : Nat) : Re := Re.grp g (Re.seq sp.plus (floatBody (g + 1)))

/-- The shape `/^ *(word).*$/`. -/
def keywordRegex (w : String) : Re :=
  Re.cat [Re.bol, Re.star sp, Re.grp 1 (Re.word w), Re.star Re.any, Re.eol]

/-- The shape `/^ *(word)(( +float){n}).*$/`. -/
def floatsRegex (w : String) (n : Nat) : Re :=
  Re.cat [Re.bol, Re.star sp, Re.grp 1 (Re.word w), Re.grp 2 (Re.rep n (spFloat 3)),
    Re.star Re.any, Re.eol]

/-- The shape `/^ *(word)( +float).*$/`. -/
def oneFloatRegex (w : String) : Re :=
  Re.cat [Re.bol, Re.star sp, Re.grp 1 (Re.word w), spFloat 2, Re.star Re.any, Re.eol]

/-- The pattern `/([-+]?[0-9]+)/g`. -/
def integerRegex : Re := Re.grp 1 (Re.seq (Re.opt (Re.cls [('-', '-'), ('+', '+')])) digit.plus)

/-- The pattern `/([+-]?([0-9]+([.][0-9]*)?|[.][0-9]+))/g`. -/
def floatRegex : Re := Re.grp 1 (floatBody 2)

/-- The pattern `/^(.*)#/g`. -/
def nonCommentRegex : Re := Re.cat [Re.bol, Re.grp 1 (Re.star Re.any), Re.chr '#']

/-- The pattern `/^ *(modelbegin).*$/i`. -/
def modelbeginRegex : Re := keywordRegex "modelbegin"

/-- The pattern `/^ *(modelend).*$/i` (declared by the loader, never tested). -/
def modelendRegex : Re := keywordRegex "modelend"

/-- The pattern `/^ *(clumpbegin).*$/i`. -/
def clumpbeginRegex : Re := keywordRegex "clumpbegin"

/-- The pattern `/^ *(clumpend).*$/i`. -/
def clumpendRegex : Re := keywordRegex "clumpend"

/-- The pattern `/^ *(transformbegin).*$/i`. -/
def transformbeginRegex : Re := keywordRegex "transformbegin"

/-- The pattern `/^ *(transformend).*$/i`. -/
def transformendRegex : Re := keywordRegex "transformend"

/-- The pattern `/^ *(protobegin) +([A-Za-z0-9_\-]+).*$/i`. -/
def protobeginRegex : Re :=
  Re.cat [Re.bol, Re.star sp, Re.grp 1 (Re.word "protobegin"), sp.plus, Re.grp 2 nameChar.plus,
    Re.star Re.any, Re.eol]

/-- The pattern `/^ *(protoinstance) +([A-Za-z0-9_\-]+).*$/i`. -/
def protoinstanceRegex : Re :=
  Re.cat [Re.bol, Re.star sp, Re.grp 1 (Re.word "protoinstance"), sp.plus, Re.grp 2 nameChar.plus,
    Re.star Re.any, Re.eol]

/-- The pattern `/^ *(protoend).*$/i`. -/
def protoendRegex : Re := keywordRegex "protoend"

/-- The pattern
`/^ *(vertex|vertexext)(( +float){3}) *(uv(( +float){2}))?.*$/i`. -/
def vertexRegex : Re :=
  Re.cat [Re.bol, Re.star sp, Re.grp 1 (Re.alt (Re.word "vertex") (Re.word "vertexext")),
    Re.grp 2 (Re.rep 3 (spFloat 3)), Re.star sp,
    Re.opt (Re.grp 6 (Re.seq (Re.word "uv") (Re.grp 7 (Re.rep 2 (spFloat 8))))),
    Re.star Re.any, Re.eol]

/-- The pattern `/^ *(polygon|polygonext)( +[0-9]+)(( +[0-9]+)+) ?.*$/i`. -/
def polygonRegex : Re :=
  Re.cat [Re.bol, Re.star sp, Re.grp 1 (Re.alt (Re.word "polygon") (Re.word "polygonext")),
    Re.grp 2 (Re.seq sp.plus digit.plus),
    Re.grp 3 (Re.plus (Re.grp 4 (Re.seq sp.plus digit.plus))),
    Re.opt sp, Re.star Re.any, Re.eol]

/-- The pattern `/^ *(quad|quadext)(( +([0-9]+)){4}).*$/i`. -/
def quadRegex : Re :=
  Re.cat [Re.bol, Re.star sp, Re.grp 1 (Re.alt (Re.word "quad") (Re.word "quadext")),
    Re.grp 2 (Re.rep 4 (Re.grp 3 (Re.seq sp.plus (Re.grp 4 digit.plus)))),
    Re.star Re.any, Re.eol]

/-- The pattern `/^ *(triangle|triangleext)(( +([0-9]+)){3}).*$/i`. -/
def triangleRegex : Re :=
  Re.cat [Re.bol, Re.star sp, Re.grp 1 (Re.alt (Re.word "triangle") (Re.word "triangleext")),
    Re.grp 2 (Re.rep 3 (Re.grp 3 (Re.seq sp.plus (Re.grp 4 digit.plus)))),
    Re.star Re.any, Re.eol]

/-- The pattern
`/^ *(texture) +([A-Za-z0-9_\-]+) *(mask *([A-Za-z0-9_\-]+))?.*$/i`. -/
def textureRegex : Re :=
  Re.cat [Re.bol, Re.star sp, Re.grp 1 (Re.word "texture"), sp.plus, Re.grp 2 nameChar.plus,
    Re.star sp,
    Re.opt (Re.grp 3 (Re.cat [Re.word "mask", Re.star sp, Re.grp 4 nameChar.plus])),
    Re.star Re.any, Re.eol]

/-- The pattern `/^ *(color)(( +float){3}).*$/i`. -/
def colorRegex : Re := floatsRegex "color" 3

/-- The pattern `/^ *(opacity)( +float).*$/i`. -/
def opacityRegex : Re := oneFloatRegex "opacity"

/-- The pattern `/^ *(identity) *$/i`. -/
def identityRegex : Re :=
  Re.cat [Re.bol, Re.star sp, Re.grp 1 (Re.word "identity"), Re.star sp, Re.eol]

/-- The pattern `/^ *(transform)(( +float){16}).*$/i`. -/
def transformRegex : Re := floatsRegex "transform" 16

/-- The pattern `/^ *(translate)(( +float){3}).*$/i`. -/
def translateRegex : Re := floatsRegex "translate" 3

/-- The pattern `/^ *(scale)(( +float){3}).*$/i`. -/
def scaleRegex : Re := floatsRegex "scale" 3

/-- The pattern `/^ *(rotate)(( +float){4})$/i`: nothing may follow the fourth
number. -/
def rotateRegex : Re :=
  Re.cat [Re.bol, Re.star sp, Re.grp 1 (Re.word "rotate"), Re.grp 2 (Re.rep 4 (spFloat 3)), Re.eol]

/-- The pattern `/^ *(surface)(( +float){3}).*$/i`. -/
def surfaceRegex : Re := floatsRegex "surface" 3

/-- The pattern `/^ *(ambient)( +float).*$/i`. -/
def ambientRegex : Re := oneFloatRegex "ambient"

/-- The pattern `/^ *(diffuse)( +float).*$/i`. -/
def diffuseRegex : Re := oneFloatRegex "diffuse"

/-- The pattern `/^ *(specular)( +float).*$/i`. -/
def specularRegex : Re := oneFloatRegex "specular"

/-- The pattern `/^ *((add)?materialmode(s)?) +([A-Za-z0-9_\-]+).*$/i`. -/
def materialModeRegex : Re :=
  Re.cat [Re.bol, Re.star sp,
    Re.grp 1 (Re.cat [Re.opt (Re.grp 2 (Re.word "add")), Re.word "materialmode",
      Re.opt (Re.grp 3 (Re.chr 's'))]),
    sp.plus, Re.grp 4 nameChar.plus, Re.star Re.any, Re.eol]

/-- The shape `/^ *(word) +(a|b|...).*$/`. -/
def choiceRegex (w : String) (choices : Re) : Re :=
  Re.cat [Re.bol, Re.star sp, Re.grp 1 (Re.word w), sp.plus, Re.grp 2 choices,
    Re.star Re.any, Re.eol]

/-- The pattern `/^ *(collision) +(on|off).*$/i`. -/
def collisionRegex : Re := choiceRegex "collision" (Re.alt (Re.word "on") (Re.word "off"))

/-- The pattern `/^ *(lightsampling) +(facet|vertex).*$/i`. -/
def lightsamplingRegex : Re :=
  choiceRegex "lightsampling" (Re.alt (Re.word "facet") (Re.word "vertex"))

/-- The pattern `/^ *(geometrysampling) +(pointcloud|wireframe|solid).*$/i`. -/
def geometrysamplingRegex : Re :=
  choiceRegex "geometrysampling"
    (Re.alt (Re.word "pointcloud") (Re.alt (Re.word "wireframe") (Re.word "solid")))

/-- The pattern `/^ *(axisalignment) +(none|zorientx|zorienty|xyz).*$/i`. -/
def axisalignmentRegex : Re :=
  choiceRegex "axisalignment"
    (Re.alt (Re.word "none") (Re.alt (Re.word "zorientx") (Re.alt (Re.word "zorienty") (Re.word "xyz"))))

/-! ## From a line of text to a command -/

/-- The number written by a run of decimal digits. -/
def digitsValue (ds : List Char) : Nat :=
  ds.foldl (fun n c => n * 10 + (c.toNat - 48)) 0

/-- The value of `parseInt( s )` on an unsigned run of digits (the only strings
the loader passes to it). -/
def parseInt (s : List Char) : Nat :=
  digitsValue (s.takeWhile Char.isDigit)

/-- The value of `parseFloat( s )` on leading spaces, an optional sign, digits
and an optional fraction (the only strings the loader passes to it), as an
exact rational. -/
def parseFloat (s : List Char) : ℚ :=
  let s := s.dropWhile (fun c => c = ' ')
  let signed : Bool × List Char :=
    match s with
    | '-' :: t => (true, t)
    | '+' :: t => (false, t)
    | _ => (false, s)
  let ip := signed.2.takeWhile Char.isDigit
  let fp :=
    match signed.2.dropWhile Char.isDigit with
    | '.' :: t => t.takeWhile Char.isDigit
    | _ => []
  let v : ℚ := (digitsValue ip : ℚ) + (digitsValue fp : ℚ) / ((10 ^ fp.length : Nat) : ℚ)
  if signed.1 then - v else v

/-- The numbers `s.match( this.floatRegex )` mapped through `parseFloat`. -/
def floatsOf (s : List Char) : List ℚ :=
  (Re.matchAll floatRegex s.length 0 s).map parseFloat

/-- The numbers `s.match( this.integerRegex )` mapped through `parseInt`. -/
def integersOf (s : List Char) : List Nat :=
  (Re.matchAll integerRegex s.length 0 s).map parseInt

/-- The second capture of a match, as a command argument. -/
def capture (st : MState) (i : Nat) : List Char :=
  (st.group i).getD []

/-- The tail of the dispatch loop, from `transformRegex` to
`axisalignmentRegex`: the command of the first pattern that matches. -/
def matchTail (line : List Char) : List Command :=
  match Re.exec true transformRegex line with
  | some res => [Command.transform (floatsOf (capture res 2))]
  | none =>
  match Re.exec true translateRegex line with
  | some res => [Command.translate (floatsOf (capture res 2))]
  | none =>
  match Re.exec true rotateRegex line with
  | some res => [Command.rotate (floatsOf (capture res 2))]
  | none =>
  match Re.exec true scaleRegex line with
  | some res => [Command.scale (floatsOf (capture res 2))]
  | none =>
  match Re.exec true surfaceRegex line with
  | some res => [Command.surface (floatsOf (capture res 2))]
  | none =>
  match Re.exec true ambientRegex line with
  | some res => [Command.ambient (parseFloat (capture res 2))]
  | none =>
  match Re.exec true diffuseRegex line with
  | some res => [Command.diffuse (parseFloat (capture res 2))]
  | none =>
  match Re.exec true specularRegex line with
  | some res => [Command.specular (parseFloat (capture res 2))]
  | none =>
  match Re.exec true materialModeRegex line with
  | some res => [Command.materialmode (String.mk (capture res 4))]
  | none =>
  match Re.exec true collisionRegex line with
  | some res => [Command.collision (String.mk (capture res 2))]
  | none =>
  match Re.exec true lightsamplingRegex line with
  | some res => [Command.lightsampling (String.mk (capture res 2))]
  | none =>
  match Re.exec true geometrysamplingRegex line with
  | some res => [Command.geometrysampling (String.mk (capture res 2))]
  | none =>
  match Re.exec true axisalignmentRegex line with
  | some res => [Command.axisalignment (String.mk (capture res 2))]
  | none => []

/-- The dispatch loop body of `parse` on one cleaned line: the commands whose
branches run, in order.  Every branch ends in `continue` except the `identity`
branch, after which the remaining patterns are still tried. -/
def matchLine (line : List Char) : List Command :=
  match Re.exec true modelbeginRegex line with
  | some _ => [Command.modelbegin]
  | none =>
  match Re.exec true clumpbeginRegex line with
  | some _ => [Command.clumpbegin]
  | none =>
  match Re.exec true clumpendRegex line with
  | some _ => [Command.clumpend]
  | none =>
  match Re.exec true transformbeginRegex line with
  | some _ => [Command.transformbegin]
  | none =>
  match Re.exec true transformendRegex line with
  | some _ => [Command.transformend]
  | none =>
  match Re.exec true protobeginRegex line with
  | some res => [Command.protobegin (String.mk (capture res 2))]
  | none =>
  match Re.exec true protoendRegex line with
  | some _ => [Command.protoend]
  | none =>
  match Re.exec true protoinstanceRegex line with
  | some res => [Command.protoinstance (String.mk (capture res 2))]
  | none =>
  match Re.exec true textureRegex line with
  | some res => [Command.texture (String.mk (capture res 2)) ((res.group 4).map String.mk)]
  | none =>
  match Re.exec true triangleRegex line with
  | some res =>
    match integersOf (capture res 2) with
    | [i, j, k] => [Command.triangle i j k]
    | _ => []
  | none =>
  match Re.exec true quadRegex line with
  | some res =>
    match integersOf (capture res 2) with
    | [i, j, k, l] => [Command.quad i j k l]
    | _ => []
  | none =>
  match Re.exec true polygonRegex line with
  | some res =>
    [Command.polygon ((integersOf (capture res 2)).headD 0) (integersOf (capture res 3))]
  | none =>
  match Re.exec true vertexRegex line with
  | some res =>
    match floatsOf (capture res 2), (res.group 7).map floatsOf with
    | [x, y, z], some [u, v] => [Command.vertex x y z (some (u, v))]
    | [x, y, z], none => [Command.vertex x y z none]
    | _, _ => []
  | none =>
  match Re.exec true colorRegex line with
  | some res => [Command.color (floatsOf (capture res 2))]
  | none =>
  match Re.exec true opacityRegex line with
  | some res => [Command.opacity (parseFloat (capture res 2))]
  | none =>
  match Re.exec true identityRegex line with
  | some _ => Command.identity :: matchTail line
  | none => matchTail line

/-! ## The loader -/

/-- The characters removed by `String.prototype.trim`: white space and line
terminators. -/
def isTrimmed (c : Char) : Bool :=
  c = ' ' || c = '\t' || c = '\n' || c = '\r' || c.toNat = 0x0B || c.toNat = 0x0C
    || c.toNat = 0xA0 || c.toNat = 0x1680 || (0x2000 ≤ c.toNat && c.toNat ≤ 0x200A)
    || c.toNat = 0x2028 || c.toNat = 0x2029 || c.toNat = 0x202F || c.toNat = 0x205F
    || c.toNat = 0x3000 || c.toNat = 0xFEFF

/-- The value of `s.trim()`. -/
def trim (s : List Char) : List Char :=
  ((s.dropWhile isTrimmed).reverse.dropWhile isTrimmed).reverse

/-- The start of an iteration of `parse`: strip the comment with the stateful
`nonCommentRegex`, trim, turn tabs into spaces.  Returns the cleaned line and
the new `lastIndex` of `nonCommentRegex`. -/
def cleanLine (lastIndex : Nat) (line : List Char) : List Char × Nat :=
  let (res, lastIndex) := Re.execGlobal nonCommentRegex lastIndex line
  let line :=
    match res with
    | some st => capture st 1
    | none => line
  ((trim line).map (fun c => if c = '\t' then ' ' else c), lastIndex)

/-- Pieces of `str.split( /[\n\r]+/g )`: `inRun` tells that the previous
character was a separator, `cur` is the piece being read (reversed). -/
def splitAux : List Char → Bool → List Char → List (List Char)
  | [], _, cur => [cur.reverse]
  | c :: cs, inRun, cur =>
    if c = '\n' || c = '\r' then
      if inRun then splitAux cs true cur else cur.reverse :: splitAux cs true []
    else splitAux cs false (c :: cur)

/-- The value of `str.split( /[\n\r]+/g )`. -/
def splitLines (str : List Char) : List (List Char) :=
  splitAux str false []

/-- The `for` loop of `parse` over the lines: the context and the `lastIndex`
of `nonCommentRegex` are threaded through. -/
def parseLines (env : Env) : Nat → Ctx → List (List Char) → Except Err (Ctx × Nat)
  | lastIndex, ctx, [] => pure (ctx, lastIndex)
  | lastIndex, ctx, line :: rest =>
    let cleaned := cleanLine lastIndex line
    match execAll env ctx (matchLine cleaned.1) with
    | Except.error e => Except.error e
    | Except.ok ctx1 => parseLines env cleaned.2 ctx1 rest

/-- What a call of `parse` leaves behind: the final context with the reference
of the root group handed to `onParse`, and the `lastIndex` left in the loader's
`nonCommentRegex`. -/
structure Parsed where
  ctx : Ctx
  root : Nat
  lastIndex : Nat
deriving DecidableEq, Repr

/-- The method `RWXLoader.parse( str, ... )` of a loader whose `nonCommentRegex`
has the given `lastIndex` (0 for a new loader). -/
def parse (env : Env) (lastIndex : Nat) (str : String) : Except Err Parsed :=
  match parseLines env lastIndex {} (splitLines str.data) with
  | Except.error e => Except.error e
  | Except.ok (ctx, lastIndex1) =>
    match finish ctx with
    | Except.error e => Except.error e
    | Except.ok (ctx1, root) => Except.ok { ctx := ctx1, root := root, lastIndex := lastIndex1 }

/-- The meshes below the group `id`, depth first in child order; `fuel` bounds
the depth. -/
def meshesBelow (groups : List GroupObj) : Nat → Nat → List Mesh
  | 0, _ => []
  | fuel + 1, id =>
    match groups.get? id with
    | none => []
    | some g => g.children.flatMap (fun c =>
        match c with
        | Child.group k => meshesBelow groups fuel k
        | Child.mesh m => [m]
        | Child.lines _ => [])

/-- The meshes of the scene graph returned by `parse`. -/
def Parsed.meshes (p : Parsed) : List Mesh :=
  meshesBelow p.ctx.groups p.ctx.groups.length p.root

/-- Collaborators used to evaluate examples: exact cosine and sine at the
multiples of 90 degrees (0 elsewhere) and a fan triangulation of the loop. -/
def exampleEnv : Env :=
  { cosDeg := fun d => if d = 0 then 1 else if d = 180 ∨ d = -180 then -1 else 0
    sinDeg := fun d => if d = 90 ∨ d = -270 then 1 else if d = -90 ∨ d = 270 then -1 else 0
    shape := fun _ loop =>
      (loop.length, (List.range (loop.length - 2)).map (fun i => (0, i + 1, i + 2))) }

/-- The context reached by the loop of `parse` at the end of the lines of `str`
(before the final scaling of the root); the initial context if a line throws. -/
def ctxAfter (env : Env) (str : String) : Ctx :=
  match parseLines env 0 {} (splitLines str.data) with
  | Except.ok (ctx, _) => ctx
  | Except.error _ => {}

/-- The command of a vertex line with position `v.1` and optional uv `v.2`. -/
def vertexCommand (v : (ℚ × ℚ × ℚ) × Option (ℚ × ℚ)) : Command :=
  Command.vertex v.1.1 v.1.2.1 v.1.2.2 v.2

/-- The pair a vertex line appends to the uv buffer. -/
def uvPair (v : (ℚ × ℚ × ℚ) × Option (ℚ × ℚ)) : List (Option ℚ) :=
  match v.2 with
  | some (u, w) => [some u, some (1 - w)]
  | none => [some 0, some 0]

/-! ## Contexts and documents used in examples -/

/-- A clump in which one triangle is open and the colour was changed since:
the next face changes the material slot. -/
def quadContext : Ctx :=
  ctxAfter exampleEnv
    "modelbegin\nclumpbegin\nvertex 0 0 0\nvertex 1 0 0\nvertex 1 1 0\nvertex 0 1 0\ntriangle 1 2 3\ncolor 1 0 0"

/-- The context right after `modelbegin` and `clumpbegin`. -/
def clumpContext : Ctx :=
  ctxAfter exampleEnv "modelbegin\nclumpbegin"

/-! ## The loop normal of the triangulator -/

/-- The loop of `triangulateFacesWithShapes` that accumulates `loopNormal` by
Newell's method, before `normalize()`.  `pts` lists the positions
`vertices[ loop[ i ] * 3 .. ]` of the loop's vertices in loop order; the next
vertex of `i` is the one at `( i + 1 ) % len`. -/
def loopNormal (pts : List (ℚ × ℚ × ℚ)) : ℚ × ℚ × ℚ :=
  (List.range pts.length).foldl
    (fun (n : ℚ × ℚ × ℚ) (i : Nat) =>
      (n.1 + ((pts.getD i 0).2.1 - (pts.getD ((i + 1) % pts.length) 0).2.1)
          * ((pts.getD i 0).2.2 + (pts.getD ((i + 1) % pts.length) 0).2.2),
       n.2.1 + ((pts.getD i 0).2.2 - (pts.getD ((i + 1) % pts.length) 0).2.2)
          * ((pts.getD i 0).1 + (pts.getD ((i + 1) % pts.length) 0).1),
       n.2.2 + ((pts.getD i 0).1 - (pts.getD ((i + 1) % pts.length) 0).1)
          * ((pts.getD i 0).2.1 + (pts.getD ((i + 1) % pts.length) 0).2.1)))
    (0, 0, 0)

/-- The cross product of two vectors. -/
def cross (a b : ℚ × ℚ × ℚ) : ℚ × ℚ × ℚ :=
  (a.2.1 * b.2.2 - a.2.2 * b.2.1, a.2.2 * b.1 - a.1 * b.2.2, a.1 * b.2.1 - a.2.1 * b.1)

/-- The sum of the cross products `v_i × v_(i+1)` over the consecutive vertex
pairs of a closed loop (the wording of the specification). -/
def crossSum (pts : List (ℚ × ℚ × ℚ)) : ℚ × ℚ × ℚ :=
  (List.range pts.length).foldl
    (fun (n : ℚ × ℚ × ℚ) (i : Nat) =>
      (n.1 + (cross (pts.getD i 0) (pts.getD ((i + 1) % pts.length) 0)).1,
       n.2.1 + (cross (pts.getD i 0) (pts.getD ((i + 1) % pts.length) 0)).2.1,
       n.2.2 + (cross (pts.getD i 0) (pts.getD ((i + 1) % pts.length) 0)).2.2))
    (0, 0, 0)

/-- The loop moved by the vector `t`. -/
def translateLoop (t : ℚ × ℚ × ℚ) (pts : List (ℚ × ℚ × ℚ)) : List (ℚ × ℚ × ℚ) :=
  pts.map (fun p => (p.1 + t.1, p.2.1 + t.2.1, p.2.2 + t.2.2))

/-! ## The material manager as a state machine -/

/-- What a parse does to the material manager: a material command changes the
working material, a face resolves the current material, `clumpend` and
`protoend` reset the local list. -/
inductive ManagerOp where
  | change (m : RWXMaterial)
  | resolve
  | reset
deriving DecidableEq, Repr

/-- The record of one call of `getCurrentMaterialID`: the signature of the
working material, the resource registered for it after the call, and whether the
call made the resource (`makeThreeMaterial`). -/
structure Resolution where
  signature : String
  resource : Option ThreeMaterial
  created : Bool
deriving DecidableEq, Repr

/-- Run a sequence of operations on the manager; returns the final manager and
the resolutions in order. -/
def runManager : RWXMaterialManager → List ManagerOp → RWXMaterialManager × List Resolution
  | m, [] => (m, [])
  | m, ManagerOp.change x :: ops => runManager { m with currentRWXMaterial := x } ops
  | m, ManagerOp.reset :: ops => runManager m.resetCurrentMaterialList ops
  | m, ManagerOp.resolve :: ops =>
    let after := m.getCurrentMaterialID.2
    let event : Resolution :=
      { signature := m.currentRWXMaterial.getMatSignature
        resource := lookupMaterial after.threeMaterialMap m.currentRWXMaterial.getMatSignature
        created := (lookupMaterial m.threeMaterialMap m.currentRWXMaterial.getMatSignature).isNone }
    ((runManager after ops).1, event :: (runManager after ops).2)

/-- The local slot and the local list of the manager are in step: no slot, an
empty list and no last signature, or slot `k` and a list of `k + 1` entries. -/
def Synced (m : RWXMaterialManager) : Prop :=
  match m.currentMaterialID with
  | none => m.currentMaterialList = [] ∧ m.currentMaterialSignature = ""
  | some k => m.currentMaterialList.length = k + 1

/-- A manager at the start of a parse whose working material is red. -/
def redManager : RWXMaterialManager :=
  { currentRWXMaterial := { color := [1, 0, 0] } }

/-! ## Kinds of commands and relations between contexts -/

/-- The commands that change the working material, with a payload the patterns
can produce: `surface` carries three numbers (the branch stores whatever it is
handed, and the signature reads three entries). -/
def Command.isMaterial : Command → Bool
  | Command.texture _ _ => true
  | Command.color _ => true
  | Command.opacity _ => true
  | Command.surface sprops => decide (sprops.length = 3)
  | Command.ambient _ => true
  | Command.diffuse _ => true
  | Command.specular _ => true
  | Command.materialmode _ => true
  | Command.collision _ => true
  | Command.lightsampling _ => true
  | Command.geometrysampling _ => true
  | _ => false

/-- The commands that change the current transform in place. -/
def Command.isTransform : Command → Bool
  | Command.identity => true
  | Command.transform _ => true
  | Command.translate _ => true
  | Command.rotate _ => true
  | Command.scale _ => true
  | _ => false

/-- The commands that declare faces and do not throw in a leaf: triangles, quads
and polygons of a declared length above 0 (`polygon 0 ...` hands an empty loop
to the triangulator, which throws). -/
def Command.isFace : Command → Bool
  | Command.triangle _ _ _ => true
  | Command.quad _ _ _ _ => true
  | Command.polygon polyLen _ => decide (0 < polyLen)
  | _ => false

/-- The commands that declare a vertex. -/
def Command.isVertex : Command → Bool
  | Command.vertex _ _ _ _ => true
  | _ => false

/-- The commands of the body of a clump or prototype that open or close no
scope and do not throw in a leaf: transform, material, vertex and face commands
(a polygon with a declared length above 0). -/
def Command.isBody (c : Command) : Bool :=
  c.isMaterial || c.isTransform || c.isFace || c.isVertex

/-- A context in which the commands of a body can run: a current transform, a
scope stack without undefined entry, a geometry and a current group. -/
structure Ready (ctx : Ctx) : Prop where
  cur : ctx.currentTransform ≠ none
  stack : ∀ t ∈ ctx.transformStack, t ≠ none
  geometry : ctx.currentBufferGeometry ≠ none
  group : ctx.currentGroup ≠ none

/-- What the commands of a body leave alone, from context `a` to context `b`:
the references of the current transform and of the scopes, the saved references
of `protobegin`, every matrix object other than the current transform and every
group object other than the current group. -/
structure Frame (a b : Ctx) : Prop where
  cur : b.currentTransform = a.currentTransform
  stack : b.transformStack = a.transformStack
  saves : b.transformSaves = a.transformSaves
  groupStack : b.groupStack = a.groupStack
  group : b.currentGroup = a.currentGroup
  savedGroup : b.transformBeforeProto = a.transformBeforeProto
  savedTransform : b.groupBeforeProto = a.groupBeforeProto
  matsLength : b.mats.length = a.mats.length
  mats : ∀ q, a.currentTransform ≠ some q → b.mat q = a.mat q
  groupsLength : b.groups.length = a.groups.length
  groups : ∀ i, a.currentGroup ≠ some i → b.groups.get? i = a.groups.get? i
  geometry : a.currentBufferGeometry ≠ none → b.currentBufferGeometry ≠ none

/-- The geometry groups `gs` tile the index range from `start` to `stop`: each
group starts where the previous one ends and every count is a multiple of 3. -/
def tiles : Nat → List GeomGroup → Nat → Prop
  | start, [], stop => start = stop
  | start, g :: gs, stop => g.start = start ∧ g.count % 3 = 0 ∧ tiles (start + g.count) gs stop

/-- Whether a list of groups tiles a range can be computed. -/
instance tilesDecidable : ∀ (start : Nat) (gs : List GeomGroup) (stop : Nat),
    Decidable (tiles start gs stop)
  | start, [], stop => inferInstanceAs (Decidable (start = stop))
  | start, g :: gs, stop =>
    have := tilesDecidable (start + g.count) gs stop
    inferInstanceAs (Decidable (g.start = start ∧ g.count % 3 = 0 ∧ tiles (start + g.count) gs stop))

/-- The batch bookkeeping of a leaf is consistent: the recorded groups tile the
indices up to `currentBufferGroupFirstFaceID`, and the open faces account for
the rest of the index buffer. -/
def Tiled (ctx : Ctx) : Prop :=
  ∃ gs, ctx.currentBufferGeometry = some gs ∧
    tiles 0 gs ctx.currentBufferGroupFirstFaceID ∧
    ctx.currentBufferGroupFirstFaceID + ctx.currentBufferFaceCount * 3
      = ctx.currentBufferFaces.length

/-- The context after `modelbegin`, `clumpbegin` and `translate 1 2 3`: the
current transform holds the translation. -/
def movedContext : Ctx :=
  ctxAfter exampleEnv "modelbegin\nclumpbegin\ntranslate 1 2 3"

/-- The context right after `modelbegin`. -/
def modelContext : Ctx :=
  ctxAfter exampleEnv "modelbegin"

/-- The context after a clump with one triangle was closed. -/
def closedClumpContext : Ctx :=
  ctxAfter exampleEnv
    "modelbegin\nclumpbegin\nvertex 0 0 0\nvertex 1 0 0\nvertex 1 1 0\ntriangle 1 2 3\nclumpend"

/-! ## Well-formed heaps of groups -/

/-- A child of the group at position `i` of a heap of `n` groups is in order: a
child group was allocated after its parent and lies in the heap. -/
def childAfter (n i : Nat) : Child → Bool
  | Child.group k => decide (i < k) && decide (k < n)
  | _ => true

/-- The heap of groups is well formed: every child group was allocated after its
parent.  (Every `add` of the loader attaches an object it has just created.) -/
def wellFormed (groups : List GroupObj) : Bool :=
  (List.range groups.length).all (fun i =>
    match groups.get? i with
    | some o => o.children.all (childAfter groups.length i)
    | none => true)

/-- The heap `b` extends the heap `a`: the objects of `a` are in `b`, unchanged
and at the same place. -/
def Extends (a b : List GroupObj) : Prop :=
  a.length ≤ b.length ∧ ∀ i, i < a.length → b.get? i = a.get? i

/-- The context after a prototype `p` with one triangle was declared in a clump
that is still open. -/
def protoContext : Ctx :=
  ctxAfter exampleEnv
    "modelbegin\nclumpbegin\nprotobegin p\nvertex 0 0 0\nvertex 1 0 0\nvertex 1 1 0\ntriangle 1 2 3\nprotoend\ntranslate 1 2 3"

/-- The context after a prototype was instanced twice in a clump, under
`translate 1 0 0` and then, moved on by `translate 0 5 0`. -/
def twoInstancesContext : Ctx :=
  ctxAfter exampleEnv
    "modelbegin\nclumpbegin\nprotobegin p\nvertex 0 0 0\nvertex 1 0 0\nvertex 1 1 0\ntriangle 1 2 3\nprotoend\ntranslate 1 0 0\nprotoinstance p\ntranslate 0 5 0\nprotoinstance p"

/-- The group object of a prototype that holds one mesh with one triangle in the
default material. -/
def triangleProto : GroupObj :=
  { children := [Child.mesh
      { position := [some 0, some 0, some 0, some 1, some 0, some 0, some 1, some 1, some 0]
        uv := [some 0, some 0, some 0, some 0, some 0, some 0]
        index := [0, 1, 2]
        groups := [⟨0, 0, none⟩, ⟨0, 3, some 0⟩]
        material := [makeThreeMaterial 0 {}] }] }

/-! ## Flattening -/

/-- The value a typed array of unsigned `bits`-bit integers stores for the
number `x`: `x` is truncated and reduced modulo `2 ^ bits`. -/
def toUint (bits : Nat) (x : ℚ) : Int :=
  trunc x % (2 : Int) ^ bits

/-- The test three.js applies in `BufferGeometry.setIndex( array )` to choose a
`Uint32Array` over a `Uint16Array` (`arrayNeedsUint32`; releases differ on the
value 65535 itself, which they compare with `>` or `>=`). -/
def arrayNeedsUint32 (index : List Int) : Bool :=
  index.any (fun v => decide (v > 65535))

/-- The object `ctx` of `flattenGroup`; `groups` stands for the groups of
`ctx.bufferGeometry`. -/
structure FlatCtx where
  groups : List GeomGroup := []
  positions : List (Option ℚ) := []
  uvs : List (Option ℚ) := []
  indices : List Int := []
  materials : List ThreeMaterial := []
deriving DecidableEq, Repr

/-- The argument `originalVertices[ j ]` of `new Vector4( x, y, z )`: reading
past the end gives `undefined`, which the constructor replaces by its default
`0`; an entry of the array is passed as it is. -/
def coordAt (buffer : List (Option ℚ)) (j : Nat) : Option ℚ :=
  if j < buffer.length then (buffer.get? j).join else some 0

/-- The three numbers pushed for vertex `i` of a merged mesh:
`tmpVertex.applyMatrix4( localTransform )`; a `NaN` coordinate makes the three
of them `NaN`. -/
def transformedVertex (localTransform : Matrix4) (buffer : List (Option ℚ)) (i : Nat) :
    List (Option ℚ) :=
  match coordAt buffer (i * 3), coordAt buffer (i * 3 + 1), coordAt buffer (i * 3 + 2) with
  | some x, some y, some z =>
    [some (localTransform.applyToPoint x y z).1, some (localTransform.applyToPoint x y z).2.1,
      some (localTransform.applyToPoint x y z).2.2]
  | _, _, _ => [none, none, none]

/-- Width in bits of the typed array `child.geometry.getIndex().array`, as
chosen by `setIndex` through the test `wide`. -/
def indexBits (wide : List Int → Bool) (child : Mesh) : Nat :=
  if wide child.index then 32 else 16

/-- The typed array `geometry.getIndex().array` of a mesh: `setIndex` stores the
plain array it is handed in a `Uint16Array` or a `Uint32Array` (`wide` is the
test of three.js for 32 bits), entry by entry. -/
def Mesh.indexArray (wide : List Int → Bool) (m : Mesh) : List Int :=
  m.index.map (fun (v : Int) => toUint (indexBits wide m) (v : ℚ))

/-- The `Mesh` branch of `mergeGeometryRecursive`.  The index of the child is
read back from the typed array `setIndex` built (`wide` is three.js's test for
32 bits), and `TypedArray.prototype.map` returns an array of the same type, so
each sum `value + faceOffset` is stored in that width before it is pushed.  A
`null` material index counts as `0` in `g.materialIndex + ctx.materials.length`.
The loop over the vertices runs while `i < originalVertices.length / 3`. -/
def mergeMesh (wide : List Int → Bool) (ctx : FlatCtx) (localTransform : Matrix4)
    (child : Mesh) : FlatCtx :=
  let geometryGroups := child.groups.map (fun g =>
    ({ start := g.start + ctx.indices.length
       count := g.count
       materialIndex := some (g.materialIndex.getD 0 + ctx.materials.length) } : GeomGroup))
  let faceOffset : ℚ := (ctx.positions.length : ℚ) / 3
  let indexArray := child.index.map (fun (v : Int) => toUint (indexBits wide child) (v : ℚ))
  { groups := ctx.groups ++ geometryGroups
    positions := ctx.positions ++ (List.range ((child.position.length + 2) / 3)).flatMap
      (transformedVertex localTransform child.position)
    uvs := ctx.uvs ++ child.uv
    indices := ctx.indices ++ indexArray.map
      (fun (value : Int) => toUint (indexBits wide child) ((value : ℚ) + faceOffset))
    materials := ctx.materials ++ child.material }

/-- The function `mergeGeometryRecursive( group, ctx, transform )`; `fuel`
bounds the depth of the recursion.  A mesh made by the loader has the identity
as its `matrix`; line sets are neither `Mesh` nor `Group` and are skipped. -/
def mergeGeometryRecursive (wide : List Int → Bool) (groups : List GroupObj) :
    Nat → FlatCtx → Nat → Matrix4 → FlatCtx
  | 0, ctx, _, _ => ctx
  | fuel + 1, ctx, group, transform =>
    match groups.get? group with
    | none => ctx
    | some g => g.children.foldl (fun ctx child =>
        match child with
        | Child.group k =>
          match groups.get? k with
          | some o => mergeGeometryRecursive wide groups fuel ctx k (transform.multiply o.matrix)
          | none => ctx
        | Child.mesh m => mergeMesh wide ctx (transform.multiply Matrix4.identity) m
        | Child.lines _ => ctx) ctx

/-- The function `flattenGroup( group )`: the arrays handed to the final
geometry, the material list, and `userData[ 'rwx' ].axisAlignment` of the
group. -/
def flattenGroup (wide : List Int → Bool) (groups : List GroupObj) (fuel : Nat) (group : Nat) :
    Option (Mesh × Option String) :=
  match groups.get? group with
  | none => none
  | some g =>
    let ctx := mergeGeometryRecursive wide groups fuel {} group g.matrix
    some ({ position := ctx.positions
            uv := ctx.uvs
            index := ctx.indices
            groups := ctx.groups
            material := ctx.materials }, g.axisAlignment)

/-- The number of vertices of a mesh: the triples of its position buffer (a
trailing incomplete triple counts as one vertex, as in the loop of the merge; the
buffers the loader builds hold whole triples). -/
def Mesh.vertexCount (m : Mesh) : Nat :=
  (m.position.length + 2) / 3

/-- The index list of the flattened mesh in the words of the specification: the
indices of each sub-mesh increased by the vertex count `v` of the sub-meshes
before it. -/
def rebasedIndices : Nat → List Mesh → List Int
  | _, [] => []
  | v, s :: rest =>
    s.index.map (fun (i : Int) => i + (v : Int)) ++ rebasedIndices (v + s.vertexCount) rest

/-- The batch ranges of the flattened mesh in the words of the specification:
each range of a sub-mesh with its start increased by the index count `i` and its
material slot increased by the material count `k` of the sub-meshes before it (a
range without slot counting as slot 0). -/
def rebasedGroups : Nat → Nat → List Mesh → List GeomGroup
  | _, _, [] => []
  | i, k, s :: rest =>
    s.groups.map (fun g =>
      ({ start := g.start + i
         count := g.count
         materialIndex := some (g.materialIndex.getD 0 + k) } : GeomGroup))
      ++ rebasedGroups (i + s.index.length) (k + s.material.length) rest

/-- The index list the merge builds from the sub-meshes in order: each index is
stored in the width of its sub-mesh before and after the vertex count `v` of
the sub-meshes before it is added. -/
def wrappedIndices (wide : List Int → Bool) : Nat → List Mesh → List Int
  | _, [] => []
  | v, s :: rest =>
    s.index.map (fun (i : Int) =>
        toUint (indexBits wide s) (((toUint (indexBits wide s) (i : ℚ) : Int) : ℚ) + (v : ℚ)))
      ++ wrappedIndices wide (v + s.vertexCount) rest

/-- No index of the sub-meshes leaves the range of its typed array when the
vertex count `v` of the sub-meshes before it is added. -/
def noWrap (wide : List Int → Bool) : Nat → List Mesh → Prop
  | _, [] => True
  | v, s :: rest =>
    (∀ i ∈ s.index, 0 ≤ i ∧ i + (v : Int) < (2 : Int) ^ indexBits wide s)
      ∧ noWrap wide (v + s.vertexCount) rest

/-- What a merge adds to the context `ctx`, giving `r`, when the sub-meshes
visited are `ms` and the context held `v` vertices. -/
structure Merged (wide : List Int → Bool) (ctx r : FlatCtx) (v : Nat) (ms : List Mesh) :
    Prop where
  indices : r.indices = ctx.indices ++ wrappedIndices wide v ms
  groups : r.groups = ctx.groups ++ rebasedGroups ctx.indices.length ctx.materials.length ms
  materials : r.materials = ctx.materials ++ ms.flatMap (fun s => s.material)
  positions : r.positions.length = 3 * (v + (ms.map Mesh.vertexCount).sum)

/-- A mesh of 65536 vertices (all at the origin) with one triangle. -/
def bigMesh : Mesh :=
  { position := List.replicate 196608 (some 0)
    uv := List.replicate 131072 (some 0)
    index := [0, 1, 2]
    groups := [⟨0, 0, none⟩, ⟨0, 3, some 0⟩]
    material := [makeThreeMaterial 0 {}] }

/-- A mesh of three vertices with one triangle. -/
def smallMesh : Mesh :=
  { position := [some 0, some 0, some 0, some 1, some 0, some 0, some 1, some 1, some 0]
    uv := [some 0, some 0, some 0, some 0, some 0, some 0]
    index := [0, 1, 2]
    groups := [⟨0, 0, none⟩, ⟨0, 3, some 0⟩]
    material := [makeThreeMaterial 0 {}] }

/-- The scene graph of a model with two clumps: one declares 65536 vertices and
a triangle, the other three vertices and a triangle. -/
def bigScene : List GroupObj :=
  [ { children := [Child.group 1, Child.group 2]
      matrix := Matrix4.makeScale 10 10 10
      axisAlignment := some "none" },
    { children := [Child.mesh bigMesh] },
    { children := [Child.mesh smallMesh] } ]

/-- The result of parsing a small model with two clumps of one triangle each. -/
def twoClumps : Option Parsed :=
  (parse exampleEnv 0
    "modelbegin\nclumpbegin\nvertex 0 0 0\nvertex 1 0 0\nvertex 1 1 0\ntriangle 1 2 3\nclumpend\nclumpbegin\nvertex 0 0 0\nvertex 1 0 0\nvertex 1 1 0\ncolor 1 0 0\ntriangle 1 2 3\nclumpend").toOption

/-- The flattened mesh of that model. -/
def flatTwoClumps : Option (Mesh × Option String) :=
  twoClumps.bind (fun p => flattenGroup arrayNeedsUint32 p.ctx.groups p.ctx.groups.length p.root)

/-- The result of parsing a document whose second line sets the axis alignment
and whose third line is a `clumpend` without `clumpbegin`. -/
def strayClumpend : Except Err Parsed :=
  parse exampleEnv 0 "modelbegin\naxisalignment zorienty\nclumpend\nprotobegin a\nclumpbegin"

/-- The result of parsing a document with axis alignment lines in a nested clump
and in a prototype body. -/
def nestedAlignment : Except Err Parsed :=
  parse exampleEnv 0
    "modelbegin\nclumpbegin\nclumpbegin\naxisalignment ZORIENTY\nclumpend\nclumpend\nprotobegin p\naxisalignment xyz\nprotoend"

/-! ## Theorems -/

/-! ### Basic facts about the model -/

theorem pure_eq_ok {α : Type} (a : α) : (pure a : Except Err α) = Except.ok a := rfl

theorem throw_eq_error {α : Type} (e : Err) : (throw e : Except Err α) = Except.error e := rfl

/-- Resolving the current material does not touch the working material. -/
theorem getCurrentMaterialID_material (m : RWXMaterialManager) :
    m.getCurrentMaterialID.2.currentRWXMaterial = m.currentRWXMaterial := by
  unfold RWXMaterialManager.getCurrentMaterialID
  cases h : lookupMaterial m.threeMaterialMap m.currentRWXMaterial.getMatSignature <;>
    simp only [h] <;> split <;> rfl

/-- With a geometry in place, committing the open group succeeds. -/
theorem commit_ok (ctx : Ctx) (groups : List GeomGroup)
    (h : ctx.currentBufferGeometry = some groups) :
    commitBufferGeometryGroup ctx = Except.ok
      { ctx with
        currentBufferGeometry := some (groups ++
          [{ start := ctx.currentBufferGroupFirstFaceID
             count := ctx.currentBufferFaceCount * 3
             materialIndex := ctx.previousMaterialID }])
        materialManager := ctx.materialManager.getCurrentMaterialID.2
        previousMaterialID := ctx.materialManager.getCurrentMaterialID.1
        currentBufferGroupFirstFaceID :=
          ctx.currentBufferGroupFirstFaceID + ctx.currentBufferFaceCount * 3
        currentBufferFaceCount := 0 } := by
  unfold commitBufferGeometryGroup
  rw [h]
  rfl

/-! ### C1: `protoinstance` of an unknown name -/

/-- C1 (refuted on the code): for every parse state and every name the prototype
table does not hold, the `protoinstance` branch throws a `TypeError`
(`undefined.clone()`), so the line is not a tolerated no-op. -/
theorem C1_protoinstance_unknown_throws (env : Env) (ctx : Ctx) (name : String)
    (h : ctx.proto name = none) :
    exec env ctx (Command.protoinstance name) = Except.error Err.typeError := by
  simp only [exec, h]
  rfl

/-- Instance of C1 in the context right after `modelbegin`, `clumpbegin`. -/
theorem C1_protoinstance_unknown_throws_witness :
    clumpContext.proto "doesnotexist" = none ∧
      exec exampleEnv clumpContext (Command.protoinstance "doesnotexist")
        = Except.error Err.typeError :=
  ⟨by decide, C1_protoinstance_unknown_throws exampleEnv clumpContext "doesnotexist" (by decide)⟩

/-- The whole parse of a document with an unknown `protoinstance` throws. -/
theorem parse_protoinstance_unknown (env : Env) :
    parse env 0 "modelbegin\nprotoinstance doesnotexist\nmodelend"
      = Except.error Err.typeError := by
  with_unfolding_all rfl

/-! ### C2: end of input with an open leaf -/

/-- C2 (refuted on the code): a clump left open at the end of input, holding
three vertices and one triangle, is not flushed: the parse returns a scene graph
without any mesh, while the face is still in the leaf buffer of the final
context.  The same holds with and without a `modelend` line. -/
theorem C2_open_leaf_not_flushed :
    (parse exampleEnv 0
        "modelbegin\nclumpbegin\nvertex 0 0 0\nvertex 1 0 0\nvertex 0 1 0\ntriangle 1 2 3\nmodelend").toOption.map
      (fun p => (p.meshes, p.ctx.currentBufferFaces)) = some ([], [0, 1, 2]) ∧
    (parse exampleEnv 0
        "modelbegin\nclumpbegin\nvertex 0 0 0\nvertex 1 0 0\nvertex 0 1 0\ntriangle 1 2 3").toOption.map
      (fun p => (p.meshes, p.ctx.currentBufferFaces)) = some ([], [0, 1, 2]) := by
  constructor <;> with_unfolding_all decide

/-! ### C3: batch ranges for the material order M1, M1, M2, M1 -/

/-- C3 (refuted on the code): four triangles under the materials red, red,
green, red in one clump give a mesh with four geometry groups, not three: the
first face commits an empty group `(0, 0, null)` before the three non-empty
ranges `(0, 6, 0)`, `(6, 3, 1)`, `(9, 3, 2)`, whose slots hold red, green, red. -/
theorem C3_four_ranges_recorded :
    (parse exampleEnv 0
        "modelbegin\nclumpbegin\nvertex 0 0 0\nvertex 1 0 0\nvertex 0 1 0\ncolor 1 0 0\ntriangle 1 2 3\ntriangle 1 2 3\ncolor 0 1 0\ntriangle 1 2 3\ncolor 1 0 0\ntriangle 1 2 3\nclumpend").toOption.map
      (fun p => p.meshes.map (fun m => (m.groups, m.material.map (fun r => r.source.color))))
      = some [([⟨0, 0, none⟩, ⟨0, 6, some 0⟩, ⟨6, 3, some 1⟩, ⟨9, 3, some 2⟩],
          [[1, 0, 0], [0, 1, 0], [1, 0, 0]])] := by
  with_unfolding_all decide

/-! ### C4: `quad` -/

/-- The material check, with the pair returned by the manager spelled out. -/
theorem checkMaterial_eq (ctx : Ctx) :
    checkMaterial ctx =
      if ctx.materialManager.getCurrentMaterialID.1 ≠ ctx.previousMaterialID then
        commitBufferGeometryGroup
          { ctx with materialManager := ctx.materialManager.getCurrentMaterialID.2 }
      else Except.ok { ctx with materialManager := ctx.materialManager.getCurrentMaterialID.2 } :=
  rfl

/-- What the material check leaves behind when a geometry is in place. -/
theorem checkMaterial_spec (ctx : Ctx) (groups : List GeomGroup)
    (h : ctx.currentBufferGeometry = some groups) :
    ∃ ctx1, checkMaterial ctx = Except.ok ctx1 ∧
      ctx1.currentBufferFaces = ctx.currentBufferFaces ∧
      ctx1.currentGroup = ctx.currentGroup ∧
      ctx1.groups = ctx.groups ∧
      ctx1.currentBufferVertices = ctx.currentBufferVertices ∧
      ctx1.materialManager.currentRWXMaterial = ctx.materialManager.currentRWXMaterial ∧
      ctx1.currentBufferFaceCount =
        (if ctx.materialManager.getCurrentMaterialID.1 = ctx.previousMaterialID
          then ctx.currentBufferFaceCount else 0) := by
  rw [checkMaterial_eq]
  by_cases hid : ctx.materialManager.getCurrentMaterialID.1 = ctx.previousMaterialID
  · rw [if_neg (not_not.mpr hid), if_pos hid]
    exact ⟨_, rfl, rfl, rfl, rfl, rfl, getCurrentMaterialID_material _, rfl⟩
  · rw [if_pos hid, if_neg hid,
      commit_ok { ctx with materialManager := ctx.materialManager.getCurrentMaterialID.2 } groups h]
    refine ⟨_, rfl, rfl, rfl, rfl, rfl, ?_, rfl⟩
    simp [getCurrentMaterialID_material]

/-- The function `addQuad` after a material check that left `c`. -/
theorem addQuad_spec (ctx c : Ctx) (p q r s : Int) (g : Nat)
    (hc : checkMaterial ctx = Except.ok c) (hg : c.currentGroup = some g) :
    ∃ out, addQuad ctx p q r s = Except.ok out ∧
      (c.materialManager.currentRWXMaterial.geometrysampling ≠ 2 →
        out.currentBufferFaces = c.currentBufferFaces ++ [p, q, r, p, r, s] ∧
        out.currentBufferFaceCount = c.currentBufferFaceCount + 2) ∧
      (c.materialManager.currentRWXMaterial.geometrysampling = 2 →
        out.currentBufferFaces = c.currentBufferFaces ∧
        out.currentBufferFaceCount = c.currentBufferFaceCount) := by
  unfold addQuad
  rw [hc]
  by_cases hw : c.materialManager.currentRWXMaterial.geometrysampling = 2
  · simp [bind, Except.bind, hw, hg, pure_eq_ok, Ctx.addChild]
  · simp [bind, Except.bind, hw, pure_eq_ok]

/-- C4 (as stated, refuted): in `quadContext` the sampling is solid and one face
is open; the line `quad 1 2 3 4` succeeds and leaves an open face count of 2,
which is not the count before the line plus 2. -/
theorem C4_open_count_counterexample :
    quadContext.materialManager.currentRWXMaterial.geometrysampling = 3 ∧
      quadContext.currentBufferFaceCount = 1 ∧
      (exec exampleEnv quadContext (Command.quad 1 2 3 4)).toOption.map
        (fun c => c.currentBufferFaceCount) = some 2 ∧
      (2 : Nat) ≠ quadContext.currentBufferFaceCount + 2 := by
  with_unfolding_all decide

/-- C4 (amended): for every `quad i j k l` line processed in a clump (a geometry
and a current group are in place) the branch succeeds.  Under solid or
pointcloud sampling exactly the six indices of the triangles `(a,b,c)` and
`(a,c,d)`, `a = i-1` ..., are appended and the open face count is 2 more than
the material check left it: the count before the line when the resolved slot is
the last slot, 0 after a flush.  Under wireframe sampling the index buffer is
unchanged and the open face count is what the material check left. -/
theorem C4_quad_indices_and_open_count (env : Env) (ctx : Ctx) (i j k l : Nat)
    (groups : List GeomGroup) (g : Nat)
    (hgeom : ctx.currentBufferGeometry = some groups) (hgroup : ctx.currentGroup = some g) :
    ∃ ctx1, exec env ctx (Command.quad i j k l) = Except.ok ctx1 ∧
      (ctx.materialManager.currentRWXMaterial.geometrysampling ≠ 2 →
        ctx1.currentBufferFaces = ctx.currentBufferFaces ++
          [(i : Int) - 1, (j : Int) - 1, (k : Int) - 1, (i : Int) - 1, (k : Int) - 1, (l : Int) - 1] ∧
        ctx1.currentBufferFaceCount =
          (if ctx.materialManager.getCurrentMaterialID.1 = ctx.previousMaterialID
            then ctx.currentBufferFaceCount else 0) + 2) ∧
      (ctx.materialManager.currentRWXMaterial.geometrysampling = 2 →
        ctx1.currentBufferFaces = ctx.currentBufferFaces ∧
        ctx1.currentBufferFaceCount =
          (if ctx.materialManager.getCurrentMaterialID.1 = ctx.previousMaterialID
            then ctx.currentBufferFaceCount else 0)) := by
  obtain ⟨c, hc, hfaces, hgrp, -, -, hmat, hcount⟩ := checkMaterial_spec ctx groups hgeom
  obtain ⟨out, hout, hsolid, hwire⟩ :=
    addQuad_spec ctx c ((i : Int) - 1) ((j : Int) - 1) ((k : Int) - 1) ((l : Int) - 1) g hc
      (hgrp.trans hgroup)
  rw [hmat, hfaces, hcount] at hsolid hwire
  exact ⟨out, hout, hsolid, hwire⟩

/-- Instance of C4 (amended) at `quadContext` and the line `quad 1 2 3 4`. -/
theorem C4_quad_indices_and_open_count_witness :
    quadContext.currentBufferGeometry = some [⟨0, 0, none⟩] ∧
      quadContext.currentGroup = some 1 ∧
      ∃ ctx1, exec exampleEnv quadContext (Command.quad 1 2 3 4) = Except.ok ctx1 ∧
        (quadContext.materialManager.currentRWXMaterial.geometrysampling ≠ 2 →
          ctx1.currentBufferFaces = quadContext.currentBufferFaces ++
            [((1 : Nat) : Int) - 1, ((2 : Nat) : Int) - 1, ((3 : Nat) : Int) - 1,
              ((1 : Nat) : Int) - 1, ((3 : Nat) : Int) - 1, ((4 : Nat) : Int) - 1] ∧
          ctx1.currentBufferFaceCount =
            (if quadContext.materialManager.getCurrentMaterialID.1 = quadContext.previousMaterialID
              then quadContext.currentBufferFaceCount else 0) + 2) ∧
        (quadContext.materialManager.currentRWXMaterial.geometrysampling = 2 →
          ctx1.currentBufferFaces = quadContext.currentBufferFaces ∧
          ctx1.currentBufferFaceCount =
            (if quadContext.materialManager.getCurrentMaterialID.1 = quadContext.previousMaterialID
              then quadContext.currentBufferFaceCount else 0)) :=
  ⟨by with_unfolding_all decide, by with_unfolding_all decide,
    C4_quad_indices_and_open_count exampleEnv quadContext 1 2 3 4 [⟨0, 0, none⟩] 1
      (by with_unfolding_all decide) (by with_unfolding_all decide)⟩

/-! ### C5: vertex lines fill the position and uv buffers -/

/-- The loop of `getFinalTransform` succeeds when no stack entry is undefined. -/
theorem foldlM_multiplyEntry_ok (ctx : Ctx) (stack : List (Option Nat))
    (h : ∀ t ∈ stack, t ≠ none) (acc : Matrix4) :
    ∃ m, stack.foldlM (multiplyEntry ctx) acc = Except.ok m := by
  induction stack generalizing acc with
  | nil => exact ⟨acc, rfl⟩
  | cons t rest ih =>
    cases t with
    | none => exact absurd rfl (h none (List.mem_cons_self _ _))
    | some r =>
      obtain ⟨m, hm⟩ := ih (fun t ht => h t (List.mem_cons_of_mem _ ht)) (acc.multiply (ctx.mat r))
      exact ⟨m, by simpa [List.foldlM, multiplyEntry, pure_eq_ok, bind, Except.bind] using hm⟩

/-- The final transform exists when the current transform and every stack entry
are defined. -/
theorem getFinalTransform_ok (ctx : Ctx) (r : Nat) (hcur : ctx.currentTransform = some r)
    (hstack : ∀ t ∈ ctx.transformStack, t ≠ none) :
    ∃ m, getFinalTransform ctx = Except.ok m := by
  obtain ⟨m, hm⟩ := foldlM_multiplyEntry_ok ctx ctx.transformStack hstack Matrix4.identity
  exact ⟨m.multiply (ctx.mat r), by
    simp [getFinalTransform, hm, hcur, multiplyEntry, pure_eq_ok, bind, Except.bind]⟩

/-- The vertex branch, given the final transform. -/
theorem exec_vertex (env : Env) (ctx : Ctx) (m : Matrix4) (v : (ℚ × ℚ × ℚ) × Option (ℚ × ℚ))
    (hm : getFinalTransform ctx = Except.ok m) :
    exec env ctx (vertexCommand v) = Except.ok
      { ctx with
        currentBufferVertices := ctx.currentBufferVertices ++
          [some (m.applyToPoint v.1.1 v.1.2.1 v.1.2.2).1,
           some (m.applyToPoint v.1.1 v.1.2.1 v.1.2.2).2.1,
           some (m.applyToPoint v.1.1 v.1.2.1 v.1.2.2).2.2]
        currentBufferUVs := ctx.currentBufferUVs ++ uvPair v } := by
  obtain ⟨⟨x, y, z⟩, uv⟩ := v
  cases uv with
  | none => simp [vertexCommand, exec, hm, uvPair, pure_eq_ok, bind, Except.bind]
  | some p =>
    obtain ⟨u, w⟩ := p
    simp [vertexCommand, exec, hm, uvPair, pure_eq_ok, bind, Except.bind]

/-- A run of vertex lines: three numbers per line go to the position buffer and
the line's uv pair goes to the uv buffer; nothing else of the context changes. -/
theorem execAll_vertices (env : Env) (vs : List ((ℚ × ℚ × ℚ) × Option (ℚ × ℚ))) (ctx : Ctx)
    (r : Nat) (hcur : ctx.currentTransform = some r)
    (hstack : ∀ t ∈ ctx.transformStack, t ≠ none) :
    ∃ ctx1, execAll env ctx (vs.map vertexCommand) = Except.ok ctx1 ∧
      ctx1.currentBufferVertices.length = ctx.currentBufferVertices.length + 3 * vs.length ∧
      ctx1.currentBufferUVs = ctx.currentBufferUVs ++ vs.flatMap uvPair := by
  induction vs generalizing ctx with
  | nil => exact ⟨ctx, rfl, by simp, by simp⟩
  | cons v rest ih =>
    obtain ⟨m, hm⟩ := getFinalTransform_ok ctx r hcur hstack
    have hstep := exec_vertex env ctx m v hm
    generalize hnext : ({ ctx with
        currentBufferVertices := ctx.currentBufferVertices ++
          [some (m.applyToPoint v.1.1 v.1.2.1 v.1.2.2).1,
           some (m.applyToPoint v.1.1 v.1.2.1 v.1.2.2).2.1,
           some (m.applyToPoint v.1.1 v.1.2.1 v.1.2.2).2.2]
        currentBufferUVs := ctx.currentBufferUVs ++ uvPair v } : Ctx) = next at hstep
    have hcur2 : next.currentTransform = some r := by rw [← hnext]; exact hcur
    have hstack2 : ∀ t ∈ next.transformStack, t ≠ none := by rw [← hnext]; exact hstack
    have hv2 : next.currentBufferVertices.length = ctx.currentBufferVertices.length + 3 := by
      rw [← hnext]; simp
    have hu2 : next.currentBufferUVs = ctx.currentBufferUVs ++ uvPair v := by rw [← hnext]
    obtain ⟨ctx1, h1, hlen, huv⟩ := ih next hcur2 hstack2
    refine ⟨ctx1, ?_, ?_, ?_⟩
    · simp only [execAll, List.map_cons, List.foldlM_cons, hstep]
      exact h1
    · rw [hlen, hv2]
      simp only [List.length_cons]
      omega
    · rw [huv, hu2]
      simp [List.flatMap_cons, List.append_assoc]

/-- C5: after any `N` vertex lines in a leaf scope (current transform and scope
stack defined, empty buffers, no other line in between) the branch never fails,
the position buffer holds exactly `3 N` numbers and the uv buffer `2 N`: the
pairs of the lines in order, `(0, 0)` for a line without a `uv` part. -/
theorem C5_vertex_lines_fill_buffers (env : Env) (ctx : Ctx)
    (vs : List ((ℚ × ℚ × ℚ) × Option (ℚ × ℚ))) (r : Nat)
    (hcur : ctx.currentTransform = some r) (hstack : ∀ t ∈ ctx.transformStack, t ≠ none)
    (hv : ctx.currentBufferVertices = []) (hu : ctx.currentBufferUVs = []) :
    ∃ ctx1, execAll env ctx (vs.map vertexCommand) = Except.ok ctx1 ∧
      ctx1.currentBufferVertices.length = 3 * vs.length ∧
      ctx1.currentBufferUVs.length = 2 * vs.length ∧
      ctx1.currentBufferUVs = vs.flatMap uvPair ∧
      (∀ v ∈ vs, v.2 = none → uvPair v = [some 0, some 0]) := by
  obtain ⟨ctx1, h1, hlen, huv⟩ := execAll_vertices env vs ctx r hcur hstack
  rw [hv] at hlen
  rw [hu] at huv
  refine ⟨ctx1, h1, by simpa using hlen, ?_, by simpa using huv, ?_⟩
  · rw [huv]
    simp only [List.nil_append]
    clear h1 hlen huv
    induction vs with
    | nil => rfl
    | cons v rest ih =>
      have hp : (uvPair v).length = 2 := by
        obtain ⟨p, uv⟩ := v
        cases uv with
        | none => rfl
        | some q => rfl
      simp only [List.flatMap_cons, List.length_append, List.length_cons, ih, hp]
      omega
  · intro v _ hnone
    obtain ⟨p, uv⟩ := v
    simp only at hnone
    subst hnone
    rfl

/-- Instance of C5: two vertex lines, one with and one without `uv`, right
after `modelbegin`, `clumpbegin`. -/
theorem C5_vertex_lines_fill_buffers_witness :
    clumpContext.currentTransform = some 1 ∧
      (∀ t ∈ clumpContext.transformStack, t ≠ none) ∧
      clumpContext.currentBufferVertices = [] ∧ clumpContext.currentBufferUVs = [] ∧
      ∃ ctx1, execAll exampleEnv clumpContext
          ([((1, 2, 3), some (1 / 4, 1 / 4)), ((4, 5, 6), none)].map vertexCommand) = Except.ok ctx1 ∧
        ctx1.currentBufferVertices.length
          = 3 * [(((1 : ℚ), (2 : ℚ), (3 : ℚ)), some ((1 : ℚ) / 4, (1 : ℚ) / 4)), ((4, 5, 6), none)].length ∧
        ctx1.currentBufferUVs.length
          = 2 * [(((1 : ℚ), (2 : ℚ), (3 : ℚ)), some ((1 : ℚ) / 4, (1 : ℚ) / 4)), ((4, 5, 6), none)].length ∧
        ctx1.currentBufferUVs
          = [(((1 : ℚ), (2 : ℚ), (3 : ℚ)), some ((1 : ℚ) / 4, (1 : ℚ) / 4)), ((4, 5, 6), none)].flatMap uvPair ∧
        (∀ v ∈ [(((1 : ℚ), (2 : ℚ), (3 : ℚ)), some ((1 : ℚ) / 4, (1 : ℚ) / 4)), ((4, 5, 6), none)],
          v.2 = none → uvPair v = [some 0, some 0]) :=
  ⟨by with_unfolding_all decide, by with_unfolding_all decide, by with_unfolding_all decide,
    by with_unfolding_all decide,
    C5_vertex_lines_fill_buffers exampleEnv clumpContext _ 1 (by with_unfolding_all decide)
      (by with_unfolding_all decide) (by with_unfolding_all decide) (by with_unfolding_all decide)⟩

/-! ### C6: translation at model scope -/

/-- C6 (refuted on the code): right after `modelbegin` the scope stack holds the
very object that is the current transform, so `translate tx ty tz` changes both
and the vertex declared next at model scope is stored at `v + 2 t`, not
`v + t`. -/
theorem C6_model_scope_translation_applied_twice (env : Env) (tx ty tz x y z : ℚ) :
    ∃ ctx1, execAll env {}
        [Command.modelbegin, Command.translate [tx, ty, tz], Command.vertex x y z none]
          = Except.ok ctx1 ∧
      ctx1.transformStack = [ctx1.currentTransform] ∧
      ctx1.currentBufferVertices
        = [some (x + 2 * tx), some (y + 2 * ty), some (z + 2 * tz)] := by
  simp [execAll, exec, multiplyCurrent, getFinalTransform, multiplyEntry, pure_eq_ok, bind,
    Except.bind, Ctx.setMat, Ctx.mat, Matrix4.multiply, Matrix4.identity, Matrix4.makeTranslation,
    Matrix4.applyToPoint, modifyAt]
  refine ⟨?_, ?_, ?_⟩ <;> ring

/-- The same on text: the mesh flushed by the next `clumpbegin` holds the
positions shifted by twice the translation. -/
theorem parse_model_scope_translation :
    (parse exampleEnv 0
        "modelbegin\nclumpbegin\nclumpend\ntranslate 1 0 0\nvertex 0 0 0\nvertex 1 0 0\nvertex 0 1 0\ntriangle 1 2 3\nclumpbegin\nclumpend").toOption.map
      (fun p => p.meshes.map (fun m => m.position))
      = some [[some 2, some 0, some 0, some 3, some 0, some 0, some 2, some 1, some 0]] := by
  with_unfolding_all decide

/-! ### C7: `rotate` then `translate` -/

theorem Matrix4.identity_multiply (m : Matrix4) : Matrix4.identity.multiply m = m := by
  cases m
  simp [Matrix4.multiply, Matrix4.identity]

theorem Matrix4.multiply_identity (m : Matrix4) : m.multiply Matrix4.identity = m := by
  cases m
  simp [Matrix4.multiply, Matrix4.identity]

/-- Reading back the matrix object just overwritten. -/
theorem mat_setMat_self (ctx : Ctx) (r : Nat) (m : Matrix4) (hr : r < ctx.mats.length) :
    (ctx.setMat r m).mat r = m := by
  simp [Ctx.setMat, Ctx.mat, hr]

/-- Overwriting one matrix object leaves the others alone. -/
theorem mat_setMat_ne (ctx : Ctx) (r q : Nat) (m : Matrix4) (h : q ≠ r) :
    (ctx.setMat r m).mat q = ctx.mat q := by
  simp [Ctx.setMat, Ctx.mat, List.getElem?_set_ne (Ne.symm h)]

/-- A scope stack of identity matrices contributes nothing to the product. -/
theorem foldlM_multiplyEntry_identity (ctx : Ctx) (stack : List (Option Nat))
    (h : ∀ t ∈ stack, ∃ q, t = some q ∧ ctx.mat q = Matrix4.identity) (acc : Matrix4) :
    stack.foldlM (multiplyEntry ctx) acc = Except.ok acc := by
  induction stack with
  | nil => rfl
  | cons t rest ih =>
    obtain ⟨q, rfl, hq⟩ := h t (List.mem_cons_self _ _)
    simp only [List.foldlM_cons, multiplyEntry, pure_eq_ok, bind, Except.bind, hq,
      Matrix4.multiply_identity]
    exact ih (fun t ht => h t (List.mem_cons_of_mem _ ht))

/-- C7: in a clump whose current transform is a fresh identity matrix and whose
enclosing scope transforms are identity matrices (other objects than the current
one), the lines `rotate 0 0 1 90`, `translate tx ty tz`, `vertex x y z` succeed
and store `Rz · (v + t)`, where `Rz` is the rotation matrix built from
`c = cos 90°` and `s = sin 90°`; with `c = 0` and `s = 1` this is
`(-(y + ty), x + tx, z + tz)`, so `t = (1,0,0)`, `v = (0,0,0)` gives `(0,1,0)`. -/
theorem C7_rotate_then_translate (env : Env) (ctx : Ctx) (r : Nat) (tx ty tz x y z : ℚ)
    (hcur : ctx.currentTransform = some r) (hr : r < ctx.mats.length)
    (hid : ctx.mat r = Matrix4.identity)
    (hstack : ∀ t ∈ ctx.transformStack, ∃ q, t = some q ∧ q ≠ r ∧ ctx.mat q = Matrix4.identity) :
    ∃ ctx1, execAll env ctx
        [Command.rotate [0, 0, 1, 90], Command.translate [tx, ty, tz], Command.vertex x y z none]
          = Except.ok ctx1 ∧
      ctx1.currentBufferVertices = ctx.currentBufferVertices ++
        [some (env.cosDeg 90 * (x + tx) - env.sinDeg 90 * (y + ty)),
         some (env.sinDeg 90 * (x + tx) + env.cosDeg 90 * (y + ty)),
         some (z + tz)] ∧
      (env.cosDeg 90 = 0 → env.sinDeg 90 = 1 →
        ctx1.currentBufferVertices = ctx.currentBufferVertices ++
          [some (-(y + ty)), some (x + tx), some (z + tz)]) := by
  have hrot : exec env ctx (Command.rotate [0, 0, 1, 90]) = Except.ok
      (ctx.setMat r ((ctx.mat r).multiply
        (Matrix4.makeRotationZ (env.cosDeg 90) (env.sinDeg 90)))) := by
    simp [exec, multiplyCurrent, hcur, pure_eq_ok, bind, Except.bind]
  have htr : exec env (ctx.setMat r ((ctx.mat r).multiply
        (Matrix4.makeRotationZ (env.cosDeg 90) (env.sinDeg 90)))) (Command.translate [tx, ty, tz])
      = Except.ok (ctx.setMat r (((ctx.mat r).multiply
        (Matrix4.makeRotationZ (env.cosDeg 90) (env.sinDeg 90))).multiply
          (Matrix4.makeTranslation tx ty tz))) := by
    simp [exec, multiplyCurrent, Ctx.setMat, Ctx.mat, hcur, hr, pure_eq_ok]
  have hfin : getFinalTransform (ctx.setMat r (((ctx.mat r).multiply
        (Matrix4.makeRotationZ (env.cosDeg 90) (env.sinDeg 90))).multiply
          (Matrix4.makeTranslation tx ty tz)))
      = Except.ok ((Matrix4.makeRotationZ (env.cosDeg 90) (env.sinDeg 90)).multiply
          (Matrix4.makeTranslation tx ty tz)) := by
    have hfold := foldlM_multiplyEntry_identity (ctx.setMat r (((ctx.mat r).multiply
        (Matrix4.makeRotationZ (env.cosDeg 90) (env.sinDeg 90))).multiply
          (Matrix4.makeTranslation tx ty tz))) ctx.transformStack
      (fun t ht => by
        obtain ⟨q, hq, hne, hq1⟩ := hstack t ht
        exact ⟨q, hq, by rw [mat_setMat_ne _ _ _ _ hne]; exact hq1⟩) Matrix4.identity
    have hstk : (ctx.setMat r (((ctx.mat r).multiply
        (Matrix4.makeRotationZ (env.cosDeg 90) (env.sinDeg 90))).multiply
          (Matrix4.makeTranslation tx ty tz))).transformStack = ctx.transformStack := rfl
    have hc : (ctx.setMat r (((ctx.mat r).multiply
        (Matrix4.makeRotationZ (env.cosDeg 90) (env.sinDeg 90))).multiply
          (Matrix4.makeTranslation tx ty tz))).currentTransform = some r := hcur
    unfold getFinalTransform
    rw [hstk, hfold]
    simp only [bind, Except.bind, hc, multiplyEntry, pure_eq_ok]
    rw [mat_setMat_self _ _ _ hr, hid, Matrix4.identity_multiply, Matrix4.identity_multiply]
  have hv := exec_vertex env _ _ ((x, y, z), none) hfin
  have hrun : execAll env ctx
      [Command.rotate [0, 0, 1, 90], Command.translate [tx, ty, tz], Command.vertex x y z none]
        = exec env (ctx.setMat r (((ctx.mat r).multiply
        (Matrix4.makeRotationZ (env.cosDeg 90) (env.sinDeg 90))).multiply
          (Matrix4.makeTranslation tx ty tz))) (Command.vertex x y z none) := by
    simp only [execAll, List.foldlM_cons, List.foldlM_nil, hrot, htr, bind, Except.bind]
    cases exec env _ (Command.vertex x y z none) <;> rfl
  have hpos : ∀ c s : ℚ,
      ((Matrix4.makeRotationZ c s).multiply (Matrix4.makeTranslation tx ty tz)).applyToPoint x y z
        = (c * (x + tx) - s * (y + ty), s * (x + tx) + c * (y + ty), z + tz) := by
    intro c s
    simp only [Matrix4.applyToPoint, Matrix4.multiply, Matrix4.makeRotationZ,
      Matrix4.makeTranslation, Prod.mk.injEq]
    refine ⟨?_, ?_, ?_⟩ <;> ring
  refine ⟨_, hrun.trans hv, ?_, ?_⟩
  · show ctx.currentBufferVertices ++ _ = _
    simp only [hpos]
  · intro hc hs
    show ctx.currentBufferVertices ++ _ = _
    simp only [hpos, hc, hs]
    norm_num

/-- Instance of C7 right after `modelbegin`, `clumpbegin`, with exact cosine and
sine, `t = (1, 0, 0)` and `v = (0, 0, 0)`: the stored position is `(0, 1, 0)`. -/
theorem C7_rotate_then_translate_witness :
    clumpContext.currentTransform = some 1 ∧ 1 < clumpContext.mats.length ∧
      clumpContext.mat 1 = Matrix4.identity ∧
      (∀ t ∈ clumpContext.transformStack,
        ∃ q, t = some q ∧ q ≠ 1 ∧ clumpContext.mat q = Matrix4.identity) ∧
      exampleEnv.cosDeg 90 = 0 ∧ exampleEnv.sinDeg 90 = 1 ∧
      ∃ ctx1, execAll exampleEnv clumpContext
          [Command.rotate [0, 0, 1, 90], Command.translate [1, 0, 0], Command.vertex 0 0 0 none]
            = Except.ok ctx1 ∧
        ctx1.currentBufferVertices = clumpContext.currentBufferVertices ++
          [some (exampleEnv.cosDeg 90 * (0 + 1) - exampleEnv.sinDeg 90 * (0 + 0)),
           some (exampleEnv.sinDeg 90 * (0 + 1) + exampleEnv.cosDeg 90 * (0 + 0)),
           some (0 + 0)] ∧
        (exampleEnv.cosDeg 90 = 0 → exampleEnv.sinDeg 90 = 1 →
          ctx1.currentBufferVertices = clumpContext.currentBufferVertices ++
            [some (-(0 + 0)), some (0 + 1), some (0 + 0)]) :=
  ⟨by with_unfolding_all decide, by with_unfolding_all decide, by with_unfolding_all decide,
    by with_unfolding_all decide, by with_unfolding_all decide, by with_unfolding_all decide,
    C7_rotate_then_translate exampleEnv clumpContext 1 1 0 0 0 0 0
      (by with_unfolding_all decide) (by with_unfolding_all decide)
      (by with_unfolding_all decide) (by with_unfolding_all decide)⟩

/-- The same on text: the position stored for `vertex 0 0 0` is `(0, 1, 0)`. -/
theorem parse_rotate_then_translate :
    (ctxAfter exampleEnv
        "modelbegin\nclumpbegin\nrotate 0 0 1 90\ntranslate 1 0 0\nvertex 0 0 0").currentBufferVertices
      = [some 0, some 1, some 0] := by
  with_unfolding_all decide

/-! ### C8: `transform` -/

/-- Reading back sixteen numbers through `fromArray` and `elements`. -/
theorem elements_fromArray (ms : List ℚ) (h : ms.length = 16) :
    (Matrix4.fromArray ms).elements = ms := by
  rcases ms with _ | ⟨a0, _ | ⟨a1, _ | ⟨a2, _ | ⟨a3, _ | ⟨a4, _ | ⟨a5, _ | ⟨a6, _ | ⟨a7, _ | ⟨a8, _ | ⟨a9, _ | ⟨a10, _ | ⟨a11, _ | ⟨a12, _ | ⟨a13, _ | ⟨a14, _ | ⟨a15, _ | ⟨b, rest⟩⟩⟩⟩⟩⟩⟩⟩⟩⟩⟩⟩⟩⟩⟩⟩⟩
  all_goals first
    | (simp only [List.length_cons, List.length_nil] at h; omega)
    | rfl

/-- C8: for every `transform` line with 16 values the branch succeeds, the
current transform is still the same object and its 16 elements are exactly the
16 values of the line (whatever the matrix was before), except that a 16th value
equal to 0 is stored as 1; a non-zero 16th value is stored unchanged. -/
theorem C8_transform_replaces_current (env : Env) (ctx : Ctx) (r : Nat) (ms : List ℚ)
    (hcur : ctx.currentTransform = some r) (hr : r < ctx.mats.length) (hlen : ms.length = 16) :
    ∃ ctx1, exec env ctx (Command.transform ms) = Except.ok ctx1 ∧
      ctx1.currentTransform = some r ∧
      (ctx1.mat r).elements = (if ms.getD 15 0 = 0 then ms.set 15 1 else ms) ∧
      (ms.getD 15 0 ≠ 0 → (ctx1.mat r).elements = ms) := by
  refine ⟨ctx.setMat r (Matrix4.fromArray (if ms.getD 15 0 = 0 then ms.set 15 1 else ms)),
    ?_, hcur, ?_, ?_⟩
  · simp only [exec, hlen, if_true, hcur, pure_eq_ok]
  · rw [mat_setMat_self _ _ _ hr]
    apply elements_fromArray
    split <;> simp [hlen]
  · intro h0
    rw [mat_setMat_self _ _ _ hr, if_neg h0]
    exact elements_fromArray ms hlen

/-- Instance of C8 right after `modelbegin`, `clumpbegin`: a line whose 16th
value is 0. -/
theorem C8_transform_replaces_current_witness :
    clumpContext.currentTransform = some 1 ∧ 1 < clumpContext.mats.length ∧
      [(2 : ℚ), 0, 0, 0, 0, 2, 0, 0, 0, 0, 2, 0, 5, 6, 7, 0].length = 16 ∧
      ∃ ctx1, exec exampleEnv clumpContext
          (Command.transform [2, 0, 0, 0, 0, 2, 0, 0, 0, 0, 2, 0, 5, 6, 7, 0]) = Except.ok ctx1 ∧
        ctx1.currentTransform = some 1 ∧
        (ctx1.mat 1).elements =
          (if [(2 : ℚ), 0, 0, 0, 0, 2, 0, 0, 0, 0, 2, 0, 5, 6, 7, 0].getD 15 0 = 0
            then [(2 : ℚ), 0, 0, 0, 0, 2, 0, 0, 0, 0, 2, 0, 5, 6, 7, 0].set 15 1
            else [(2 : ℚ), 0, 0, 0, 0, 2, 0, 0, 0, 0, 2, 0, 5, 6, 7, 0]) ∧
        ([(2 : ℚ), 0, 0, 0, 0, 2, 0, 0, 0, 0, 2, 0, 5, 6, 7, 0].getD 15 0 ≠ 0 →
          (ctx1.mat 1).elements = [(2 : ℚ), 0, 0, 0, 0, 2, 0, 0, 0, 0, 2, 0, 5, 6, 7, 0]) :=
  ⟨by with_unfolding_all decide, by with_unfolding_all decide, by decide,
    C8_transform_replaces_current exampleEnv clumpContext 1 _
      (by with_unfolding_all decide) (by with_unfolding_all decide) (by decide)⟩

/-- The same on text: the line is matched with its 16 values and the stored
matrix ends in 1. -/
theorem parse_transform_line :
    matchLine "transform 2 0 0 0 0 2 0 0 0 0 2 0 5 6 7 0".data
        = [Command.transform [2, 0, 0, 0, 0, 2, 0, 0, 0, 0, 2, 0, 5, 6, 7, 0]] ∧
      ((ctxAfter exampleEnv
        "modelbegin\nclumpbegin\ntransform 2 0 0 0 0 2 0 0 0 0 2 0 5 6 7 0").mat 1).elements
        = [2, 0, 0, 0, 0, 2, 0, 0, 0, 0, 2, 0, 5, 6, 7, 1] := by
  constructor <;> with_unfolding_all decide

/-! ### C9: trailing comments -/

/-- C9 (refuted on the code): `nonCommentRegex` carries the `g` flag, so after a
line whose comment was stripped the next `exec` starts behind index 0 and fails:
the comment of that next line stays.  In a clump, `translate 1 0 0 # shift`
followed by `identity` resets the transform (positions unshifted), but with
`identity # reset` the line matches no pattern and the translation stays
(positions shifted by 1); the same `identity # reset` works when the line before
it has no comment. -/
theorem C9_comment_not_stripped_after_comment_line :
    (parse exampleEnv 0
        "modelbegin\nclumpbegin\ntranslate 1 0 0 # shift\nidentity\nvertex 0 0 0\nvertex 1 0 0\nvertex 0 1 0\ntriangle 1 2 3\nclumpend").toOption.map
      (fun p => p.meshes.map (fun m => m.position))
      = some [[some 0, some 0, some 0, some 1, some 0, some 0, some 0, some 1, some 0]] ∧
    (parse exampleEnv 0
        "modelbegin\nclumpbegin\ntranslate 1 0 0 # shift\nidentity # reset\nvertex 0 0 0\nvertex 1 0 0\nvertex 0 1 0\ntriangle 1 2 3\nclumpend").toOption.map
      (fun p => p.meshes.map (fun m => m.position))
      = some [[some 1, some 0, some 0, some 2, some 0, some 0, some 1, some 1, some 0]] ∧
    (parse exampleEnv 0
        "modelbegin\nclumpbegin\ntranslate 1 0 0\nidentity # reset\nvertex 0 0 0\nvertex 1 0 0\nvertex 0 1 0\ntriangle 1 2 3\nclumpend").toOption.map
      (fun p => p.meshes.map (fun m => m.position))
      = some [[some 0, some 0, some 0, some 1, some 0, some 0, some 0, some 1, some 0]] := by
  refine ⟨?_, ?_, ?_⟩ <;> with_unfolding_all decide

/-- The cleaning step alone: with `lastIndex` 0 the comment of a `rotate` line is
stripped and the line is matched; with the `lastIndex` left by a stripped line
it is not stripped, `lastIndex` falls back to 0 and the line matches nothing. -/
theorem cleanLine_rotate_with_comment :
    cleanLine 0 "translate 1 0 0 # shift".data = ("translate 1 0 0".data, 17) ∧
      cleanLine 0 "rotate 0 0 1 90 # turn".data = ("rotate 0 0 1 90".data, 17) ∧
      matchLine (cleanLine 0 "rotate 0 0 1 90 # turn".data).1 = [Command.rotate [0, 0, 1, 90]] ∧
      cleanLine 17 "rotate 0 0 1 90 # turn".data = ("rotate 0 0 1 90 # turn".data, 0) ∧
      matchLine (cleanLine 17 "rotate 0 0 1 90 # turn".data).1 = [] := by
  refine ⟨?_, ?_, ?_, ?_, ?_⟩ <;> with_unfolding_all decide

/-! ### C10: material signature -/

/-- C10 (refuted on the code): the signature concatenates the texture and mask
names without a separator, so the materials `texture ab mask c` and
`texture a mask bc` have the same signature although both names differ; in a
parse the face declared under the second material stays in the batch of the
first and the mesh carries the single resource made for `ab` / `c`. -/
theorem C10_signature_collision :
    ({ texture := some "ab", mask := some "c" } : RWXMaterial).getMatSignature
        = ({ texture := some "a", mask := some "bc" } : RWXMaterial).getMatSignature ∧
      ({ texture := some "ab", mask := some "c" } : RWXMaterial).texture
        ≠ ({ texture := some "a", mask := some "bc" } : RWXMaterial).texture ∧
      ({ texture := some "ab", mask := some "c" } : RWXMaterial).mask
        ≠ ({ texture := some "a", mask := some "bc" } : RWXMaterial).mask ∧
      (parse exampleEnv 0
          "modelbegin\nclumpbegin\nvertex 0 0 0\nvertex 1 0 0\nvertex 0 1 0\ntexture ab mask c\ntriangle 1 2 3\ntexture a mask bc\ntriangle 1 2 3\nclumpend").toOption.map
        (fun p => p.meshes.map
          (fun m => (m.groups, m.material.map (fun r => (r.source.texture, r.source.mask)))))
        = some [([⟨0, 0, none⟩, ⟨0, 6, some 0⟩], [(some "ab", some "c")])] := by
  refine ⟨?_, ?_, ?_, ?_⟩ <;> with_unfolding_all decide

/-! ### C12: the index loop of a polygon -/

/-- Pushing to the front while walking a range reverses the order. -/
theorem foldl_cons_range {α : Type} (f : Nat → α) (n : Nat) :
    (List.range n).foldl (fun acc i => f i :: acc) [] = ((List.range n).map f).reverse := by
  have h : ∀ (l : List Nat) (acc : List α),
      l.foldl (fun acc i => f i :: acc) acc = (l.map f).reverse ++ acc := by
    intro l
    induction l with
    | nil => intro acc; rfl
    | cons x xs ih => intro acc; simp [List.foldl_cons, ih]
  simpa using h (List.range n) []

/-- C12: for every `polygon n i1 .. ik` line with `n ≤ k` the branch hands to
`addPolygon` (and so to the triangulator) exactly the first `n` declared
indices, each decreased by 1, in reversed order. -/
theorem C12_polygon_loop_reversed (env : Env) (ctx : Ctx) (n : Nat) (ids : List Nat)
    (h : n ≤ ids.length) :
    polyIDs n ids = ((ids.take n).map (fun (id : Nat) => some ((id : Int) - 1))).reverse ∧
      exec env ctx (Command.polygon n ids)
        = addPolygon env ctx (((ids.take n).map (fun (id : Nat) => some ((id : Int) - 1))).reverse) := by
  have hmap : ∀ k, k ≤ ids.length →
      (List.range k).map (fun polyI => (ids.get? polyI).map (fun (id : Nat) => (id : Int) - 1))
        = (ids.take k).map (fun (id : Nat) => some ((id : Int) - 1)) := by
    intro k
    induction k with
    | zero => intro _; rfl
    | succ k ih =>
      intro hk
      have hk1 : k < ids.length := hk
      rw [List.range_succ, List.map_append, ih (Nat.le_of_lt hk1), List.take_succ,
        List.map_append]
      simp [List.getElem?_eq_getElem hk1]
  have hp : polyIDs n ids = ((ids.take n).map (fun (id : Nat) => some ((id : Int) - 1))).reverse := by
    unfold polyIDs
    rw [foldl_cons_range, hmap n h]
  exact ⟨hp, by simp only [exec, hp]⟩

/-- Instance of C12: the line `polygon 4 1 2 3 4` in a clump. -/
theorem C12_polygon_loop_reversed_witness :
    4 ≤ [1, 2, 3, 4].length ∧
      matchLine "polygon 4 1 2 3 4".data = [Command.polygon 4 [1, 2, 3, 4]] ∧
      (polyIDs 4 [1, 2, 3, 4]
          = (([1, 2, 3, 4].take 4).map (fun (id : Nat) => some ((id : Int) - 1))).reverse ∧
        exec exampleEnv clumpContext (Command.polygon 4 [1, 2, 3, 4])
          = addPolygon exampleEnv clumpContext
              ((([1, 2, 3, 4].take 4).map (fun (id : Nat) => some ((id : Int) - 1))).reverse)) :=
  ⟨by decide, by with_unfolding_all decide,
    C12_polygon_loop_reversed exampleEnv clumpContext 4 [1, 2, 3, 4] (by decide)⟩

/-! ### C13: a polygon with too few indices -/

/-- C13 (refuted on the code): `polygon 5 1 2 3` declares five indices and gives
three.  The line is matched and not skipped: the loop is `[NaN, NaN, 2, 1, 0]`
and the uv buffer grows from 6 to 16 entries, four of them undefined. -/
theorem C13_short_polygon_not_skipped :
    matchLine "polygon 5 1 2 3".data = [Command.polygon 5 [1, 2, 3]] ∧
      polyIDs 5 [1, 2, 3] = [none, none, some 2, some 1, some 0] ∧
      (ctxAfter exampleEnv
        "modelbegin\nclumpbegin\nvertex 0 0 0\nvertex 1 0 0\nvertex 0 1 0").currentBufferUVs
        = [some 0, some 0, some 0, some 0, some 0, some 0] ∧
      (ctxAfter exampleEnv
        "modelbegin\nclumpbegin\nvertex 0 0 0\nvertex 1 0 0\nvertex 0 1 0\npolygon 5 1 2 3").currentBufferUVs
        = [some 0, some 0, some 0, some 0, some 0, some 0, none, none, none, none,
            some 0, some 0, some 0, some 0, some 0, some 0] := by
  refine ⟨?_, ?_, ?_, ?_⟩ <;> with_unfolding_all decide

/-- Whatever the triangulator returns, `addPolygon` appends two uv entries per
loop entry, also for a loop that holds `NaN`. -/
theorem addPolygon_uvs_length (env : Env) (ctx ctx1 : Ctx) (loop : List (Option Int))
    (h : addPolygon env ctx loop = Except.ok ctx1) :
    ctx1.currentBufferUVs.length = ctx.currentBufferUVs.length + 2 * loop.length := by
  unfold addPolygon at h
  cases hc : checkMaterial ctx with
  | error e => rw [hc] at h; cases h
  | ok c =>
    have huv : c.currentBufferUVs = ctx.currentBufferUVs := by
      rw [checkMaterial_eq] at hc
      split at hc
      · unfold commitBufferGeometryGroup at hc
        split at hc
        · cases hc
        · cases hc; rfl
      · cases hc; rfl
    rw [hc] at h
    by_cases hl : loop = []
    · subst hl
      simp only [bind, Except.bind, triangulateFacesWithShapes, if_true, throw_eq_error] at h
      cases h
    · simp only [bind, Except.bind, pure_eq_ok, triangulateFacesWithShapes, hl, if_false] at h
      cases h
      simp only [List.length_append, huv]
      congr 1
      clear hc huv hl
      induction loop with
      | nil => rfl
      | cons k rest ih =>
        cases k <;> simp [List.flatMap_cons, ih] <;> omega

/-! ### C14: a `clumpend` without `clumpbegin` -/

/-- C14 (refuted on the code): the `clumpend` that follows `modelbegin` pops the
root off the group stack, and the end of `parse` dereferences
`ctx.groupStack[ 0 ]`: the parse throws a `TypeError` and hands no root to the
caller. -/
theorem C14_unbalanced_clumpend_throws (env : Env) :
    parse env 0 "modelbegin\nclumpend" = Except.error Err.typeError := by
  with_unfolding_all rfl

/-! ### C15: `transformend` with nothing saved -/

/-- C15: in every parse state whose save stack is empty the `transformend`
branch succeeds.  It allocates one new matrix object holding the identity (the
heap of matrices grows by exactly this object) and makes it the current
transform; nothing else changes: every matrix object that existed holds what it
held (so the scope stack, its entries and the matrices behind them, are
unchanged), the save stack is still empty, and the group stack, the current
group and the group objects are unchanged. -/
theorem C15_transformend_empty_saves (env : Env) (ctx : Ctx) (h : ctx.transformSaves = []) :
    ∃ ctx1 r, exec env ctx Command.transformend = Except.ok ctx1 ∧
      ctx1 = { ctx with
        mats := ctx.mats ++ [Matrix4.identity]
        currentTransform := some ctx.mats.length } ∧
      r = ctx.mats.length ∧
      ctx1.mats = ctx.mats ++ [Matrix4.identity] ∧
      ctx1.mats.get? r = some Matrix4.identity ∧
      (∀ q, q < ctx.mats.length → ctx1.mats.get? q = ctx.mats.get? q) ∧
      ctx1.currentTransform = some r ∧ ctx1.mat r = Matrix4.identity ∧
      ctx1.transformSaves = [] ∧
      ctx1.transformStack = ctx.transformStack ∧ (∀ q, ctx1.mat q = ctx.mat q) ∧
      ctx1.groupStack = ctx.groupStack ∧ ctx1.currentGroup = ctx.currentGroup ∧
      ctx1.groups = ctx.groups := by
  have hmat : ∀ q, (ctx.mats ++ [Matrix4.identity]).getD q Matrix4.identity
      = ctx.mats.getD q Matrix4.identity := by
    intro q
    simp only [List.getD_eq_getElem?_getD]
    by_cases hq : q < ctx.mats.length
    · rw [List.getElem?_append_left hq]
    · have hq2 : ctx.mats.length ≤ q := Nat.le_of_not_lt hq
      rw [List.getElem?_append_right hq2, List.getElem?_eq_none hq2]
      cases hk : q - ctx.mats.length with
      | zero => rfl
      | succ k => rfl
  refine ⟨{ ctx with mats := ctx.mats ++ [Matrix4.identity],
                      currentTransform := some ctx.mats.length },
    ctx.mats.length, ?_, rfl, rfl, rfl, ?_, ?_, rfl, ?_, ?_, rfl, ?_, rfl, rfl, rfl⟩
  · simp only [exec, loadCurrentTransform, h, List.length_nil, gt_iff_lt, Nat.lt_irrefl, if_false,
      Ctx.newMatrix, pure_eq_ok]
  · show (ctx.mats ++ [Matrix4.identity]).get? ctx.mats.length = some Matrix4.identity
    simp [List.get?_eq_getElem?]
  · intro q hq
    show (ctx.mats ++ [Matrix4.identity]).get? q = ctx.mats.get? q
    simp [List.get?_eq_getElem?, List.getElem?_append_left hq]
  · show (ctx.mats ++ [Matrix4.identity]).getD ctx.mats.length Matrix4.identity = _
    simp
  · exact h
  · intro q
    exact hmat q

/-- Instance of C15 after `modelbegin`, `clumpbegin`, `translate 1 2 3`, reached
from the text line `transformend`: the current transform holds the translation
before the line and is a new object holding the identity after it. -/
theorem C15_transformend_empty_saves_witness :
    movedContext.transformSaves = [] ∧
      matchLine "transformend".data = [Command.transformend] ∧
      movedContext.currentTransform = some 1 ∧
      movedContext.mats.get? 1 = some (Matrix4.makeTranslation 1 2 3) ∧
      movedContext.mats.length = 2 ∧
      ∃ ctx1 r, exec exampleEnv movedContext Command.transformend = Except.ok ctx1 ∧
        ctx1 = { movedContext with
          mats := movedContext.mats ++ [Matrix4.identity]
          currentTransform := some movedContext.mats.length } ∧
        r = movedContext.mats.length ∧
        ctx1.mats = movedContext.mats ++ [Matrix4.identity] ∧
        ctx1.mats.get? r = some Matrix4.identity ∧
        (∀ q, q < movedContext.mats.length → ctx1.mats.get? q = movedContext.mats.get? q) ∧
        ctx1.currentTransform = some r ∧ ctx1.mat r = Matrix4.identity ∧
        ctx1.transformSaves = [] ∧
        ctx1.transformStack = movedContext.transformStack ∧
        (∀ q, ctx1.mat q = movedContext.mat q) ∧
        ctx1.groupStack = movedContext.groupStack ∧
        ctx1.currentGroup = movedContext.currentGroup ∧
        ctx1.groups = movedContext.groups :=
  ⟨by with_unfolding_all decide, by with_unfolding_all decide, by with_unfolding_all decide,
    by with_unfolding_all decide, by with_unfolding_all decide,
    C15_transformend_empty_saves exampleEnv movedContext (by with_unfolding_all decide)⟩

/-! ### C16: lines after `modelend` -/

/-- C16 (refuted on the code): no branch of the loop tests `modelendRegex`, so
the lines after `modelend` are processed like any other: the document
`modelbegin`, `modelend` parses to a root without children, and the same
document followed by a clump with a triangle parses to a root with one child
group holding a mesh. -/
theorem C16_lines_after_modelend_processed :
    matchLine "modelend".data = [] ∧
      (parse exampleEnv 0 "modelbegin\nmodelend").toOption.map
        (fun p => (p.meshes.map (fun m => m.index), p.ctx.groups.map (fun g => g.children.length)))
        = some ([], [0]) ∧
      (parse exampleEnv 0
          "modelbegin\nmodelend\nclumpbegin\nvertex 0 0 0\nvertex 1 0 0\nvertex 0 1 0\ntriangle 1 2 3\nclumpend").toOption.map
        (fun p => (p.meshes.map (fun m => m.index), p.ctx.groups.map (fun g => g.children.length)))
        = some ([[0, 1, 2]], [1, 1]) := by
  refine ⟨?_, ?_, ?_⟩ <;> with_unfolding_all decide

/-! ### C17: state that survives a parse -/

/-- C17 (refuted on the code): `nonCommentRegex` is a field of the loader and
keeps its `lastIndex` between calls.  The first parse of the text below by a new
loader leaves `lastIndex = 10` and yields unshifted positions; the second parse
of the same text by the same loader starts with `lastIndex = 10`, strips the
comments of the other lines (so `identity # c` is no longer recognised) and
yields positions shifted by 2. -/
theorem C17_second_parse_differs :
    (parse exampleEnv 0
        "modelbegin # a\ntranslate 1 0 0 # b\nidentity # c\nclumpbegin\nvertex 0 0 0\nvertex 1 0 0\nvertex 0 1 0\ntriangle 1 2 3\nclumpend # end").toOption.map
      (fun p => (p.lastIndex, p.meshes.map (fun m => m.position)))
      = some (10, [[some 0, some 0, some 0, some 1, some 0, some 0, some 0, some 1, some 0]]) ∧
    (parse exampleEnv 10
        "modelbegin # a\ntranslate 1 0 0 # b\nidentity # c\nclumpbegin\nvertex 0 0 0\nvertex 1 0 0\nvertex 0 1 0\ntriangle 1 2 3\nclumpend # end").toOption.map
      (fun p => (p.lastIndex, p.meshes.map (fun m => m.position)))
      = some (10, [[some 2, some 0, some 0, some 3, some 0, some 0, some 2, some 1, some 0]]) := by
  refine ⟨?_, ?_⟩ <;> with_unfolding_all decide

/-! ### C24: the material registry after `protobegin` -/

/-- C24 (refuted on the code): the `protobegin` branch only replaces the working
material; the local material list, slot and signature stay.  After a red
triangle in a clump, `protobegin p` leaves the list `[red]` and the slot 0 (the
working material is the default one); the first face of the prototype body then
resolves to slot 1 and the mesh of the prototype, seen through
`protoinstance p`, carries the materials red and default. -/
theorem C24_protobegin_keeps_material_list :
    ((ctxAfter exampleEnv
        "modelbegin\nclumpbegin\nvertex 0 0 0\nvertex 1 0 0\nvertex 0 1 0\ncolor 1 0 0\ntriangle 1 2 3\nprotobegin p").materialManager.currentMaterialList.map
          (fun r => r.source.color) = [[1, 0, 0]]) ∧
      (ctxAfter exampleEnv
        "modelbegin\nclumpbegin\nvertex 0 0 0\nvertex 1 0 0\nvertex 0 1 0\ncolor 1 0 0\ntriangle 1 2 3\nprotobegin p").materialManager.currentMaterialID
          = some 0 ∧
      (ctxAfter exampleEnv
        "modelbegin\nclumpbegin\nvertex 0 0 0\nvertex 1 0 0\nvertex 0 1 0\ncolor 1 0 0\ntriangle 1 2 3\nprotobegin p").materialManager.currentRWXMaterial
          = {} ∧
      (parse exampleEnv 0
          "modelbegin\nclumpbegin\nvertex 0 0 0\nvertex 1 0 0\nvertex 0 1 0\ncolor 1 0 0\ntriangle 1 2 3\nprotobegin p\nvertex 0 0 0\nvertex 1 0 0\nvertex 0 1 0\ntriangle 1 2 3\nprotoend\nprotoinstance p\nclumpend").toOption.map
        (fun p => p.meshes.map (fun m => (m.groups, m.material.map (fun r => r.source.color))))
        = some [([⟨0, 0, none⟩, ⟨0, 3, some 1⟩], [[1, 0, 0], [0, 0, 0]])] := by
  refine ⟨?_, ?_, ?_, ?_⟩ <;> with_unfolding_all decide

/-! ### C25: `transformbegin` ... `transformend` -/

/-- C25 (refuted on the code): at model scope the current transform is the
object that sits on the scope stack, so a `translate` between `transformbegin`
and `transformend` also changes the stack entry, and `transformend` restores
only the current transform: the final transform is the identity before
`transformbegin` and the translation by `(1, 0, 0)` after `transformend`; the
vertex declared next is stored at `(1, 0, 0)`. -/
theorem C25_save_restore_at_model_scope :
    (getFinalTransform (ctxAfter exampleEnv "modelbegin")).toOption
        = some Matrix4.identity ∧
      (getFinalTransform
        (ctxAfter exampleEnv "modelbegin\ntransformbegin\ntranslate 1 0 0\ntransformend")).toOption
        = some (Matrix4.makeTranslation 1 0 0) ∧
      (ctxAfter exampleEnv
        "modelbegin\ntransformbegin\ntranslate 1 0 0\ntransformend\nvertex 0 0 0").currentBufferVertices
        = [some 1, some 0, some 0] := by
  refine ⟨?_, ?_, ?_⟩ <;> with_unfolding_all decide

/-! ### C28: the uv pair of a vertex line -/

/-- C28: for every vertex line that carries `uv u v`, processed in a scope whose
current transform and scope stack entries are defined, the branch succeeds and
appends exactly the pair `(u, 1 - v)` to the uv buffer. -/
theorem C28_uv_v_flipped (env : Env) (ctx : Ctx) (r : Nat) (x y z u v : ℚ)
    (hcur : ctx.currentTransform = some r) (hstack : ∀ t ∈ ctx.transformStack, t ≠ none) :
    ∃ ctx1, exec env ctx (Command.vertex x y z (some (u, v))) = Except.ok ctx1 ∧
      ctx1.currentBufferUVs = ctx.currentBufferUVs ++ [some u, some (1 - v)] := by
  obtain ⟨m, hm⟩ := getFinalTransform_ok ctx r hcur hstack
  exact ⟨_, exec_vertex env ctx m ((x, y, z), some (u, v)) hm, rfl⟩

/-- Instance of C28: the text line `vertex 1 2 3 uv 0.25 0.75` right after
`modelbegin`, `clumpbegin`. -/
theorem C28_uv_v_flipped_witness :
    matchLine "vertex 1 2 3 uv 0.25 0.75".data
        = [Command.vertex 1 2 3 (some (1 / 4, 3 / 4))] ∧
      clumpContext.currentTransform = some 1 ∧
      (∀ t ∈ clumpContext.transformStack, t ≠ none) ∧
      ∃ ctx1, exec exampleEnv clumpContext (Command.vertex 1 2 3 (some (1 / 4, 3 / 4)))
          = Except.ok ctx1 ∧
        ctx1.currentBufferUVs = clumpContext.currentBufferUVs ++ [some (1 / 4), some (1 - 3 / 4)] :=
  ⟨by with_unfolding_all decide, by with_unfolding_all decide, by with_unfolding_all decide,
    C28_uv_v_flipped exampleEnv clumpContext 1 1 2 3 (1 / 4) (3 / 4)
      (by with_unfolding_all decide) (by with_unfolding_all decide)⟩

/-! ### C27: the loop normal -/

/-- A left fold that adds three terms per index is a triple of sums. -/
theorem foldl_triple_sum (a b c : Nat → ℚ) (n : Nat) :
    (List.range n).foldl
        (fun (acc : ℚ × ℚ × ℚ) (i : Nat) => (acc.1 + a i, acc.2.1 + b i, acc.2.2 + c i)) (0, 0, 0)
      = (∑ i in Finset.range n, a i, ∑ i in Finset.range n, b i, ∑ i in Finset.range n, c i) := by
  induction n with
  | zero => rfl
  | succ k ih =>
    rw [List.range_succ, List.foldl_append, ih]
    simp [Finset.sum_range_succ]

/-- Summing over the successors in a closed loop is summing over the loop. -/
theorem sum_cyclic_shift (g : Nat → ℚ) (n : Nat) :
    ∑ i in Finset.range n, g ((i + 1) % n) = ∑ i in Finset.range n, g i := by
  cases n with
  | zero => rfl
  | succ m =>
    rw [Finset.sum_range_succ, Finset.sum_range_succ', Nat.mod_self]
    congr 1
    apply Finset.sum_congr rfl
    intro i hi
    rw [Nat.mod_eq_of_lt (Nat.succ_lt_succ (Finset.mem_range.mp hi))]

/-- The differences between consecutive values around a closed loop sum to 0. -/
theorem sum_cyclic_diff (g : Nat → ℚ) (n : Nat) :
    ∑ i in Finset.range n, (g i - g ((i + 1) % n)) = 0 := by
  rw [Finset.sum_sub_distrib, sum_cyclic_shift]
  ring

/-- Reading a vertex of the translated loop. -/
theorem getD_translateLoop (t : ℚ × ℚ × ℚ) (pts : List (ℚ × ℚ × ℚ)) (i : Nat)
    (h : i < pts.length) :
    (translateLoop t pts).getD i 0
      = ((pts.getD i 0).1 + t.1, (pts.getD i 0).2.1 + t.2.1, (pts.getD i 0).2.2 + t.2.2) := by
  simp [translateLoop, List.getD_eq_getElem?_getD, List.getElem?_map, List.getElem?_eq_getElem h]

/-- C27: for every loop the un-normalised normal accumulated by the
triangulator (Newell's method) equals the sum of the cross products
`v_i × v_(i+1)` over the consecutive vertex pairs of the closed loop, and it does
not change when all the vertices of the loop are moved by the same vector. -/
theorem C27_newell_normal (pts : List (ℚ × ℚ × ℚ)) (t : ℚ × ℚ × ℚ) :
    loopNormal pts = crossSum pts ∧ loopNormal (translateLoop t pts) = loopNormal pts := by
  have hx := sum_cyclic_diff (fun i => (pts.getD i 0).2.1 * (pts.getD i 0).2.2) pts.length
  have hy := sum_cyclic_diff (fun i => (pts.getD i 0).2.2 * (pts.getD i 0).1) pts.length
  have hz := sum_cyclic_diff (fun i => (pts.getD i 0).1 * (pts.getD i 0).2.1) pts.length
  have dx := sum_cyclic_diff (fun i => (pts.getD i 0).1) pts.length
  have dy := sum_cyclic_diff (fun i => (pts.getD i 0).2.1) pts.length
  have dz := sum_cyclic_diff (fun i => (pts.getD i 0).2.2) pts.length
  constructor
  · unfold loopNormal crossSum
    rw [foldl_triple_sum, foldl_triple_sum]
    simp only [cross, Prod.mk.injEq]
    refine ⟨?_, ?_, ?_⟩
    · rw [← sub_eq_zero, ← Finset.sum_sub_distrib, ← hx]
      apply Finset.sum_congr rfl
      intro i _
      ring
    · rw [← sub_eq_zero, ← Finset.sum_sub_distrib, ← hy]
      apply Finset.sum_congr rfl
      intro i _
      ring
    · rw [← sub_eq_zero, ← Finset.sum_sub_distrib, ← hz]
      apply Finset.sum_congr rfl
      intro i _
      ring
  · have hlen : (translateLoop t pts).length = pts.length := by simp [translateLoop]
    unfold loopNormal
    rw [hlen, foldl_triple_sum, foldl_triple_sum]
    have hmod : ∀ i, i ∈ Finset.range pts.length → (i + 1) % pts.length < pts.length := by
      intro i hi
      exact Nat.mod_lt _ (Nat.lt_of_le_of_lt (Nat.zero_le i) (Finset.mem_range.mp hi))
    simp only [Prod.mk.injEq]
    refine ⟨?_, ?_, ?_⟩
    · rw [← sub_eq_zero, ← Finset.sum_sub_distrib]
      have h2 : ∑ i in Finset.range pts.length,
          (2 * t.2.2) * ((pts.getD i 0).2.1 - (pts.getD ((i + 1) % pts.length) 0).2.1) = 0 := by
        rw [← Finset.mul_sum, dy, mul_zero]
      rw [← h2]
      apply Finset.sum_congr rfl
      intro i hi
      rw [getD_translateLoop t pts i (Finset.mem_range.mp hi),
        getD_translateLoop t pts _ (hmod i hi)]
      ring
    · rw [← sub_eq_zero, ← Finset.sum_sub_distrib]
      have h2 : ∑ i in Finset.range pts.length,
          (2 * t.1) * ((pts.getD i 0).2.2 - (pts.getD ((i + 1) % pts.length) 0).2.2) = 0 := by
        rw [← Finset.mul_sum, dz, mul_zero]
      rw [← h2]
      apply Finset.sum_congr rfl
      intro i hi
      rw [getD_translateLoop t pts i (Finset.mem_range.mp hi),
        getD_translateLoop t pts _ (hmod i hi)]
      ring
    · rw [← sub_eq_zero, ← Finset.sum_sub_distrib]
      have h2 : ∑ i in Finset.range pts.length,
          (2 * t.2.1) * ((pts.getD i 0).1 - (pts.getD ((i + 1) % pts.length) 0).1) = 0 := by
        rw [← Finset.mul_sum, dx, mul_zero]
      rw [← h2]
      apply Finset.sum_congr rfl
      intro i hi
      rw [getD_translateLoop t pts i (Finset.mem_range.mp hi),
        getD_translateLoop t pts _ (hmod i hi)]
      ring

/-- An evaluation of the loop normal: the unit square in the plane `z = 0`,
counter-clockwise, has the normal `(0, 0, 2)` (twice its area along `z`). -/
theorem loopNormal_unit_square :
    loopNormal [(0, 0, 0), (1, 0, 0), (1, 1, 0), (0, 1, 0)] = (0, 0, 2) := by
  with_unfolding_all decide

/-! ### C23: the local slot and the local material list -/

/-- A signature is never the empty string: it ends in `true` or `false`. -/
theorem getMatSignature_ne_empty (m : RWXMaterial) : m.getMatSignature ≠ "" := by
  intro h
  have hlen := congrArg String.length h
  unfold RWXMaterial.getMatSignature at hlen
  cases hc : m.collision <;> cases ht : m.texture <;> cases hk : m.mask <;>
    simp [hc, ht, hk, String.length_append] at hlen <;>
    exact absurd hlen.2 (by decide)

/-- The manager after a call of `getCurrentMaterialID`, by cases. -/
theorem getCurrentMaterialID_eq (m : RWXMaterialManager) :
    m.getCurrentMaterialID =
      (match lookupMaterial m.threeMaterialMap m.currentRWXMaterial.getMatSignature with
        | none =>
          if m.currentMaterialSignature != m.currentRWXMaterial.getMatSignature then
            ((match m.currentMaterialID with | none => some 0 | some k => some (k + 1)),
              { m with
                threeMaterialMap := m.threeMaterialMap ++ [(m.currentRWXMaterial.getMatSignature,
                  makeThreeMaterial m.threeMaterialMap.length m.currentRWXMaterial)]
                currentMaterialSignature := m.currentRWXMaterial.getMatSignature
                currentMaterialID :=
                  (match m.currentMaterialID with | none => some 0 | some k => some (k + 1))
                currentMaterialList := m.currentMaterialList ++
                  [makeThreeMaterial m.threeMaterialMap.length m.currentRWXMaterial] })
          else
            (m.currentMaterialID,
              { m with
                threeMaterialMap := m.threeMaterialMap ++ [(m.currentRWXMaterial.getMatSignature,
                  makeThreeMaterial m.threeMaterialMap.length m.currentRWXMaterial)] })
        | some r =>
          if m.currentMaterialSignature != m.currentRWXMaterial.getMatSignature then
            ((match m.currentMaterialID with | none => some 0 | some k => some (k + 1)),
              { m with
                currentMaterialSignature := m.currentRWXMaterial.getMatSignature
                currentMaterialID :=
                  (match m.currentMaterialID with | none => some 0 | some k => some (k + 1))
                currentMaterialList := m.currentMaterialList ++ [r] })
          else (m.currentMaterialID, m)) := by
  unfold RWXMaterialManager.getCurrentMaterialID
  cases h : lookupMaterial m.threeMaterialMap m.currentRWXMaterial.getMatSignature <;>
    simp only [h] <;> split <;> rfl

/-- Looking up a key that was just appended behind a map without it. -/
theorem lookupMaterial_append_new (map : List (String × ThreeMaterial)) (key : String)
    (v : ThreeMaterial) (h : lookupMaterial map key = none) :
    lookupMaterial (map ++ [(key, v)]) key = some v := by
  unfold lookupMaterial at h ⊢
  rw [List.find?_append]
  cases hf : List.find? (fun p => p.1 == key) map with
  | some p => rw [hf] at h; cases h
  | none => simp

/-- C23: in every manager state whose slot and list are in step (the initial
state is, and changes of the working material, resets and resolutions keep it
so), a call of `getCurrentMaterialID` returns the slot `length - 1` of the local
list after the call and keeps them in step; when the signature of the working
material equals the last-resolved signature it returns the same slot and leaves
the list unchanged; when it differs it appends exactly the resource registered
for the signature and returns the previous slot plus 1 (0 when there was
none). -/
theorem C23_slot_in_step_with_list (m : RWXMaterialManager) (h : Synced m) :
    Synced m.getCurrentMaterialID.2 ∧
      m.getCurrentMaterialID.1 = m.getCurrentMaterialID.2.currentMaterialID ∧
      (∃ k, m.getCurrentMaterialID.1 = some k ∧
        m.getCurrentMaterialID.2.currentMaterialList.length = k + 1) ∧
      (m.currentRWXMaterial.getMatSignature = m.currentMaterialSignature →
        m.getCurrentMaterialID.1 = m.currentMaterialID ∧
        m.getCurrentMaterialID.2.currentMaterialList = m.currentMaterialList) ∧
      (m.currentRWXMaterial.getMatSignature ≠ m.currentMaterialSignature →
        ∃ res, lookupMaterial m.getCurrentMaterialID.2.threeMaterialMap
            m.currentRWXMaterial.getMatSignature = some res ∧
          m.getCurrentMaterialID.2.currentMaterialList = m.currentMaterialList ++ [res] ∧
          m.getCurrentMaterialID.1 =
            some (match m.currentMaterialID with | none => 0 | some k => k + 1)) := by
  have hne := getMatSignature_ne_empty m.currentRWXMaterial
  rw [getCurrentMaterialID_eq]
  by_cases hs : m.currentMaterialSignature = m.currentRWXMaterial.getMatSignature
  · -- same signature as the last resolution: the slot exists already
    have hsome : ∃ k, m.currentMaterialID = some k ∧ m.currentMaterialList.length = k + 1 := by
      unfold Synced at h
      cases hid : m.currentMaterialID with
      | none =>
        rw [hid] at h
        exact absurd (hs.symm.trans h.2) hne
      | some k =>
        rw [hid] at h
        exact ⟨k, rfl, h⟩
    obtain ⟨k, hk, hlen⟩ := hsome
    cases hl : lookupMaterial m.threeMaterialMap m.currentRWXMaterial.getMatSignature with
    | none =>
      simp only [hs, bne_self_eq_false, Bool.false_eq_true, if_false]
      refine ⟨?_, trivial, ⟨k, hk, hlen⟩, fun _ => ⟨trivial, trivial⟩, fun hn => absurd rfl hn⟩
      unfold Synced
      simp only [hk]
      exact hlen
    | some r =>
      simp only [hs, bne_self_eq_false, Bool.false_eq_true, if_false]
      refine ⟨?_, trivial, ⟨k, hk, hlen⟩, fun _ => ⟨trivial, trivial⟩, fun hn => absurd rfl hn⟩
      unfold Synced
      simp only [hk]
      exact hlen
  · have hb : (m.currentMaterialSignature != m.currentRWXMaterial.getMatSignature) = true := by
      simp [bne_iff_ne, hs]
    have hstep : ∀ res : ThreeMaterial,
        ((match m.currentMaterialID with | none => some 0 | some k => some (k + 1)) : Option Nat)
            = some (match m.currentMaterialID with | none => 0 | some k => k + 1) ∧
          (m.currentMaterialList ++ [res]).length
            = (match m.currentMaterialID with | none => 0 | some k => k + 1) + 1 := by
      intro res
      unfold Synced at h
      cases hid : m.currentMaterialID with
      | none =>
        rw [hid] at h
        simp [h.1]
      | some k =>
        rw [hid] at h
        simp [h]
    cases hl : lookupMaterial m.threeMaterialMap m.currentRWXMaterial.getMatSignature with
    | none =>
      simp only [hb, if_true]
      obtain ⟨h1, h2⟩ := hstep (makeThreeMaterial m.threeMaterialMap.length m.currentRWXMaterial)
      refine ⟨?_, trivial, ⟨_, h1, h2⟩, fun he => absurd he.symm hs, fun _ => ⟨_, ?_, rfl, h1⟩⟩
      · unfold Synced
        simp only [h1]
        exact h2
      · exact lookupMaterial_append_new _ _ _ hl
    | some r =>
      simp only [hb, if_true]
      obtain ⟨h1, h2⟩ := hstep r
      refine ⟨?_, trivial, ⟨_, h1, h2⟩, fun he => absurd he.symm hs, fun _ => ⟨r, hl, rfl, h1⟩⟩
      unfold Synced
      simp only [h1]
      exact h2

/-- The initial manager is in step, and changing the working material or
resetting the list keeps a manager in step. -/
theorem synced_initial_change_reset (m : RWXMaterialManager) (x : RWXMaterial) :
    Synced {} ∧ (Synced m → Synced { m with currentRWXMaterial := x }) ∧
      Synced m.resetCurrentMaterialList :=
  ⟨⟨rfl, rfl⟩, fun h => h, ⟨rfl, rfl⟩⟩

/-- Instance of C23: the first resolution of a parse (empty list, red working
material). -/
theorem C23_slot_in_step_with_list_witness :
    Synced redManager ∧
      (Synced redManager.getCurrentMaterialID.2 ∧
        redManager.getCurrentMaterialID.1 = redManager.getCurrentMaterialID.2.currentMaterialID ∧
        (∃ k, redManager.getCurrentMaterialID.1 = some k ∧
          redManager.getCurrentMaterialID.2.currentMaterialList.length = k + 1) ∧
        (redManager.currentRWXMaterial.getMatSignature = redManager.currentMaterialSignature →
          redManager.getCurrentMaterialID.1 = redManager.currentMaterialID ∧
          redManager.getCurrentMaterialID.2.currentMaterialList = redManager.currentMaterialList) ∧
        (redManager.currentRWXMaterial.getMatSignature ≠ redManager.currentMaterialSignature →
          ∃ res, lookupMaterial redManager.getCurrentMaterialID.2.threeMaterialMap
              redManager.currentRWXMaterial.getMatSignature = some res ∧
            redManager.getCurrentMaterialID.2.currentMaterialList
              = redManager.currentMaterialList ++ [res] ∧
            redManager.getCurrentMaterialID.1 =
              some (match redManager.currentMaterialID with | none => 0 | some k => k + 1))) :=
  ⟨⟨rfl, rfl⟩, C23_slot_in_step_with_list redManager ⟨rfl, rfl⟩⟩

/-! ### C11: one resource per signature -/

/-- A key absent from the map is absent from its keys, and conversely. -/
theorem lookupMaterial_eq_none_iff (map : List (String × ThreeMaterial)) (key : String) :
    lookupMaterial map key = none ↔ key ∉ map.map Prod.fst := by
  unfold lookupMaterial
  induction map with
  | nil => simp
  | cons p rest ih =>
    by_cases hp : p.1 = key
    · simp [List.find?_cons, hp]
    · have hp2 : (p.1 == key) = false := by simp [hp]
      simp only [List.find?_cons, hp2, List.map_cons, List.mem_cons, not_or]
      constructor
      · intro h
        exact ⟨fun hk => hp hk.symm, ih.mp h⟩
      · intro h
        exact ih.mpr h.2

/-- An entry found in a map is still found after the map grew at its end. -/
theorem lookupMaterial_append_old (map more : List (String × ThreeMaterial)) (key : String)
    (r : ThreeMaterial) (h : lookupMaterial map key = some r) :
    lookupMaterial (map ++ more) key = some r := by
  unfold lookupMaterial at h ⊢
  rw [List.find?_append]
  cases hf : List.find? (fun p => p.1 == key) map with
  | none => rw [hf] at h; cases h
  | some p => rw [hf] at h; simpa using h

/-- The map of the manager after a resolution. -/
theorem getCurrentMaterialID_map (m : RWXMaterialManager) :
    m.getCurrentMaterialID.2.threeMaterialMap =
      (match lookupMaterial m.threeMaterialMap m.currentRWXMaterial.getMatSignature with
        | none => m.threeMaterialMap ++ [(m.currentRWXMaterial.getMatSignature,
            makeThreeMaterial m.threeMaterialMap.length m.currentRWXMaterial)]
        | some _ => m.threeMaterialMap) := by
  rw [getCurrentMaterialID_eq]
  cases h : lookupMaterial m.threeMaterialMap m.currentRWXMaterial.getMatSignature <;>
    simp only [h] <;> split <;> rfl

/-- The invariant of a run of the manager. -/
theorem runManager_invariant (ops : List ManagerOp) :
    ∀ m : RWXMaterialManager, (m.threeMaterialMap.map Prod.fst).Nodup →
      ((runManager m ops).1.threeMaterialMap.map Prod.fst).Nodup ∧
      (∀ s r, lookupMaterial m.threeMaterialMap s = some r →
        lookupMaterial (runManager m ops).1.threeMaterialMap s = some r) ∧
      (∀ e ∈ (runManager m ops).2,
        e.resource = lookupMaterial (runManager m ops).1.threeMaterialMap e.signature ∧
        e.resource ≠ none) ∧
      (((runManager m ops).2.filter (fun e => e.created)).length + m.threeMaterialMap.length
        = (runManager m ops).1.threeMaterialMap.length) ∧
      (∀ s, s ∈ (runManager m ops).1.threeMaterialMap.map Prod.fst ↔
        (s ∈ m.threeMaterialMap.map Prod.fst ∨
          s ∈ (runManager m ops).2.map (fun e => e.signature))) := by
  induction ops with
  | nil =>
    intro m hm
    refine ⟨hm, fun _ _ h => h, ?_, ?_, ?_⟩
    · intro e he
      cases he
    · simp [runManager]
    · intro s
      simp [runManager]
  | cons op rest ih =>
    intro m hm
    cases op with
    | change x => exact ih { m with currentRWXMaterial := x } hm
    | reset => exact ih m.resetCurrentMaterialList hm
    | resolve =>
      have hmap := getCurrentMaterialID_map m
      cases hl : lookupMaterial m.threeMaterialMap m.currentRWXMaterial.getMatSignature with
      | some r =>
        rw [hl] at hmap
        simp only at hmap
        have hm2 : (m.getCurrentMaterialID.2.threeMaterialMap.map Prod.fst).Nodup := by
          rw [hmap]; exact hm
        obtain ⟨h1, h2, h3, h4, h5⟩ := ih m.getCurrentMaterialID.2 hm2
        rw [hmap] at h2 h4 h5
        refine ⟨h1, h2, ?_, ?_, ?_⟩
        · intro e he
          simp only [runManager, List.mem_cons] at he
          rcases he with rfl | he
          · simp only [runManager, hmap, hl]
            exact ⟨(h2 _ r hl).symm, by simp⟩
          · exact h3 e he
        · simp only [runManager, hl, Option.isNone_some, List.filter_cons, Bool.false_eq_true,
            if_false]
          exact h4
        · intro s
          simp only [runManager, List.map_cons, List.mem_cons]
          rw [h5 s]
          constructor
          · rintro (h | h)
            · exact Or.inl h
            · exact Or.inr (Or.inr h)
          · rintro (h | h | h)
            · exact Or.inl h
            · subst h
              exact Or.inl (by
                by_contra hc
                rw [(lookupMaterial_eq_none_iff _ _).mpr hc] at hl
                cases hl)
            · exact Or.inr h
      | none =>
        rw [hl] at hmap
        simp only at hmap
        have hnot := (lookupMaterial_eq_none_iff _ _).mp hl
        have hm2 : (m.getCurrentMaterialID.2.threeMaterialMap.map Prod.fst).Nodup := by
          rw [hmap, List.map_append, List.nodup_append]
          refine ⟨hm, by simp, ?_⟩
          intro a ha hb
          simp only [List.map_cons, List.map_nil, List.mem_singleton] at hb
          subst hb
          exact hnot ha
        obtain ⟨h1, h2, h3, h4, h5⟩ := ih m.getCurrentMaterialID.2 hm2
        rw [hmap] at h2 h4 h5
        refine ⟨h1, ?_, ?_, ?_, ?_⟩
        · intro s r hs
          exact h2 s r (lookupMaterial_append_old _ _ _ _ hs)
        · intro e he
          simp only [runManager, List.mem_cons] at he
          rcases he with rfl | he
          · simp only [runManager, hmap]
            rw [lookupMaterial_append_new _ _ _ hl]
            exact ⟨(h2 _ _ (lookupMaterial_append_new _ _ _ hl)).symm, by simp⟩
          · exact h3 e he
        · simp only [runManager, hl, Option.isNone_none, List.filter_cons, if_true,
            List.length_cons]
          simp only [List.length_append, List.length_cons, List.length_nil] at h4
          omega
        · intro s
          simp only [runManager, List.map_cons, List.mem_cons]
          rw [h5 s]
          simp only [List.map_append, List.map_cons, List.map_nil, List.mem_append,
            List.mem_singleton]
          constructor
          · rintro ((h | h) | h)
            · exact Or.inl h
            · exact Or.inr (Or.inl h)
            · exact Or.inr (Or.inr h)
          · rintro (h | h | h)
            · exact Or.inl (Or.inl h)
            · exact Or.inl (Or.inr h)
            · exact Or.inr h

/-- C11: during one parse (the manager starts empty) and for every sequence of
material changes, resolutions and list resets, the number of resolutions that
made a resource equals the number of distinct signatures resolved and the number
of entries of the signature map; and any two resolutions under the same
signature yield the very same resource (same identity), whatever resets lie
between them. -/
theorem C11_resource_made_once_per_signature (ops : List ManagerOp) :
    ((runManager {} ops).2.filter (fun e => e.created)).length
        = ((runManager {} ops).2.map (fun e => e.signature)).toFinset.card ∧
      ((runManager {} ops).2.filter (fun e => e.created)).length
        = (runManager {} ops).1.threeMaterialMap.length ∧
      (∀ a ∈ (runManager {} ops).2, ∀ b ∈ (runManager {} ops).2,
        a.signature = b.signature → a.resource = b.resource ∧ a.resource ≠ none) := by
  obtain ⟨h1, -, h3, h4, h5⟩ := runManager_invariant ops {} (by simp)
  have hkeys : ((runManager {} ops).1.threeMaterialMap.map Prod.fst).toFinset
      = ((runManager {} ops).2.map (fun e => e.signature)).toFinset := by
    ext s
    simp only [List.mem_toFinset]
    rw [h5 s]
    simp
  have hlen : ((runManager {} ops).2.filter (fun e => e.created)).length
      = (runManager {} ops).1.threeMaterialMap.length := by
    simpa using h4
  refine ⟨?_, hlen, ?_⟩
  · rw [hlen, ← hkeys, List.toFinset_card_of_nodup h1, List.length_map]
  · intro a ha b hb hab
    refine ⟨?_, (h3 a ha).2⟩
    rw [(h3 a ha).1, (h3 b hb).1, hab]

/-- An evaluation of C11: red, reset, red, green, red resolve to two resources;
the three red resolutions yield the resource with identity 0. -/
theorem runManager_example :
    (runManager {}
        [ManagerOp.change { color := [1, 0, 0] }, ManagerOp.resolve, ManagerOp.reset,
          ManagerOp.change { color := [1, 0, 0] }, ManagerOp.resolve,
          ManagerOp.change { color := [0, 1, 0] }, ManagerOp.resolve,
          ManagerOp.change { color := [1, 0, 0] }, ManagerOp.resolve]).2.map
      (fun e => (e.resource.map (fun r => r.id), e.created))
      = [(some 0, true), (some 0, false), (some 1, true), (some 0, false)] := by
  with_unfolding_all decide

/-! ### The commands of a body, class by class -/

theorem Frame.refl (a : Ctx) : Frame a a :=
  ⟨rfl, rfl, rfl, rfl, rfl, rfl, rfl, rfl, fun _ _ => rfl, rfl, fun _ _ => rfl, fun h => h⟩

theorem Frame.trans {a b c : Ctx} (h1 : Frame a b) (h2 : Frame b c) : Frame a c :=
  ⟨h2.cur.trans h1.cur, h2.stack.trans h1.stack, h2.saves.trans h1.saves,
    h2.groupStack.trans h1.groupStack, h2.group.trans h1.group,
    h2.savedGroup.trans h1.savedGroup, h2.savedTransform.trans h1.savedTransform,
    h2.matsLength.trans h1.matsLength,
    fun q hq => (h2.mats q (by rw [h1.cur]; exact hq)).trans (h1.mats q hq),
    h2.groupsLength.trans h1.groupsLength,
    fun i hi => (h2.groups i (by rw [h1.group]; exact hi)).trans (h1.groups i hi),
    fun h => h2.geometry (h1.geometry h)⟩

theorem Ready.of_frame {a b : Ctx} (h : Ready a) (hf : Frame a b) : Ready b :=
  ⟨by rw [hf.cur]; exact h.cur, by rw [hf.stack]; exact h.stack, hf.geometry h.geometry,
    by rw [hf.group]; exact h.group⟩

/-- A material command only replaces the working material. -/
theorem exec_material (env : Env) (ctx : Ctx) (cmd : Command) (h : cmd.isMaterial = true) :
    ∃ f, exec env ctx cmd = Except.ok (ctx.setMaterial f) := by
  cases cmd <;> simp only [Command.isMaterial, Bool.false_eq_true] at h
  case texture name mask =>
    exact ⟨fun m => { ({ m with texture := if toLowerCase name = "null" then none else some name } :
      RWXMaterial) with mask := mask }, rfl⟩
  case color cprops =>
    by_cases hl : cprops.length = 3
    · exact ⟨fun m => { m with color := cprops }, by simp only [exec, hl, if_true]; rfl⟩
    · exact ⟨fun m => m, by simp only [exec, hl, if_false]; rfl⟩
  case opacity v => exact ⟨_, rfl⟩
  case surface s => exact ⟨_, rfl⟩
  case ambient v => exact ⟨_, rfl⟩
  case diffuse v => exact ⟨_, rfl⟩
  case specular v => exact ⟨_, rfl⟩
  case materialmode mode =>
    simp only [exec]
    split
    · exact ⟨_, rfl⟩
    · split
      · exact ⟨_, rfl⟩
      · split
        · exact ⟨_, rfl⟩
        · exact ⟨fun m => m, rfl⟩
  case collision value =>
    simp only [exec]
    split
    · exact ⟨_, rfl⟩
    · split
      · exact ⟨_, rfl⟩
      · exact ⟨fun m => m, rfl⟩
  case lightsampling value =>
    simp only [exec]
    split
    · exact ⟨_, rfl⟩
    · exact ⟨_, rfl⟩
  case geometrysampling value =>
    simp only [exec]
    split
    · exact ⟨_, rfl⟩
    · split
      · exact ⟨_, rfl⟩
      · exact ⟨_, rfl⟩

/-- Overwriting the same matrix object twice keeps the second value. -/
theorem setMat_setMat (ctx : Ctx) (r : Nat) (a b : Matrix4) :
    (ctx.setMat r a).setMat r b = ctx.setMat r b := by
  simp [Ctx.setMat, List.set_set]

/-- Multiplying the current transform overwrites the matrix object behind it. -/
theorem multiplyCurrent_eq (ctx : Ctx) (r : Nat) (m : Matrix4) (h : ctx.currentTransform = some r) :
    multiplyCurrent ctx m = Except.ok (ctx.setMat r ((ctx.mat r).multiply m)) := by
  simp only [multiplyCurrent, h]
  rfl

/-- A transform command leaves the context alone or overwrites the matrix object
behind the current transform. -/
theorem exec_transform (env : Env) (ctx : Ctx) (cmd : Command) (r : Nat)
    (h : cmd.isTransform = true) (hcur : ctx.currentTransform = some r) :
    exec env ctx cmd = Except.ok ctx ∨ ∃ m, exec env ctx cmd = Except.ok (ctx.setMat r m) := by
  cases cmd <;> simp only [Command.isTransform, Bool.false_eq_true] at h
  case identity => exact Or.inr ⟨_, by simp only [exec, hcur]; rfl⟩
  case transform tprops =>
    by_cases hl : tprops.length = 16
    · exact Or.inr ⟨_, by simp only [exec, hl, if_true, hcur]; rfl⟩
    · exact Or.inl (by simp only [exec, hl, if_false]; rfl)
  case translate tprops =>
    by_cases hl : tprops.length = 3
    · exact Or.inr ⟨_, by simp only [exec, hl, if_true]; exact multiplyCurrent_eq ctx r _ hcur⟩
    · exact Or.inl (by simp only [exec, hl, if_false]; rfl)
  case scale sprops =>
    by_cases hl : sprops.length = 3
    · exact Or.inr ⟨_, by simp only [exec, hl, if_true]; exact multiplyCurrent_eq ctx r _ hcur⟩
    · exact Or.inl (by simp only [exec, hl, if_false]; rfl)
  case rotate rprops =>
    by_cases hl : rprops.length = 4
    · have mc1 : ∀ m, multiplyCurrent ctx m = Except.ok (ctx.setMat r ((ctx.mat r).multiply m)) :=
        fun m => multiplyCurrent_eq ctx r m hcur
      have mc2 : ∀ k m, multiplyCurrent (ctx.setMat r k) m
          = Except.ok (ctx.setMat r (((ctx.setMat r k).mat r).multiply m)) := by
        intro k m
        rw [multiplyCurrent_eq (ctx.setMat r k) r m hcur, setMat_setMat]
      by_cases h0 : rprops.getD 0 0 = 0 <;> by_cases h1 : rprops.getD 1 0 = 0 <;>
        by_cases h2 : rprops.getD 2 0 = 0 <;>
        simp only [exec, hl, if_true, h0, h1, h2, ne_eq, not_true_eq_false, not_false_eq_true,
          if_false, bind, Except.bind, pure_eq_ok, mc1, mc2] <;>
        first
          | exact Or.inl trivial
          | exact Or.inl rfl
          | exact Or.inr ⟨_, rfl⟩
    · exact Or.inl (by simp only [exec, hl, if_false]; rfl)

theorem frame_setMaterial (ctx : Ctx) (f : RWXMaterial → RWXMaterial) :
    Frame ctx (ctx.setMaterial f) :=
  ⟨rfl, rfl, rfl, rfl, rfl, rfl, rfl, rfl, fun _ _ => rfl, rfl, fun _ _ => rfl, fun h => h⟩

theorem frame_setMat (ctx : Ctx) (r : Nat) (m : Matrix4) (h : ctx.currentTransform = some r) :
    Frame ctx (ctx.setMat r m) :=
  ⟨rfl, rfl, rfl, rfl, rfl, rfl, rfl, by simp [Ctx.setMat],
    fun q hq => mat_setMat_ne ctx r q m (fun e => hq (by rw [h, e])), rfl, fun _ _ => rfl,
    fun h => h⟩

/-- The length of a list does not change under `modifyAt`. -/
theorem length_modifyAt {α : Type} (f : α → α) (i : Nat) (l : List α) :
    (modifyAt f i l).length = l.length := by
  induction l generalizing i with
  | nil => cases i <;> rfl
  | cons x xs ih =>
    cases i with
    | zero => rfl
    | succ k => simp [modifyAt, ih]

/-- Reading a list after `modifyAt`, at another position. -/
theorem get?_modifyAt_ne {α : Type} (f : α → α) (i j : Nat) (l : List α) (h : j ≠ i) :
    (modifyAt f i l).get? j = l.get? j := by
  induction l generalizing i j with
  | nil => cases i <;> rfl
  | cons x xs ih =>
    cases i with
    | zero =>
      cases j with
      | zero => exact absurd rfl h
      | succ k => rfl
    | succ n =>
      cases j with
      | zero => rfl
      | succ k =>
        simp only [modifyAt, List.get?_cons_succ]
        exact ih n k (fun e => h (by rw [e]))

/-- Reading a list after `modifyAt`, at the modified position. -/
theorem get?_modifyAt_self {α : Type} (f : α → α) (i : Nat) (l : List α) :
    (modifyAt f i l).get? i = (l.get? i).map f := by
  induction l generalizing i with
  | nil => cases i <;> rfl
  | cons x xs ih =>
    cases i with
    | zero => rfl
    | succ n =>
      simp only [modifyAt, List.get?_cons_succ]
      exact ih n

theorem frame_addChild (ctx : Ctx) (g : Nat) (c : Child) (h : ctx.currentGroup = some g) :
    Frame ctx (ctx.addChild g c) :=
  ⟨rfl, rfl, rfl, rfl, rfl, rfl, rfl, rfl, fun _ _ => rfl,
    by simp [Ctx.addChild, length_modifyAt],
    fun i hi => get?_modifyAt_ne _ g i ctx.groups (fun e => hi (by rw [h, e])),
    fun h => h⟩

/-- The material check keeps the frame, the buffers and the group objects, and
keeps the batch bookkeeping consistent. -/
theorem checkMaterial_frame (ctx : Ctx) (hg : ctx.currentBufferGeometry ≠ none) :
    ∃ c, checkMaterial ctx = Except.ok c ∧ Frame ctx c ∧
      c.currentBufferFaces = ctx.currentBufferFaces ∧
      c.currentBufferVertices = ctx.currentBufferVertices ∧
      c.currentBufferUVs = ctx.currentBufferUVs ∧
      c.groups = ctx.groups ∧
      c.currentBufferGeometry ≠ none ∧
      (Tiled ctx → Tiled c) := by
  cases hgeo : ctx.currentBufferGeometry with
  | none => exact absurd hgeo hg
  | some gs =>
    rw [checkMaterial_eq]
    by_cases hid : ctx.materialManager.getCurrentMaterialID.1 = ctx.previousMaterialID
    · rw [if_neg (not_not.mpr hid)]
      refine ⟨_, rfl, ⟨rfl, rfl, rfl, rfl, rfl, rfl, rfl, rfl, fun _ _ => rfl, rfl, fun _ _ => rfl, fun h => h⟩,
        rfl, rfl, rfl, rfl, ?_, fun h => h⟩
      show ctx.currentBufferGeometry ≠ none
      exact hg
    · rw [if_pos hid,
        commit_ok { ctx with materialManager := ctx.materialManager.getCurrentMaterialID.2 } gs hgeo]
      refine ⟨_, rfl, ⟨rfl, rfl, rfl, rfl, rfl, rfl, rfl, rfl, fun _ _ => rfl, rfl,
        fun _ _ => rfl, fun _ => by simp⟩, rfl, rfl, rfl, rfl, by simp, ?_⟩
      rintro ⟨gs2, hgs2, ht, hsum⟩
      rw [hgeo] at hgs2
      cases hgs2
      refine ⟨_, rfl, ?_, ?_⟩
      · show tiles 0 (gs ++ [_]) (ctx.currentBufferGroupFirstFaceID + ctx.currentBufferFaceCount * 3)
        have happ : ∀ (l : List GeomGroup) (s e : Nat) (g : GeomGroup), tiles s l e →
            g.start = e → g.count % 3 = 0 → tiles s (l ++ [g]) (e + g.count) := by
          intro l
          induction l with
          | nil =>
            intro s e g hl h1 h2
            simp only [tiles] at hl
            subst hl
            exact ⟨h1, h2, rfl⟩
          | cons x xs ih =>
            intro s e g hl h1 h2
            exact ⟨hl.1, hl.2.1, ih _ _ _ hl.2.2 h1 h2⟩
        exact happ gs 0 _ _ ht rfl (Nat.mul_mod_left _ _)
      · show ctx.currentBufferGroupFirstFaceID + ctx.currentBufferFaceCount * 3 + 0 * 3
          = ctx.currentBufferFaces.length
        omega

/-- The batch bookkeeping only reads four fields of the context. -/
theorem Tiled.congr {a b : Ctx} (h : Tiled a)
    (h1 : b.currentBufferGeometry = a.currentBufferGeometry)
    (h2 : b.currentBufferGroupFirstFaceID = a.currentBufferGroupFirstFaceID)
    (h3 : b.currentBufferFaceCount = a.currentBufferFaceCount)
    (h4 : b.currentBufferFaces = a.currentBufferFaces) : Tiled b := by
  obtain ⟨gs, hg, ht, hs⟩ := h
  exact ⟨gs, by rw [h1, hg], by rw [h2]; exact ht, by rw [h2, h3, h4]; exact hs⟩

/-- Adding `n` faces with `3 n` indices keeps the batch bookkeeping. -/
theorem Tiled.addFaces {a : Ctx} (h : Tiled a) (faces : List Int) (n : Nat)
    (hn : faces.length = n * 3) :
    Tiled { a with
      currentBufferFaceCount := a.currentBufferFaceCount + n
      currentBufferFaces := a.currentBufferFaces ++ faces } := by
  obtain ⟨gs, hg, ht, hs⟩ := h
  refine ⟨gs, hg, ht, ?_⟩
  show a.currentBufferGroupFirstFaceID + (a.currentBufferFaceCount + n) * 3
    = (a.currentBufferFaces ++ faces).length
  rw [List.length_append, hn]
  omega

/-- The length of the index loop of a polygon is the declared length. -/
theorem polyIDs_length (n : Nat) (ids : List Nat) : (polyIDs n ids).length = n := by
  unfold polyIDs
  rw [foldl_cons_range]
  simp

/-- The triangulator returns for every loop that is not empty. -/
theorem triangulate_ok (env : Env) (vertices uvs : List (Option ℚ))
    (loop : List (Option Int)) (hl : loop ≠ []) :
    ∃ r, triangulateFacesWithShapes env vertices uvs loop = Except.ok r := by
  unfold triangulateFacesWithShapes
  rw [if_neg hl]
  exact ⟨_, rfl⟩

/-- The triangulator throws on the empty loop. -/
theorem triangulate_empty (env : Env) (vertices uvs : List (Option ℚ)) :
    triangulateFacesWithShapes env vertices uvs [] = Except.error Err.typeError := rfl

/-- The faces returned by the triangulator come three indices at a time. -/
theorem triangulate_faces_length (env : Env) (vertices uvs : List (Option ℚ))
    (loop : List (Option Int)) (r : List (Option ℚ) × List (Option ℚ) × List Int)
    (hr : triangulateFacesWithShapes env vertices uvs loop = Except.ok r) :
    r.2.2.length = (r.2.2.length / 3) * 3 := by
  have h : ∀ (l : List (Nat × Nat × Nat)) (off : Int),
      (l.flatMap (fun t => [(t.1 : Int) + off, (t.2.1 : Int) + off, (t.2.2 : Int) + off])).length
        = l.length * 3 := by
    intro l off
    induction l with
    | nil => rfl
    | cons t ts ih =>
      simp only [List.flatMap_cons, List.length_append, List.length_cons, List.length_nil, ih]
      omega
  unfold triangulateFacesWithShapes at hr
  by_cases hl : loop = []
  · rw [if_pos hl] at hr
    cases hr
  · rw [if_neg hl] at hr
    cases hr
    show (List.flatMap _ _).length = _
    rw [h]
    simp

/-- A face command succeeds in a ready context, keeps the frame and keeps the
batch bookkeeping consistent. -/
theorem exec_face (env : Env) (ctx : Ctx) (cmd : Command) (h : cmd.isFace = true)
    (hr : Ready ctx) :
    ∃ c, exec env ctx cmd = Except.ok c ∧ Frame ctx c ∧ (Tiled ctx → Tiled c) := by
  obtain ⟨c1, hc1, hf1, -, -, -, -, -, ht1⟩ := checkMaterial_frame ctx hr.geometry
  cases cmd <;> simp only [Command.isFace, Bool.false_eq_true] at h
  case triangle i j k =>
    refine ⟨_, by simp only [exec, addTriangle, hc1]; rfl, hf1.trans ?_, fun ht => ?_⟩
    · exact ⟨rfl, rfl, rfl, rfl, rfl, rfl, rfl, rfl, fun _ _ => rfl, rfl, fun _ _ => rfl, fun h => h⟩
    · exact (ht1 ht).addFaces _ 1 rfl
  case quad i j k l =>
    by_cases hw : c1.materialManager.currentRWXMaterial.geometrysampling = 2
    · cases hgrp : c1.currentGroup with
      | none => exact absurd (hf1.group ▸ hgrp) hr.group
      | some g =>
        refine ⟨_, by simp only [exec, addQuad, hc1, bind, Except.bind, hw, if_true, hgrp]; rfl,
          hf1.trans (frame_addChild c1 g _ hgrp), fun ht => ?_⟩
        exact (ht1 ht).congr rfl rfl rfl rfl
    · refine ⟨_, by simp only [exec, addQuad, hc1, bind, Except.bind, hw, if_false]; rfl,
        hf1.trans ?_, fun ht => ?_⟩
      · exact ⟨rfl, rfl, rfl, rfl, rfl, rfl, rfl, rfl, fun _ _ => rfl, rfl, fun _ _ => rfl, fun h => h⟩
      · have := (ht1 ht).addFaces
          [(i : Int) - 1, (j : Int) - 1, (k : Int) - 1, (i : Int) - 1, (k : Int) - 1, (l : Int) - 1]
          2 rfl
        simpa using this
  case polygon n ids =>
    have hn : 0 < n := of_decide_eq_true h
    have hloop : polyIDs n ids ≠ [] := by
      intro he
      have hlen := polyIDs_length n ids
      rw [he] at hlen
      exact Nat.lt_irrefl 0 (by rw [← hlen] at hn; exact hn)
    obtain ⟨r, hr3⟩ := triangulate_ok env c1.currentBufferVertices c1.currentBufferUVs
      (polyIDs n ids) hloop
    have hlen := triangulate_faces_length env c1.currentBufferVertices c1.currentBufferUVs
      (polyIDs n ids) r hr3
    obtain ⟨nv, nu, nf⟩ := r
    refine ⟨_, by simp only [exec, addPolygon, hc1, bind, Except.bind, hr3]; rfl, hf1.trans ?_,
      fun ht => ?_⟩
    · exact ⟨rfl, rfl, rfl, rfl, rfl, rfl, rfl, rfl, fun _ _ => rfl, rfl, fun _ _ => rfl, fun h => h⟩
    · exact ((ht1 ht).addFaces nf _ hlen).congr rfl rfl rfl rfl

/-- A vertex command succeeds in a ready context and only changes the position
and uv buffers. -/
theorem exec_vertex_frame (env : Env) (ctx : Ctx) (cmd : Command) (h : cmd.isVertex = true)
    (hr : Ready ctx) :
    ∃ c, exec env ctx cmd = Except.ok c ∧ Frame ctx c ∧ (Tiled ctx → Tiled c) := by
  cases cmd <;> simp only [Command.isVertex, Bool.false_eq_true] at h
  case vertex x y z uv =>
    cases hcur : ctx.currentTransform with
    | none => exact absurd hcur hr.cur
    | some r =>
      obtain ⟨m, hm⟩ := getFinalTransform_ok ctx r hcur hr.stack
      refine ⟨_, exec_vertex env ctx m ((x, y, z), uv) hm, ?_, fun ht => ?_⟩
      · exact ⟨rfl, rfl, rfl, rfl, rfl, rfl, rfl, rfl, fun _ _ => rfl, rfl, fun _ _ => rfl, fun h => h⟩
      · exact ht.congr rfl rfl rfl rfl

/-- Every command of a body succeeds in a ready context, keeps the frame and
keeps the batch bookkeeping consistent. -/
theorem body_step (env : Env) (ctx : Ctx) (cmd : Command) (h : cmd.isBody = true)
    (hr : Ready ctx) :
    ∃ c, exec env ctx cmd = Except.ok c ∧ Frame ctx c ∧ (Tiled ctx → Tiled c) := by
  simp only [Command.isBody, Bool.or_eq_true] at h
  rcases h with ((hm | ht) | hf) | hv
  · obtain ⟨f, hf⟩ := exec_material env ctx cmd hm
    exact ⟨_, hf, frame_setMaterial ctx f, fun ht => ht.congr rfl rfl rfl rfl⟩
  · cases hcur : ctx.currentTransform with
    | none => exact absurd hcur hr.cur
    | some r =>
      rcases exec_transform env ctx cmd r ht hcur with he | ⟨m, he⟩
      · exact ⟨_, he, Frame.refl ctx, fun ht => ht⟩
      · exact ⟨_, he, frame_setMat ctx r m hcur, fun ht => ht.congr rfl rfl rfl rfl⟩
  · exact exec_face env ctx cmd hf hr
  · exact exec_vertex_frame env ctx cmd hv hr

/-- A whole body runs through in a ready context. -/
theorem body_run (env : Env) (cmds : List Command) :
    ∀ ctx : Ctx, (∀ c ∈ cmds, c.isBody = true) → Ready ctx →
      ∃ c, execAll env ctx cmds = Except.ok c ∧ Frame ctx c ∧ (Tiled ctx → Tiled c) := by
  induction cmds with
  | nil => exact fun ctx _ _ => ⟨ctx, rfl, Frame.refl ctx, fun h => h⟩
  | cons cmd rest ih =>
    intro ctx hb hr
    obtain ⟨c1, h1, hf1, ht1⟩ := body_step env ctx cmd (hb cmd (List.mem_cons_self _ _)) hr
    obtain ⟨c2, h2, hf2, ht2⟩ := ih c1 (fun c hc => hb c (List.mem_cons_of_mem _ hc))
      (hr.of_frame hf1)
    refine ⟨c2, ?_, hf1.trans hf2, fun h => ht2 (ht1 h)⟩
    simp only [execAll, List.foldlM_cons, h1, bind, Except.bind]
    exact h2

/-- Running two lists of commands one after the other. -/
theorem execAll_append (env : Env) (ctx c : Ctx) (xs ys : List Command)
    (h : execAll env ctx xs = Except.ok c) :
    execAll env ctx (xs ++ ys) = execAll env c ys := by
  unfold execAll at h ⊢
  rw [List.foldlM_append, h]
  rfl

/-- Running a command and then a list of commands. -/
theorem execAll_cons (env : Env) (ctx c : Ctx) (x : Command) (ys : List Command)
    (h : exec env ctx x = Except.ok c) :
    execAll env ctx (x :: ys) = execAll env c ys := by
  unfold execAll
  rw [List.foldlM_cons, h]
  rfl

/-! ### Flushing and resetting a leaf -/

/-- The counts of a tiling add up to the length of the tiled range. -/
theorem tiles_sum (gs : List GeomGroup) :
    ∀ start stop, tiles start gs stop → start + (gs.map (fun g => g.count)).sum = stop := by
  induction gs with
  | nil => intro s e h; simpa [tiles] using h
  | cons g rest ih =>
    intro s e h
    have := ih _ _ h.2.2
    simp only [List.map_cons, List.sum_cons]
    omega

/-- Appending the open batch to a tiling. -/
theorem tiles_append (gs : List GeomGroup) :
    ∀ (s e : Nat) (g : GeomGroup), tiles s gs e → g.start = e → g.count % 3 = 0 →
      tiles s (gs ++ [g]) (e + g.count) := by
  induction gs with
  | nil =>
    intro s e g hl h1 h2
    simp only [tiles] at hl
    subst hl
    exact ⟨h1, h2, rfl⟩
  | cons x xs ih =>
    intro s e g hl h1 h2
    exact ⟨hl.1, hl.2.1, ih _ _ _ hl.2.2 h1 h2⟩

/-- The conditional commit that opens `makeMeshToCurrentGroup` and
`resetGeometry`: it succeeds when open faces come with a geometry, closes the
open batch and leaves everything else alone. -/
theorem flush_spec (ctx : Ctx)
    (h : ctx.currentBufferGeometry = none → ctx.currentBufferFaceCount = 0) :
    ∃ c, (if ctx.currentBufferFaceCount > 0 then commitBufferGeometryGroup ctx else pure ctx)
        = Except.ok c ∧
      Frame ctx c ∧ c.currentBufferFaceCount = 0 ∧
      c.currentBufferFaces = ctx.currentBufferFaces ∧
      c.currentBufferVertices = ctx.currentBufferVertices ∧
      c.currentBufferUVs = ctx.currentBufferUVs ∧
      c.groups = ctx.groups ∧ c.mats = ctx.mats ∧ c.rwxProtoDict = ctx.rwxProtoDict ∧
      c.materialManager.currentRWXMaterial = ctx.materialManager.currentRWXMaterial ∧
      (ctx.currentBufferGeometry = none → c.currentBufferGeometry = none) ∧
      (Tiled ctx → ∃ gs, c.currentBufferGeometry = some gs ∧
        tiles 0 gs c.currentBufferFaces.length) := by
  by_cases hc : ctx.currentBufferFaceCount > 0
  · rw [if_pos hc]
    cases hgeo : ctx.currentBufferGeometry with
    | none => exact absurd (h hgeo) (Nat.pos_iff_ne_zero.mp hc)
    | some gs =>
      rw [commit_ok ctx gs hgeo]
      refine ⟨_, rfl, ⟨rfl, rfl, rfl, rfl, rfl, rfl, rfl, rfl, fun _ _ => rfl, rfl,
        fun _ _ => rfl, fun _ => by simp⟩, rfl, rfl, rfl, rfl, rfl, rfl, rfl,
        getCurrentMaterialID_material _, (fun hn => by cases hn), ?_⟩
      rintro ⟨gs2, hgs2, ht, hsum⟩
      rw [hgeo] at hgs2
      cases hgs2
      refine ⟨_, rfl, ?_⟩
      show tiles 0 (gs ++ [_]) ctx.currentBufferFaces.length
      rw [← hsum]
      exact tiles_append gs 0 _ _ ht rfl (Nat.mul_mod_left _ _)
  · rw [if_neg hc]
    have h0 : ctx.currentBufferFaceCount = 0 := Nat.eq_zero_of_not_pos hc
    refine ⟨ctx, rfl, Frame.refl ctx, h0, rfl, rfl, rfl, rfl, rfl, rfl, rfl, fun hn => hn, ?_⟩
    rintro ⟨gs, hgs, ht, hsum⟩
    refine ⟨gs, hgs, ?_⟩
    rw [← hsum, h0]
    simpa using ht

/-- Sequencing after the conditional commit, in the shape the two functions
take once unfolded. -/
theorem flush_bind (ctx c1 : Ctx) (k : Ctx → Except Err Ctx)
    (h1 : (if ctx.currentBufferFaceCount > 0 then commitBufferGeometryGroup ctx else pure ctx)
      = Except.ok c1) :
    (if ctx.currentBufferFaceCount > 0 then commitBufferGeometryGroup ctx >>= k
      else pure ctx >>= k) = k c1 := by
  by_cases hc : ctx.currentBufferFaceCount > 0
  · rw [if_pos hc] at h1 ⊢
    rw [h1]
    rfl
  · rw [if_neg hc] at h1 ⊢
    rw [h1]
    rfl

/-- The function `makeMeshToCurrentGroup` succeeds when pending faces come with
a geometry and a current group.  It leaves no open face, keeps the buffers, and
when the index buffer is not empty it adds to the current group one mesh made of
the buffers and of the geometry groups, which tile the index buffer. -/
theorem makeMesh_spec (ctx : Ctx)
    (hgeo : ctx.currentBufferGeometry = none →
      ctx.currentBufferFaceCount = 0 ∧ ctx.currentBufferFaces = [])
    (hgrp : ctx.currentBufferFaces ≠ [] → ctx.currentGroup ≠ none) :
    ∃ c, makeMeshToCurrentGroup ctx = Except.ok c ∧ Frame ctx c ∧
      c.currentBufferFaceCount = 0 ∧
      c.currentBufferFaces = ctx.currentBufferFaces ∧
      c.currentBufferVertices = ctx.currentBufferVertices ∧
      c.currentBufferUVs = ctx.currentBufferUVs ∧
      c.mats = ctx.mats ∧ c.rwxProtoDict = ctx.rwxProtoDict ∧
      c.materialManager.currentRWXMaterial = ctx.materialManager.currentRWXMaterial ∧
      (ctx.currentBufferGeometry = none → c.currentBufferGeometry = none) ∧
      (ctx.currentBufferFaces = [] → c.groups = ctx.groups) ∧
      (ctx.currentBufferFaces ≠ [] → ∃ g gs, ctx.currentGroup = some g ∧
        c.currentBufferGeometry = some gs ∧
        c.groups = modifyAt (fun o => { o with children := o.children ++
          [Child.mesh
            { position := ctx.currentBufferVertices
              uv := ctx.currentBufferUVs
              index := ctx.currentBufferFaces
              groups := gs
              material := c.materialManager.currentMaterialList }] }) g ctx.groups) ∧
      (Tiled ctx → ∃ gs, c.currentBufferGeometry = some gs ∧
        tiles 0 gs c.currentBufferFaces.length) := by
  obtain ⟨c1, h1, hf1, hcount, hfaces, hverts, huvs, hgroups, hmats, hdict, hmat, hnone, htiled⟩ :=
    flush_spec ctx (fun hn => (hgeo hn).1)
  unfold makeMeshToCurrentGroup
  dsimp only
  rw [flush_bind ctx c1 _ h1]
  by_cases hlen : c1.currentBufferFaces.length > 0
  · rw [if_pos hlen]
    have hne : ctx.currentBufferFaces ≠ [] := by
      intro he
      rw [hfaces, he] at hlen
      exact Nat.lt_irrefl 0 hlen
    cases hg1 : c1.currentBufferGeometry with
    | none =>
      exfalso
      cases hg0 : ctx.currentBufferGeometry with
      | none => exact hne (hgeo hg0).2
      | some gs => exact hf1.geometry (by rw [hg0]; simp) hg1
    | some gs =>
      cases hcg : ctx.currentGroup with
      | none => exact absurd hcg (hgrp hne)
      | some g =>
        have hcg1 : c1.currentGroup = some g := hf1.group.trans hcg
        simp only [hcg1, pure_eq_ok]
        refine ⟨_, rfl, hf1.trans (frame_addChild c1 g _ hcg1), hcount, hfaces, hverts, huvs,
          hmats, hdict, hmat, ?_, fun he => absurd he hne, ?_, ?_⟩
        · intro hn
          have := hnone hn
          rw [hg1] at this
          cases this
        · intro _
          refine ⟨g, gs, rfl, hg1, ?_⟩
          show modifyAt _ g c1.groups = _
          rw [hgroups, hverts, huvs, hfaces]
          rfl
        · intro ht
          exact htiled ht
  · rw [if_neg hlen]
    have he : ctx.currentBufferFaces = [] := by
      have : c1.currentBufferFaces.length = 0 := Nat.eq_zero_of_not_pos hlen
      rw [hfaces] at this
      exact List.length_eq_zero.mp this
    exact ⟨c1, rfl, hf1, hcount, hfaces, hverts, huvs, hmats, hdict, hmat, hnone,
      fun _ => hgroups, fun hne => absurd he hne, htiled⟩

/-- The function `resetGeometry` succeeds when open faces come with a geometry;
it empties the three buffers, installs a new geometry without groups and forgets
the last slot. -/
theorem resetGeometry_spec (ctx : Ctx)
    (h : ctx.currentBufferGeometry = none → ctx.currentBufferFaceCount = 0) :
    ∃ c, resetGeometry ctx = Except.ok c ∧ Frame ctx c ∧
      c.currentBufferGeometry = some [] ∧
      c.currentBufferVertices = [] ∧ c.currentBufferUVs = [] ∧ c.currentBufferFaces = [] ∧
      c.currentBufferFaceCount = 0 ∧ c.currentBufferGroupFirstFaceID = 0 ∧
      c.previousMaterialID = none ∧
      c.groups = ctx.groups ∧ c.mats = ctx.mats ∧ c.rwxProtoDict = ctx.rwxProtoDict ∧
      c.materialManager.currentRWXMaterial = ctx.materialManager.currentRWXMaterial := by
  obtain ⟨c1, h1, hf1, -, -, -, -, hgroups, hmats, hdict, hmat, -, -⟩ := flush_spec ctx h
  unfold resetGeometry
  dsimp only
  rw [flush_bind ctx c1 _ h1]
  refine ⟨_, rfl, hf1.trans ⟨rfl, rfl, rfl, rfl, rfl, rfl, rfl, rfl, fun _ _ => rfl, rfl,
    fun _ _ => rfl, fun _ => by simp⟩, rfl, rfl, rfl, rfl, rfl, rfl, rfl, hgroups, hmats, hdict,
    hmat⟩

/-- A leaf right after `resetGeometry` has a consistent (empty) bookkeeping. -/
theorem tiled_of_reset (c : Ctx) (h1 : c.currentBufferGeometry = some [])
    (h2 : c.currentBufferFaces = []) (h3 : c.currentBufferFaceCount = 0)
    (h4 : c.currentBufferGroupFirstFaceID = 0) : Tiled c :=
  ⟨[], h1, by rw [h4]; rfl, by rw [h2, h3, h4]; rfl⟩

/-! ### C22: batch ranges tile the index buffer -/

/-- C22: in a leaf whose batch bookkeeping is consistent (as it is right after
`clumpbegin`), for every sequence of material, transform and vertex commands,
triangles, quads and polygons of a declared length above 0 (a polygon of
declared length 0 throws), the commands run through and the flush that follows
succeeds; the geometry groups recorded at the flush start at 0, each starts
where the previous one ends, every count is a multiple of 3, and the counts add
up to the length of the index buffer.  When the index buffer is not empty the
flush adds one mesh to the current group; the mesh carries exactly these groups,
and the index array three.js stores for it (the index buffer of the leaf, entry
by entry, in a 16 or 32 bit typed array) has the length the groups tile. -/
theorem C22_batch_ranges_tile_index_buffer (env : Env) (ctx : Ctx) (cmds : List Command)
    (hb : ∀ c ∈ cmds, c.isBody = true) (hr : Ready ctx) (ht : Tiled ctx) :
    ∃ c1 c2 gs, execAll env ctx cmds = Except.ok c1 ∧
      makeMeshToCurrentGroup c1 = Except.ok c2 ∧
      c2.currentBufferGeometry = some gs ∧
      c2.currentBufferFaces = c1.currentBufferFaces ∧
      tiles 0 gs c1.currentBufferFaces.length ∧
      (gs.map (fun g => g.count)).sum = c1.currentBufferFaces.length ∧
      (c1.currentBufferFaces ≠ [] → ∃ g mesh, c1.currentGroup = some g ∧
        c2.groups = modifyAt (fun o => { o with children := o.children ++ [Child.mesh mesh] })
          g c1.groups ∧
        mesh.groups = gs ∧
        (∀ wide : List Int → Bool, mesh.indexArray wide = c1.currentBufferFaces.map
          (fun (v : Int) => toUint (if wide c1.currentBufferFaces then 32 else 16) (v : ℚ))) ∧
        (∀ wide : List Int → Bool, tiles 0 gs (mesh.indexArray wide).length) ∧
        (∀ wide : List Int → Bool,
          (gs.map (fun g => g.count)).sum = (mesh.indexArray wide).length)) := by
  obtain ⟨c1, h1, hf1, ht1⟩ := body_run env cmds ctx hb hr
  have hr1 := hr.of_frame hf1
  obtain ⟨c2, h2, -, -, hfaces, -, -, -, -, -, -, -, hmesh, htiles⟩ :=
    makeMesh_spec c1 (fun hn => absurd hn hr1.geometry) (fun _ => hr1.group)
  obtain ⟨gs, hgs, hts⟩ := htiles (ht1 ht)
  rw [hfaces] at hts
  have hsum : (gs.map (fun g => g.count)).sum = c1.currentBufferFaces.length := by
    have := tiles_sum gs 0 _ hts
    omega
  refine ⟨c1, c2, gs, h1, h2, hgs, hfaces, hts, hsum, ?_⟩
  intro hne
  obtain ⟨g, gs2, hg, hgs2, hgroups⟩ := hmesh hne
  rw [hgs] at hgs2
  cases hgs2
  have hlen : ∀ wide : List Int → Bool,
      (Mesh.indexArray wide
        { position := c1.currentBufferVertices
          uv := c1.currentBufferUVs
          index := c1.currentBufferFaces
          groups := gs
          material := c2.materialManager.currentMaterialList }).length
        = c1.currentBufferFaces.length := by
    intro wide
    simp only [Mesh.indexArray, List.length_map]
  refine ⟨g, _, hg, hgroups, rfl, fun wide => rfl, fun wide => ?_, fun wide => ?_⟩
  · rw [hlen wide]
    exact hts
  · rw [hlen wide]
    exact hsum

/-- Instance of C22: a clump with two materials, a quad, a triangle and a
polygon. -/
theorem C22_batch_ranges_tile_index_buffer_witness :
    (∀ c ∈ [Command.vertex 0 0 0 none, Command.vertex 1 0 0 none, Command.vertex 1 1 0 none,
        Command.vertex 0 1 0 none, Command.color [1, 0, 0], Command.quad 1 2 3 4,
        Command.color [0, 1, 0], Command.triangle 1 2 3, Command.polygon 4 [1, 2, 3, 4]],
        c.isBody = true) ∧
      Ready clumpContext ∧ Tiled clumpContext ∧
      ∃ c1 c2 gs, execAll exampleEnv clumpContext
          [Command.vertex 0 0 0 none, Command.vertex 1 0 0 none, Command.vertex 1 1 0 none,
            Command.vertex 0 1 0 none, Command.color [1, 0, 0], Command.quad 1 2 3 4,
            Command.color [0, 1, 0], Command.triangle 1 2 3, Command.polygon 4 [1, 2, 3, 4]]
            = Except.ok c1 ∧
        makeMeshToCurrentGroup c1 = Except.ok c2 ∧
        c2.currentBufferGeometry = some gs ∧
        c2.currentBufferFaces = c1.currentBufferFaces ∧
        tiles 0 gs c1.currentBufferFaces.length ∧
        (gs.map (fun g => g.count)).sum = c1.currentBufferFaces.length ∧
        (c1.currentBufferFaces ≠ [] → ∃ g mesh, c1.currentGroup = some g ∧
          c2.groups = modifyAt (fun o => { o with children := o.children ++ [Child.mesh mesh] })
            g c1.groups ∧
          mesh.groups = gs ∧
          (∀ wide : List Int → Bool, mesh.indexArray wide = c1.currentBufferFaces.map
            (fun (v : Int) => toUint (if wide c1.currentBufferFaces then 32 else 16) (v : ℚ))) ∧
          (∀ wide : List Int → Bool, tiles 0 gs (mesh.indexArray wide).length) ∧
          (∀ wide : List Int → Bool,
            (gs.map (fun g => g.count)).sum = (mesh.indexArray wide).length)) :=
  ⟨by decide,
    ⟨by with_unfolding_all decide, by with_unfolding_all decide, by with_unfolding_all decide,
      by with_unfolding_all decide⟩,
    ⟨[], by with_unfolding_all decide, by with_unfolding_all decide,
      by with_unfolding_all decide⟩,
    C22_batch_ranges_tile_index_buffer exampleEnv clumpContext _ (by decide)
      ⟨by with_unfolding_all decide, by with_unfolding_all decide, by with_unfolding_all decide,
        by with_unfolding_all decide⟩
      ⟨[], by with_unfolding_all decide, by with_unfolding_all decide,
        by with_unfolding_all decide⟩⟩

/-- The same on text: the groups of the mesh of such a clump. -/
theorem parse_batch_ranges :
    (parse exampleEnv 0
        "modelbegin\nclumpbegin\nvertex 0 0 0\nvertex 1 0 0\nvertex 1 1 0\nvertex 0 1 0\ncolor 1 0 0\nquad 1 2 3 4\ncolor 0 1 0\ntriangle 1 2 3\nclumpend").toOption.map
      (fun p => p.meshes.map (fun m => (m.groups, m.index)))
      = some [([⟨0, 0, none⟩, ⟨0, 6, some 0⟩, ⟨6, 3, some 1⟩], [0, 1, 2, 0, 2, 3, 0, 1, 2])] := by
  with_unfolding_all decide

/-- A polygon of declared length 0 throws in every leaf: the material check
passes (a geometry is in place) and the triangulator is handed the empty
loop. -/
theorem polygon_empty_loop_throws (env : Env) (ctx : Ctx) (ids : List Nat)
    (hg : ctx.currentBufferGeometry ≠ none) :
    exec env ctx (Command.polygon 0 ids) = Except.error Err.typeError := by
  obtain ⟨c1, hc1, -⟩ := checkMaterial_frame ctx hg
  simp only [exec, addPolygon, hc1, bind, Except.bind]
  rfl

/-- The same on text: the line `polygon 0 1` is matched, and the parse of a clump
that holds it throws. -/
theorem parse_polygon_empty_loop :
    matchLine "polygon 0 1".data = [Command.polygon 0 [1]] ∧
      parse exampleEnv 0
        "modelbegin\nclumpbegin\nvertex 0 0 0\nvertex 1 0 0\nvertex 1 1 0\npolygon 0 1\nclumpend"
        = Except.error Err.typeError := by
  refine ⟨?_, ?_⟩
  · with_unfolding_all decide
  · with_unfolding_all rfl

/-! ### Entering and leaving a scope -/

/-- The element pushed last is the one popped. -/
theorem pop_append {α : Type} (xs : List α) (x : α) : pop (xs ++ [x]) = (some x, xs) := by
  simp [pop]

/-- Sequencing after a step that succeeded. -/
theorem bind_ok {x : Except Err Ctx} {a : Ctx} (f : Ctx → Except Err Ctx)
    (h : x = Except.ok a) : (x >>= f) = f a := by
  rw [h]
  rfl

/-- A name just entered in the prototype table is found there. -/
theorem find_setProto (dict : List (String × Nat)) (name : String) (id : Nat) :
    ((setProto dict name id).find? (fun p => p.1 == name)).map Prod.snd = some id := by
  unfold setProto
  induction dict with
  | nil => simp
  | cons p rest ih =>
    by_cases hp : (p.1 == name) = true
    · have hany : (p :: rest).any (fun p => p.1 == name) = true := by
        simp only [List.any_cons, hp, Bool.true_or]
      rw [if_pos hany]
      simp only [List.map_cons, hp, if_true, List.find?_cons, beq_self_eq_true, Option.map_some']
    · by_cases hr : rest.any (fun p => p.1 == name) = true
      · rw [if_pos hr] at ih
        have hany : (p :: rest).any (fun p => p.1 == name) = true := by
          simp only [List.any_cons, hr, Bool.or_true]
        rw [if_pos hany]
        simp only [List.map_cons, hp, Bool.false_eq_true, if_false, List.find?_cons]
        exact ih
      · rw [if_neg hr] at ih
        have hany : ¬ (p :: rest).any (fun p => p.1 == name) = true := by
          simp only [List.any_cons, Bool.or_eq_true, not_or]
          exact ⟨hp, hr⟩
        rw [if_neg hany]
        simp only [List.cons_append, List.find?_cons, hp]
        exact ih

/-- Appending an identity matrix to the heap changes no matrix behind a
reference. -/
theorem getD_append_identity (mats : List Matrix4) (q : Nat) :
    (mats ++ [Matrix4.identity]).getD q Matrix4.identity = mats.getD q Matrix4.identity := by
  by_cases h : q < mats.length
  · simp [List.getD, List.getElem?_append_left h]
  · have h2 : mats.length ≤ q := Nat.le_of_not_lt h
    rcases Nat.eq_or_lt_of_le h2 with he | hlt
    · subst he
      simp [List.getD]
    · have h3 : (mats ++ [Matrix4.identity]).length ≤ q := by
        simp only [List.length_append, List.length_cons, List.length_nil]
        omega
      simp [List.getD, List.getElem?_eq_none h3, List.getElem?_eq_none h2]

/-- Two heaps of the same size that agree on the matrix read behind a valid
reference hold the same object there. -/
theorem get?_eq_of_mat (a b : Ctx) (q : Nat) (hlen : a.mats.length = b.mats.length)
    (hq : q < b.mats.length) (h : a.mat q = b.mat q) : a.mats.get? q = b.mats.get? q := by
  have hqa : q < a.mats.length := by rw [hlen]; exact hq
  simp only [Ctx.mat, List.getD_eq_getElem?_getD, List.getElem?_eq_getElem hqa,
    List.getElem?_eq_getElem hq, Option.getD_some] at h
  rw [List.get?_eq_getElem?, List.get?_eq_getElem?, List.getElem?_eq_getElem hqa,
    List.getElem?_eq_getElem hq, h]

/-- The product over a stack only depends on the matrices behind the
references. -/
theorem foldlM_multiplyEntry_congr (a b : Ctx) (h : ∀ q, a.mat q = b.mat q)
    (stack : List (Option Nat)) (acc : Matrix4) :
    stack.foldlM (multiplyEntry a) acc = stack.foldlM (multiplyEntry b) acc := by
  have hfun : multiplyEntry a = multiplyEntry b := by
    funext m t
    cases t with
    | none => rfl
    | some r => simp only [multiplyEntry, h]
  rw [hfun]

/-- Entering a transform scope leaves the final transform as it was. -/
theorem getFinalTransform_push (ctx c : Ctx)
    (hmats : c.mats = ctx.mats ++ [Matrix4.identity])
    (hstack : c.transformStack = ctx.transformStack ++ [ctx.currentTransform])
    (hcur : c.currentTransform = some ctx.mats.length) :
    getFinalTransform c = getFinalTransform ctx := by
  have hmat : ∀ q, c.mat q = ctx.mat q := by
    intro q
    simp only [Ctx.mat, hmats]
    exact getD_append_identity ctx.mats q
  have hnew : c.mat ctx.mats.length = Matrix4.identity := by
    simp [Ctx.mat, hmats, List.getD]
  unfold getFinalTransform
  rw [hstack, hcur, List.foldlM_append, foldlM_multiplyEntry_congr c ctx hmat]
  cases hfold : ctx.transformStack.foldlM (multiplyEntry ctx) Matrix4.identity with
  | error e => rfl
  | ok t =>
    cases hc : ctx.currentTransform with
    | none => rfl
    | some r =>
      have hnew2 : ctx.mat ctx.mats.length = Matrix4.identity := (hmat _).symm.trans hnew
      simp only [bind, Except.bind, List.foldlM_cons, List.foldlM_nil, multiplyEntry, pure_eq_ok,
        hmat, hnew2, Matrix4.multiply_identity]

/-- The function `pushCurrentGroup` with a current group. -/
theorem pushCurrentGroup_ok (ctx : Ctx) (g : Nat) (h : ctx.currentGroup = some g) :
    pushCurrentGroup ctx = Except.ok
      { ctx with
        groups := modifyAt (fun o => { o with children := o.children ++ [Child.group ctx.groups.length] })
          g (ctx.groups ++ [({} : GroupObj)])
        groupStack := ctx.groupStack ++ [g]
        currentGroup := some ctx.groups.length } := by
  unfold pushCurrentGroup
  rw [h]
  rfl

/-- The branch of `protobegin`: it succeeds when open faces come with a geometry.
A new empty group and a new identity matrix become current, the old ones are
kept aside, the buffers are emptied without a mesh being made, and the working
material is the default one. -/
theorem protobegin_spec (env : Env) (ctx : Ctx) (name : String)
    (h : ctx.currentBufferGeometry = none → ctx.currentBufferFaceCount = 0) :
    ∃ c, exec env ctx (Command.protobegin name) = Except.ok c ∧
      c.groups = ctx.groups ++ [({} : GroupObj)] ∧
      c.mats = ctx.mats ++ [Matrix4.identity] ∧
      c.currentGroup = some ctx.groups.length ∧
      c.currentTransform = some ctx.mats.length ∧
      c.transformStack = ctx.transformStack ∧
      c.groupStack = ctx.groupStack ∧
      c.transformSaves = ctx.transformSaves ∧
      c.transformBeforeProto = ctx.currentGroup ∧
      c.groupBeforeProto = ctx.currentTransform ∧
      c.currentBufferGeometry = some [] ∧
      c.currentBufferVertices = [] ∧ c.currentBufferUVs = [] ∧ c.currentBufferFaces = [] ∧
      c.currentBufferFaceCount = 0 ∧ c.currentBufferGroupFirstFaceID = 0 ∧
      c.rwxProtoDict = setProto ctx.rwxProtoDict name ctx.groups.length ∧
      c.materialManager.currentRWXMaterial = {} := by
  obtain ⟨c5, h5, hf, hgeo, hv, hu, hfaces, hcount, hfirst, -, hgroups, hmats, hdict, -⟩ :=
    resetGeometry_spec
      { ctx with
        transformBeforeProto := ctx.currentGroup
        groupBeforeProto := ctx.currentTransform
        groups := ctx.groups ++ [({} : GroupObj)]
        rwxProtoDict := setProto ctx.rwxProtoDict name ctx.groups.length
        mats := ctx.mats ++ [Matrix4.identity]
        currentTransform := some ctx.mats.length } h
  refine ⟨{ c5.setMaterial (fun _ => {}) with
      currentGroup := (c5.setMaterial (fun _ => {})).proto name }, ?_, hgroups, hmats, ?_,
    hf.cur, hf.stack, hf.groupStack, hf.saves, hf.savedGroup, hf.savedTransform, hgeo, hv, hu,
    hfaces, hcount, hfirst, hdict, rfl⟩
  · exact bind_ok _ h5
  · show ((c5.rwxProtoDict.find? (fun p => p.1 == name)).map Prod.snd) = _
    rw [hdict]
    exact find_setProto _ _ _

/-- The branch of `protoend` in a leaf with a geometry and a current group: it
succeeds, the group and the transform kept aside by `protobegin` become current
again, the buffers are emptied, the local material list is emptied and the
working material is the default one. -/
theorem protoend_spec (env : Env) (ctx : Ctx) (hr : Ready ctx) :
    ∃ c, exec env ctx Command.protoend = Except.ok c ∧
      c.currentGroup = ctx.transformBeforeProto ∧
      c.currentTransform = ctx.groupBeforeProto ∧
      c.mats = ctx.mats ∧
      c.transformStack = ctx.transformStack ∧
      c.groupStack = ctx.groupStack ∧
      c.transformSaves = ctx.transformSaves ∧
      c.rwxProtoDict = ctx.rwxProtoDict ∧
      c.groups.length = ctx.groups.length ∧
      (∀ i, ctx.currentGroup ≠ some i → c.groups.get? i = ctx.groups.get? i) ∧
      c.currentBufferVertices = [] ∧ c.currentBufferUVs = [] ∧ c.currentBufferFaces = [] ∧
      c.currentBufferFaceCount = 0 ∧
      c.materialManager.currentMaterialList = [] ∧
      c.materialManager.currentRWXMaterial = {} := by
  obtain ⟨c1, h1, hf1, hcount1, -, -, -, hmats1, hdict1, -, -, -, -, -⟩ :=
    makeMesh_spec ctx (fun hn => absurd hn hr.geometry) (fun _ => hr.group)
  obtain ⟨c2, h2, hf2, -, hv, hu, hfaces, hcount, -, -, hgroups2, hmats2, hdict2, -⟩ :=
    resetGeometry_spec
      { c1 with currentGroup := c1.transformBeforeProto, currentTransform := c1.groupBeforeProto }
      (fun _ => hcount1)
  refine ⟨{ c2 with materialManager := c2.materialManager.resetCurrentMaterialList }, ?_,
    hf2.group.trans hf1.savedGroup, hf2.cur.trans hf1.savedTransform, hmats2.trans hmats1,
    hf2.stack.trans hf1.stack, hf2.groupStack.trans hf1.groupStack, hf2.saves.trans hf1.saves,
    hdict2.trans hdict1, ?_, ?_, hv, hu, hfaces, hcount, rfl, rfl⟩
  · exact (bind_ok _ h1).trans (bind_ok _ h2)
  · show c2.groups.length = _
    rw [hgroups2]
    exact hf1.groupsLength
  · intro i hi
    show c2.groups.get? i = _
    rw [hgroups2]
    exact hf1.groups i hi

/-- The branch of `clumpbegin` with a current group `g`, when pending faces come
with a geometry: it succeeds; `c1` is the context after the flush of the pending
leaf. -/
theorem clumpbegin_spec (env : Env) (ctx : Ctx) (g : Nat) (hg : ctx.currentGroup = some g)
    (hgeo : ctx.currentBufferGeometry = none →
      ctx.currentBufferFaceCount = 0 ∧ ctx.currentBufferFaces = []) :
    ∃ c1 c, makeMeshToCurrentGroup ctx = Except.ok c1 ∧
      exec env ctx Command.clumpbegin = Except.ok c ∧
      c1.groups.length = ctx.groups.length ∧
      (∀ i, i ≠ g → c1.groups.get? i = ctx.groups.get? i) ∧
      (ctx.currentBufferFaces = [] → c1.groups = ctx.groups) ∧
      c.groups = modifyAt (fun o => { o with children := o.children ++ [Child.group ctx.groups.length] })
          g (c1.groups ++ [({} : GroupObj)]) ∧
      c.mats = ctx.mats ++ [Matrix4.identity] ∧
      c.currentGroup = some ctx.groups.length ∧
      c.currentTransform = some ctx.mats.length ∧
      c.transformStack = ctx.transformStack ++ [ctx.currentTransform] ∧
      c.groupStack = ctx.groupStack ++ [g] ∧
      c.transformSaves = ctx.transformSaves ∧
      c.currentBufferGeometry = some [] ∧
      c.currentBufferVertices = [] ∧ c.currentBufferUVs = [] ∧ c.currentBufferFaces = [] ∧
      c.currentBufferFaceCount = 0 ∧ c.currentBufferGroupFirstFaceID = 0 := by
  obtain ⟨c1, h1, hf1, hcount1, -, -, -, hmats1, -, -, -, hsame, -, -⟩ :=
    makeMesh_spec ctx hgeo (fun _ => by rw [hg]; exact Option.some_ne_none g)
  obtain ⟨c2, h2, hf2, hgeo2, hv, hu, hfaces, hcount, hfirst, -, hgroups2, hmats2, -, -⟩ :=
    resetGeometry_spec c1 (fun _ => hcount1)
  have hg2 : c2.currentGroup = some g := (hf2.group.trans hf1.group).trans hg
  have h3 := pushCurrentGroup_ok c2 g hg2
  have hlen : c2.groups.length = ctx.groups.length := by
    rw [hgroups2]
    exact hf1.groupsLength
  refine ⟨c1, pushCurrentTransform
      { c2 with
        groups := modifyAt (fun o => { o with children := o.children ++ [Child.group c2.groups.length] })
          g (c2.groups ++ [({} : GroupObj)])
        groupStack := c2.groupStack ++ [g]
        currentGroup := some c2.groups.length }, h1, ?_, hf1.groupsLength, ?_, hsame, ?_, ?_, ?_, ?_, ?_, ?_,
    hf2.saves.trans hf1.saves, hgeo2, hv, hu, hfaces, hcount, hfirst⟩
  · exact (bind_ok _ h1).trans ((bind_ok _ h2).trans (bind_ok _ h3))
  · intro i hi
    exact hf1.groups i (fun e => hi (by rw [hg] at e; exact (Option.some.inj e).symm))
  · show modifyAt _ g (c2.groups ++ [({} : GroupObj)]) = _
    rw [hlen, hgroups2]
  · show c2.mats ++ [Matrix4.identity] = _
    rw [hmats2, hmats1]
  · show some c2.groups.length = _
    rw [hlen]
  · show some c2.mats.length = _
    rw [hmats2, hmats1]
  · show c2.transformStack ++ [c2.currentTransform] = _
    rw [hf2.stack, hf1.stack, hf2.cur, hf1.cur]
  · show c2.groupStack ++ [g] = _
    rw [hf2.groupStack, hf1.groupStack]

/-- The branch of `clumpend` in a leaf with a geometry and a current group: it
succeeds, both stacks are popped, the buffers are emptied, the local material
list is emptied and the working material is the default one. -/
theorem clumpend_spec (env : Env) (ctx : Ctx) (hr : Ready ctx) :
    ∃ c, exec env ctx Command.clumpend = Except.ok c ∧
      c.currentGroup = (pop ctx.groupStack).1 ∧
      c.groupStack = (pop ctx.groupStack).2 ∧
      c.currentTransform = (pop ctx.transformStack).1.join ∧
      c.transformStack = (pop ctx.transformStack).2 ∧
      c.mats = ctx.mats ∧
      c.transformSaves = ctx.transformSaves ∧
      c.groups.length = ctx.groups.length ∧
      (∀ i, ctx.currentGroup ≠ some i → c.groups.get? i = ctx.groups.get? i) ∧
      c.currentBufferVertices = [] ∧ c.currentBufferUVs = [] ∧ c.currentBufferFaces = [] ∧
      c.currentBufferFaceCount = 0 ∧
      c.materialManager.currentMaterialList = [] ∧
      c.materialManager.currentRWXMaterial = {} := by
  obtain ⟨c1, h1, hf1, hcount1, -, -, -, hmats1, -, -, -, -, -, -⟩ :=
    makeMesh_spec ctx (fun hn => absurd hn hr.geometry) (fun _ => hr.group)
  obtain ⟨c2, h2, hf2, -, hv, hu, hfaces, hcount, -, -, hgroups2, hmats2, -, -⟩ :=
    resetGeometry_spec (popCurrentGroup (popCurrentTransform c1)) (fun _ => hcount1)
  refine ⟨{ c2 with materialManager := c2.materialManager.resetCurrentMaterialList }, ?_,
    ?_, ?_, ?_, ?_, hmats2.trans hmats1, hf2.saves.trans hf1.saves, ?_, ?_, hv, hu, hfaces,
    hcount, rfl, rfl⟩
  · exact (bind_ok _ h1).trans (bind_ok _ h2)
  · show c2.currentGroup = _
    rw [hf2.group, ← hf1.groupStack]
    rfl
  · show c2.groupStack = _
    rw [hf2.groupStack, ← hf1.groupStack]
    rfl
  · show c2.currentTransform = _
    rw [hf2.cur, ← hf1.stack]
    rfl
  · show c2.transformStack = _
    rw [hf2.stack, ← hf1.stack]
    rfl
  · show c2.groups.length = _
    rw [hgroups2]
    exact hf1.groupsLength
  · intro i hi
    show c2.groups.get? i = _
    rw [hgroups2]
    exact hf1.groups i hi

/-- Running a single command. -/
theorem execAll_single (env : Env) (ctx : Ctx) (x : Command) :
    execAll env ctx [x] = exec env ctx x := by
  unfold execAll
  rw [List.foldlM_cons]
  cases exec env ctx x with
  | error e => rfl
  | ok c => rfl

/-- Reading the heap of groups below its old length after an object was added. -/
theorem get?_append_old {α : Type} (l : List α) (x : α) (i : Nat) (h : i < l.length) :
    (l ++ [x]).get? i = l.get? i := by
  simp [List.get?_eq_getElem?, List.getElem?_append_left h]

/-- Reading the object added last to the heap of groups. -/
theorem get?_append_new {α : Type} (l : List α) (x : α) :
    (l ++ [x]).get? l.length = some x := by
  simp [List.get?_eq_getElem?]

/-- A prototype scope as a whole: `protobegin`, a body, `protoend`.  The three
contexts are the one after `protobegin`, the one after the body and the one
after `protoend`. -/
theorem proto_scope_run (env : Env) (ctx : Ctx) (name : String) (body : List Command)
    (hgeo : ctx.currentBufferGeometry = none → ctx.currentBufferFaceCount = 0)
    (hstack : ∀ t ∈ ctx.transformStack, t ≠ none)
    (hb : ∀ c ∈ body, c.isBody = true) :
    ∃ c1 c3, exec env ctx (Command.protobegin name) = Except.ok c1 ∧
      execAll env ctx (Command.protobegin name :: (body ++ [Command.protoend])) = Except.ok c3 ∧
      c1.groups = ctx.groups ++ [({} : GroupObj)] ∧
      (c1.currentBufferVertices = [] ∧ c1.currentBufferUVs = [] ∧ c1.currentBufferFaces = []) ∧
      (c3.currentBufferVertices = [] ∧ c3.currentBufferUVs = [] ∧ c3.currentBufferFaces = []) ∧
      c3.currentGroup = ctx.currentGroup ∧
      c3.currentTransform = ctx.currentTransform ∧
      (∀ q, q < ctx.mats.length → c3.mat q = ctx.mat q) ∧
      (∀ i, i < ctx.groups.length → c3.groups.get? i = ctx.groups.get? i) ∧
      c3.materialManager.currentMaterialList = [] ∧
      c3.materialManager.currentRWXMaterial = {} ∧
      (∀ q, q < ctx.mats.length → c3.mats.get? q = ctx.mats.get? q) ∧
      c1.mats = ctx.mats ++ [Matrix4.identity] ∧
      c1.currentTransform = some ctx.mats.length ∧
      c1.currentGroup = some ctx.groups.length := by
  obtain ⟨c1, h1, hgroups1, hmats1, hgrp1, hcur1, hstack1, -, -, hsg1, hst1, hgeo1, hv1, hu1, hf1,
    -, -, -, -⟩ := protobegin_spec env ctx name hgeo
  have hr1 : Ready c1 :=
    ⟨by rw [hcur1]; exact Option.some_ne_none _, by rw [hstack1]; exact hstack,
      by rw [hgeo1]; exact Option.some_ne_none _, by rw [hgrp1]; exact Option.some_ne_none _⟩
  obtain ⟨c2, h2, hf2, -⟩ := body_run env body c1 hb hr1
  obtain ⟨c3, h3, hgrp3, hcur3, hmats3, -, -, -, -, -, hgroups3, hv3, hu3, hfaces3, -, hlist3,
    hmat3⟩ := protoend_spec env c2 (hr1.of_frame hf2)
  have hmatq : ∀ q, q < ctx.mats.length → c3.mat q = ctx.mat q := by
    intro q hq
    have hne : c1.currentTransform ≠ some q := by
      rw [hcur1]
      intro e
      exact Nat.lt_irrefl _ (by rw [Option.some.inj e] at hq; exact hq)
    have e1 : c3.mat q = c2.mat q := by simp only [Ctx.mat, hmats3]
    rw [e1, hf2.mats q hne]
    simp only [Ctx.mat, hmats1]
    exact getD_append_identity ctx.mats q
  have hlen3 : c3.mats.length = ctx.mats.length + 1 := by
    rw [hmats3, hf2.matsLength, hmats1, List.length_append]
    rfl
  refine ⟨c1, c3, h1, ?_, hgroups1, ⟨hv1, hu1, hf1⟩, ⟨hv3, hu3, hfaces3⟩, ?_, ?_, hmatq, ?_, hlist3,
    hmat3, ?_, hmats1, hcur1, hgrp1⟩
  · rw [execAll_cons env ctx c1 _ _ h1, execAll_append env c1 c2 _ _ h2, execAll_single]
    exact h3
  · rw [hgrp3, hf2.savedGroup, hsg1]
  · rw [hcur3, hf2.savedTransform, hst1]
  · intro i hi
    have hne : c2.currentGroup ≠ some i := by
      rw [hf2.group, hgrp1]
      intro e
      exact Nat.lt_irrefl _ (by rw [Option.some.inj e] at hi; exact hi)
    have hne1 : c1.currentGroup ≠ some i := by
      rw [← hf2.group]
      exact hne
    rw [hgroups3 i hne, hf2.groups i hne1, hgroups1]
    exact get?_append_old ctx.groups _ i hi
  · intro q hq
    have hq1 : q < (ctx.mats ++ [Matrix4.identity]).length := by
      rw [List.length_append]
      exact Nat.lt_succ_of_lt hq
    have e := get?_eq_of_mat c3 { ctx with mats := ctx.mats ++ [Matrix4.identity] } q
      (by rw [hlen3, List.length_append]; rfl) hq1
      ((hmatq q hq).trans (getD_append_identity ctx.mats q).symm)
    rw [e]
    exact get?_append_old ctx.mats _ q hq

/-! ### C29: pending geometry at `protobegin` -/

/-- C29: in every leaf with pending vertices and faces (whatever the buffers
hold), the line `protobegin <name>` succeeds, empties the vertex, uv and index
buffers and adds nothing but a new empty group object to the heap: no mesh is
made of the pending data.  After any body of transform, material and vertex
commands, triangles, quads and polygons of a declared length above 0 (a polygon
of declared length 0 throws) and the matching `protoend`, the three buffers are
empty again, the enclosing group is current again, and every group object that
existed before `protobegin`, the enclosing group included, is as it was: it
received no mesh. -/
theorem C29_protobegin_discards_pending_geometry (env : Env) (ctx : Ctx) (name : String)
    (body : List Command)
    (hgeo : ctx.currentBufferGeometry = none → ctx.currentBufferFaceCount = 0)
    (hstack : ∀ t ∈ ctx.transformStack, t ≠ none)
    (hb : ∀ c ∈ body, c.isBody = true) :
    ∃ c1 c3, exec env ctx (Command.protobegin name) = Except.ok c1 ∧
      c1.groups = ctx.groups ++ [({} : GroupObj)] ∧
      (c1.currentBufferVertices = [] ∧ c1.currentBufferUVs = [] ∧ c1.currentBufferFaces = []) ∧
      execAll env ctx (Command.protobegin name :: (body ++ [Command.protoend])) = Except.ok c3 ∧
      (c3.currentBufferVertices = [] ∧ c3.currentBufferUVs = [] ∧ c3.currentBufferFaces = []) ∧
      c3.currentGroup = ctx.currentGroup ∧
      (∀ i, i < ctx.groups.length → c3.groups.get? i = ctx.groups.get? i) := by
  obtain ⟨c1, c3, h1, h3, hg1, hb1, hb3, hgrp, -, -, hgroups, -, -, -, -, -, -⟩ :=
    proto_scope_run env ctx name body hgeo hstack hb
  exact ⟨c1, c3, h1, hg1, hb1, h3, hb3, hgrp, hgroups⟩

/-- Instance of C29: a prototype opened in a clump with four vertices and an open
triangle. -/
theorem C29_protobegin_discards_pending_geometry_witness :
    (quadContext.currentBufferGeometry = none → quadContext.currentBufferFaceCount = 0) ∧
      (∀ t ∈ quadContext.transformStack, t ≠ none) ∧
      (∀ c ∈ [Command.vertex 0 0 1 none, Command.color [0, 0, 1]], c.isBody = true) ∧
      ∃ c1 c3, exec exampleEnv quadContext (Command.protobegin "p") = Except.ok c1 ∧
        c1.groups = quadContext.groups ++ [({} : GroupObj)] ∧
        (c1.currentBufferVertices = [] ∧ c1.currentBufferUVs = [] ∧ c1.currentBufferFaces = []) ∧
        execAll exampleEnv quadContext (Command.protobegin "p" ::
          ([Command.vertex 0 0 1 none, Command.color [0, 0, 1]] ++ [Command.protoend]))
            = Except.ok c3 ∧
        (c3.currentBufferVertices = [] ∧ c3.currentBufferUVs = [] ∧ c3.currentBufferFaces = []) ∧
        c3.currentGroup = quadContext.currentGroup ∧
        (∀ i, i < quadContext.groups.length → c3.groups.get? i = quadContext.groups.get? i) :=
  ⟨by with_unfolding_all decide, by with_unfolding_all decide, by decide,
    C29_protobegin_discards_pending_geometry exampleEnv quadContext "p"
      [Command.vertex 0 0 1 none, Command.color [0, 0, 1]]
      (by with_unfolding_all decide) (by with_unfolding_all decide) (by decide)⟩

/-- The same on text: the triangle declared before `protobegin` is in no mesh of
the scene graph returned by `parse`. -/
theorem parse_pending_geometry_discarded :
    (parse exampleEnv 0
        "modelbegin\nclumpbegin\nvertex 0 0 0\nvertex 1 0 0\nvertex 1 1 0\ntriangle 1 2 3\nprotobegin p\nprotoend\nclumpend").toOption.map
      (fun p => p.meshes) = some [] := by
  with_unfolding_all decide

/-! ### C18: a prototype body does not leak -/

/-- C18: for every prototype body made of transform, material and vertex
commands, triangles, quads and polygons of a declared length above 0 (a polygon
of declared length 0 throws), `protobegin`, the body and `protoend` run through.
The body works on a matrix object that `protobegin` allocates; afterwards the
current transform is the matrix object it was before `protobegin`, holding the
same matrix, and the working material is the default material whatever material
commands the body issued (the local material list is empty as well). -/
theorem C18_prototype_body_does_not_leak (env : Env) (ctx : Ctx) (name : String)
    (body : List Command) (r : Nat)
    (hcur : ctx.currentTransform = some r) (hr : r < ctx.mats.length)
    (hgeo : ctx.currentBufferGeometry = none → ctx.currentBufferFaceCount = 0)
    (hstack : ∀ t ∈ ctx.transformStack, t ≠ none)
    (hb : ∀ c ∈ body, c.isBody = true) :
    ∃ c1 c, exec env ctx (Command.protobegin name) = Except.ok c1 ∧
      c1.mats = ctx.mats ++ [Matrix4.identity] ∧
      c1.currentTransform = some ctx.mats.length ∧
      execAll env ctx (Command.protobegin name :: (body ++ [Command.protoend])) = Except.ok c ∧
      c.currentTransform = some r ∧
      c.mats.get? r = ctx.mats.get? r ∧
      c.mat r = ctx.mat r ∧
      c.materialManager.currentRWXMaterial = {} ∧
      c.materialManager.currentMaterialList = [] := by
  obtain ⟨c1, c3, h1, h3, -, -, -, -, hc, hmats, -, hlist, hmat, hget, hm1, hc1, -⟩ :=
    proto_scope_run env ctx name body hgeo hstack hb
  exact ⟨c1, c3, h1, hm1, hc1, h3, hc.trans hcur, hget r hr, hmats r hr, hmat, hlist⟩

/-- Instance of C18: a body that moves, recolours and declares a triangle. -/
theorem C18_prototype_body_does_not_leak_witness :
    clumpContext.currentTransform = some 1 ∧ 1 < clumpContext.mats.length ∧
      (clumpContext.currentBufferGeometry = none → clumpContext.currentBufferFaceCount = 0) ∧
      (∀ t ∈ clumpContext.transformStack, t ≠ none) ∧
      (∀ c ∈ [Command.translate [1, 2, 3], Command.color [1, 0, 0], Command.vertex 0 0 0 none,
        Command.vertex 1 0 0 none, Command.vertex 1 1 0 none, Command.triangle 1 2 3],
        c.isBody = true) ∧
      ∃ c1 c, exec exampleEnv clumpContext (Command.protobegin "p") = Except.ok c1 ∧
        c1.mats = clumpContext.mats ++ [Matrix4.identity] ∧
        c1.currentTransform = some clumpContext.mats.length ∧
        execAll exampleEnv clumpContext (Command.protobegin "p" ::
          ([Command.translate [1, 2, 3], Command.color [1, 0, 0], Command.vertex 0 0 0 none,
            Command.vertex 1 0 0 none, Command.vertex 1 1 0 none, Command.triangle 1 2 3]
            ++ [Command.protoend])) = Except.ok c ∧
        c.currentTransform = some 1 ∧
        c.mats.get? 1 = clumpContext.mats.get? 1 ∧
        c.mat 1 = clumpContext.mat 1 ∧
        c.materialManager.currentRWXMaterial = {} ∧
        c.materialManager.currentMaterialList = [] :=
  ⟨by with_unfolding_all decide, by with_unfolding_all decide, by with_unfolding_all decide,
    by with_unfolding_all decide, by decide,
    C18_prototype_body_does_not_leak exampleEnv clumpContext "p" _ 1
      (by with_unfolding_all decide) (by with_unfolding_all decide)
      (by with_unfolding_all decide) (by with_unfolding_all decide) (by decide)⟩

/-! ### C26: clump scoping -/

/-- C26: with a current group `g` and a current transform in place (and pending
faces, if any, held by a geometry), the line `clumpbegin` succeeds.  It adds one
new object to the heap of groups, an empty group, and appends it as the last
child of `g`, after the mesh the flush of the pending leaf may have added (none
when no face is pending); no other existing group changes; a new matrix object
holding the identity becomes the current transform, and the final transform is
what it was before the line.  For every body of transform, material and vertex
commands, triangles, quads and polygons of a declared length above 0 (a polygon
of declared length 0 throws), `clumpbegin`, the body and `clumpend` run through;
afterwards the active group, the current transform (the same object, holding the
same matrix) and both stacks are those before `clumpbegin`, the vertex, uv and
index buffers are empty, the local material list is empty and the working
material is the default one. -/
theorem C26_clump_scoping_balanced (env : Env) (ctx : Ctx) (g r : Nat) (body : List Command)
    (hg : ctx.currentGroup = some g) (hlt : g < ctx.groups.length)
    (hcur : ctx.currentTransform = some r) (hr : r < ctx.mats.length)
    (hstack : ∀ t ∈ ctx.transformStack, t ≠ none)
    (hgeo : ctx.currentBufferGeometry = none →
      ctx.currentBufferFaceCount = 0 ∧ ctx.currentBufferFaces = [])
    (hb : ∀ c ∈ body, c.isBody = true) :
    ∃ c1 c2 c4, makeMeshToCurrentGroup ctx = Except.ok c1 ∧
      exec env ctx Command.clumpbegin = Except.ok c2 ∧
      (ctx.currentBufferFaces = [] → c1.groups = ctx.groups) ∧
      c2.groups.length = ctx.groups.length + 1 ∧
      c2.groups.get? ctx.groups.length = some {} ∧
      c2.groups.get? g = (c1.groups.get? g).map
        (fun o => { o with children := o.children ++ [Child.group ctx.groups.length] }) ∧
      (∀ i, i < ctx.groups.length → i ≠ g → c2.groups.get? i = ctx.groups.get? i) ∧
      c2.currentGroup = some ctx.groups.length ∧
      c2.mats = ctx.mats ++ [Matrix4.identity] ∧
      c2.currentTransform = some ctx.mats.length ∧
      getFinalTransform c2 = getFinalTransform ctx ∧
      execAll env ctx (Command.clumpbegin :: (body ++ [Command.clumpend])) = Except.ok c4 ∧
      c4.currentGroup = some g ∧
      c4.currentTransform = some r ∧
      c4.mats.get? r = ctx.mats.get? r ∧
      c4.mat r = ctx.mat r ∧
      c4.groupStack = ctx.groupStack ∧
      c4.transformStack = ctx.transformStack ∧
      (c4.currentBufferVertices = [] ∧ c4.currentBufferUVs = [] ∧ c4.currentBufferFaces = []) ∧
      c4.materialManager.currentMaterialList = [] ∧
      c4.materialManager.currentRWXMaterial = {} := by
  obtain ⟨c1, c2, h1, h2, hlen1, hother1, hsame1, hgroups2, hmats2, hgrp2, hcur2, hstack2, hgs2, -,
    hgeo2, -, -, -, -, -⟩ := clumpbegin_spec env ctx g hg hgeo
  have hr2 : Ready c2 := by
    refine ⟨by rw [hcur2]; exact Option.some_ne_none _, ?_,
      by rw [hgeo2]; exact Option.some_ne_none _, by rw [hgrp2]; exact Option.some_ne_none _⟩
    rw [hstack2]
    intro t ht
    rcases List.mem_append.mp ht with h | h
    · exact hstack t h
    · rw [List.mem_singleton.mp h, hcur]
      exact Option.some_ne_none _
  obtain ⟨c3, h3, hf3, -⟩ := body_run env body c2 hb hr2
  obtain ⟨c4, h4, hgrp4, hgs4, hcur4, hstack4, hmats4, -, -, -, hv4, hu4, hfaces4, -, hlist4,
    hmat4⟩ := clumpend_spec env c3 (hr2.of_frame hf3)
  have hg1 : g < c1.groups.length := by rw [hlen1]; exact hlt
  have hmatr : c4.mat r = ctx.mat r := by
    have hne : c2.currentTransform ≠ some r := by
      rw [hcur2]
      intro e
      exact Nat.lt_irrefl _ (by rw [Option.some.inj e] at hr; exact hr)
    have e1 : c4.mat r = c3.mat r := by simp only [Ctx.mat, hmats4]
    rw [e1, hf3.mats r hne]
    simp only [Ctx.mat, hmats2]
    exact getD_append_identity ctx.mats r
  have hlen4 : c4.mats.length = ctx.mats.length + 1 := by
    rw [hmats4, hf3.matsLength, hmats2, List.length_append]
    rfl
  have hgetr : c4.mats.get? r = ctx.mats.get? r := by
    have hr1 : r < (ctx.mats ++ [Matrix4.identity]).length := by
      rw [List.length_append]
      exact Nat.lt_succ_of_lt hr
    have e := get?_eq_of_mat c4 { ctx with mats := ctx.mats ++ [Matrix4.identity] } r
      (by rw [hlen4, List.length_append]; rfl) hr1
      (hmatr.trans (getD_append_identity ctx.mats r).symm)
    rw [e]
    exact get?_append_old ctx.mats _ r hr
  refine ⟨c1, c2, c4, h1, h2, hsame1, ?_, ?_, ?_, ?_, hgrp2, hmats2, hcur2,
    getFinalTransform_push ctx c2 hmats2 hstack2 hcur2, ?_, ?_, ?_, hgetr, hmatr, ?_, ?_,
    ⟨hv4, hu4, hfaces4⟩, hlist4, hmat4⟩
  · rw [hgroups2, length_modifyAt, List.length_append, hlen1]
    rfl
  · rw [hgroups2, get?_modifyAt_ne _ g _ _ (Nat.ne_of_gt hlt), ← hlen1]
    exact get?_append_new c1.groups _
  · rw [hgroups2, get?_modifyAt_self, get?_append_old c1.groups _ g hg1]
  · intro i hi hne
    rw [hgroups2, get?_modifyAt_ne _ g i _ hne,
      get?_append_old c1.groups _ i (by rw [hlen1]; exact hi)]
    exact hother1 i hne
  · rw [execAll_cons env ctx c2 _ _ h2, execAll_append env c2 c3 _ _ h3, execAll_single]
    exact h4
  · rw [hgrp4, hf3.groupStack, hgs2, pop_append]
  · rw [hcur4, hf3.stack, hstack2, pop_append, hcur]
    rfl
  · rw [hgs4, hf3.groupStack, hgs2, pop_append]
  · rw [hstack4, hf3.stack, hstack2, pop_append]

/-- Instance of C26: a first clump right after `modelbegin`. -/
theorem C26_clump_scoping_balanced_witness :
    modelContext.currentGroup = some 0 ∧ 0 < modelContext.groups.length ∧
      modelContext.currentTransform = some 0 ∧ 0 < modelContext.mats.length ∧
      (∀ t ∈ modelContext.transformStack, t ≠ none) ∧
      (modelContext.currentBufferGeometry = none →
        modelContext.currentBufferFaceCount = 0 ∧ modelContext.currentBufferFaces = []) ∧
      (∀ c ∈ [Command.scale [2, 2, 2], Command.opacity (1 / 2), Command.vertex 0 0 0 none,
        Command.vertex 1 0 0 none, Command.vertex 1 1 0 none, Command.triangle 1 2 3],
        c.isBody = true) ∧
      ∃ c1 c2 c4, makeMeshToCurrentGroup modelContext = Except.ok c1 ∧
        exec exampleEnv modelContext Command.clumpbegin = Except.ok c2 ∧
        (modelContext.currentBufferFaces = [] → c1.groups = modelContext.groups) ∧
        c2.groups.length = modelContext.groups.length + 1 ∧
        c2.groups.get? modelContext.groups.length = some {} ∧
        c2.groups.get? 0 = (c1.groups.get? 0).map
          (fun o => { o with children := o.children ++ [Child.group modelContext.groups.length] }) ∧
        (∀ i, i < modelContext.groups.length → i ≠ 0 →
          c2.groups.get? i = modelContext.groups.get? i) ∧
        c2.currentGroup = some modelContext.groups.length ∧
        c2.mats = modelContext.mats ++ [Matrix4.identity] ∧
        c2.currentTransform = some modelContext.mats.length ∧
        getFinalTransform c2 = getFinalTransform modelContext ∧
        execAll exampleEnv modelContext (Command.clumpbegin ::
          ([Command.scale [2, 2, 2], Command.opacity (1 / 2), Command.vertex 0 0 0 none,
            Command.vertex 1 0 0 none, Command.vertex 1 1 0 none, Command.triangle 1 2 3]
            ++ [Command.clumpend])) = Except.ok c4 ∧
        c4.currentGroup = some 0 ∧
        c4.currentTransform = some 0 ∧
        c4.mats.get? 0 = modelContext.mats.get? 0 ∧
        c4.mat 0 = modelContext.mat 0 ∧
        c4.groupStack = modelContext.groupStack ∧
        c4.transformStack = modelContext.transformStack ∧
        (c4.currentBufferVertices = [] ∧ c4.currentBufferUVs = [] ∧ c4.currentBufferFaces = []) ∧
        c4.materialManager.currentMaterialList = [] ∧
        c4.materialManager.currentRWXMaterial = {} :=
  ⟨by with_unfolding_all decide, by with_unfolding_all decide, by with_unfolding_all decide,
    by with_unfolding_all decide, by with_unfolding_all decide, by with_unfolding_all decide,
    by decide,
    C26_clump_scoping_balanced exampleEnv modelContext 0 0 _
      (by with_unfolding_all decide) (by with_unfolding_all decide)
      (by with_unfolding_all decide) (by with_unfolding_all decide)
      (by with_unfolding_all decide) (by with_unfolding_all decide) (by decide)⟩

/-- The same on text: a clump with a triangle gives one child group holding one
mesh, and the model scope is current again after `clumpend`. -/
theorem parse_clump_scope :
    closedClumpContext.currentGroup = some 0 ∧
      closedClumpContext.currentTransform = some 0 ∧
      closedClumpContext.groupStack = [0] ∧
      closedClumpContext.transformStack = [some 0] ∧
      closedClumpContext.groups.map (fun o => o.children.length) = [1, 1] ∧
      closedClumpContext.currentBufferVertices = [] := by
  with_unfolding_all decide

/-! ### Cloning a prototype -/

theorem extends_refl (a : List GroupObj) : Extends a a :=
  ⟨Nat.le_refl _, fun _ _ => rfl⟩

theorem extends_trans {a b c : List GroupObj} (h1 : Extends a b) (h2 : Extends b c) :
    Extends a c :=
  ⟨Nat.le_trans h1.1 h2.1, fun i hi =>
    (h2.2 i (Nat.lt_of_lt_of_le hi h1.1)).trans (h1.2 i hi)⟩

theorem extends_append (a : List GroupObj) (x : GroupObj) : Extends a (a ++ [x]) :=
  ⟨by simp, fun i hi => get?_append_old a x i hi⟩

theorem extends_set (a b : List GroupObj) (n : Nat) (x : GroupObj) (h : Extends a b)
    (hn : a.length ≤ n) : Extends a (b.set n x) := by
  refine ⟨by rw [List.length_set]; exact h.1, fun i hi => ?_⟩
  have hne : n ≠ i := fun e => Nat.lt_irrefl _ (Nat.lt_of_lt_of_le (e ▸ hi) hn)
  rw [List.get?_eq_getElem?, List.getElem?_set_ne hne, ← List.get?_eq_getElem?]
  exact h.2 i hi

/-- What well-formedness says about one child reference. -/
theorem wellFormed_child (groups : List GroupObj) (h : wellFormed groups = true) (i : Nat)
    (o : GroupObj) (ho : groups.get? i = some o) (k : Nat) (hk : Child.group k ∈ o.children) :
    i < k ∧ k < groups.length := by
  have hi : i < groups.length := by
    rw [List.get?_eq_getElem?] at ho
    exact (List.getElem?_eq_some_iff.mp ho).1
  unfold wellFormed at h
  rw [List.all_eq_true] at h
  have h1 := h i (List.mem_range.mpr hi)
  rw [ho] at h1
  have h2 := (List.all_eq_true.mp h1) _ hk
  simpa [childAfter] using h2

/-- Cloning the children of a group, given that cloning each child group
succeeds and only extends the heap. -/
theorem cloneChildren_spec (orig : List GroupObj)
    (f : List GroupObj → Nat → Option (List GroupObj × Nat)) (P : Nat → Prop)
    (hf : ∀ arena k, P k → Extends orig arena →
      ∃ arena1, f arena k = some (arena1, arena.length) ∧ Extends arena arena1) :
    ∀ (kids : List Child) (arena : List GroupObj), (∀ k, Child.group k ∈ kids → P k) →
      Extends orig arena →
      ∃ arena1 kids1, cloneChildren f kids arena = some (arena1, kids1) ∧ Extends arena arena1 := by
  intro kids
  induction kids with
  | nil => exact fun arena _ _ => ⟨arena, [], rfl, extends_refl arena⟩
  | cons c rest ih =>
    intro arena hP hext
    have hrest : ∀ k, Child.group k ∈ rest → P k := fun k hk => hP k (List.mem_cons_of_mem _ hk)
    cases c with
    | group id =>
      obtain ⟨arena1, h1, he1⟩ := hf arena id (hP id (List.mem_cons_self _ _)) hext
      obtain ⟨arena2, kids2, h2, he2⟩ := ih arena1 hrest (extends_trans hext he1)
      exact ⟨arena2, Child.group arena.length :: kids2, by simp only [cloneChildren, h1, h2],
        extends_trans he1 he2⟩
    | mesh m =>
      obtain ⟨arena1, kids1, h1, he1⟩ := ih arena hrest hext
      exact ⟨arena1, Child.mesh m :: kids1, by simp only [cloneChildren, h1], he1⟩
    | lines l =>
      obtain ⟨arena1, kids1, h1, he1⟩ := ih arena hrest hext
      exact ⟨arena1, Child.lines l :: kids1, by simp only [cloneChildren, h1], he1⟩

/-- Cloning a group of a well-formed heap succeeds with enough fuel: the clone
is a new object at the end of the heap as it was, with the matrix and user data
of the source, and the objects already there are untouched. -/
theorem cloneGroup_spec (orig : List GroupObj) (hwf : wellFormed orig = true) :
    ∀ (fuel : Nat) (arena : List GroupObj) (id : Nat), Extends orig arena → id < orig.length →
      orig.length - id < fuel →
      ∃ arena1, cloneGroup fuel arena id = some (arena1, arena.length) ∧ Extends arena arena1 ∧
        arena.length < arena1.length ∧
        ∃ o kids, orig.get? id = some o ∧
          arena1.get? arena.length = some { o with children := kids } := by
  intro fuel
  induction fuel with
  | zero => exact fun arena id _ _ h => absurd h (Nat.not_lt_zero _)
  | succ fuel ih =>
    intro arena id hext hid hfuel
    obtain ⟨o, ho⟩ : ∃ o, orig.get? id = some o := by
      rw [List.get?_eq_getElem?]
      exact ⟨orig[id], List.getElem?_eq_getElem hid⟩
    have hao : arena.get? id = some o := (hext.2 id hid).trans ho
    have hkids : ∀ k, Child.group k ∈ o.children → id < k ∧ k < orig.length :=
      fun k hk => wellFormed_child orig hwf id o ho k hk
    obtain ⟨arena1, kids1, h1, he1⟩ := cloneChildren_spec orig (cloneGroup fuel)
      (fun k => id < k ∧ k < orig.length)
      (fun a k hk ha => by
        obtain ⟨a1, e1, e2, -, -⟩ := ih a k ha hk.2 (by omega)
        exact ⟨a1, e1, e2⟩)
      o.children (arena ++ [{ o with children := [] }]) hkids
      (extends_trans hext (extends_append arena _))
    have hlen : arena.length < arena1.length := by
      have := he1.1
      simp only [List.length_append, List.length_cons, List.length_nil] at this
      omega
    refine ⟨arena1.set arena.length { o with children := kids1 }, ?_, ?_, ?_, o, kids1, ho, ?_⟩
    · simp only [cloneGroup, hao, h1]
    · exact extends_set arena arena1 arena.length _ (extends_trans (extends_append arena _) he1)
        (Nat.le_refl _)
    · rw [List.length_set]
      exact hlen
    · rw [List.get?_eq_getElem?, List.getElem?_set_self hlen]

/-! ### C21: `protoinstance` of a defined name -/

/-- C21: in a well-formed heap, for every name the prototype table maps to a
group `o` (whose matrix is the identity, as for every group `protobegin`
creates), with an active group `g` and a current transform in place, the line
`protoinstance <name>` succeeds.  It appends exactly one child to the active
group, a new group object; the matrix of that object is the final transform `m`
in effect at the line; every other existing group object, the table and the
matrix objects are unchanged; and no transform command after the line changes
any group object, so a later transform change does not move the instance. -/
theorem C21_protoinstance_places_clone (env : Env) (ctx : Ctx) (name : String)
    (source g r : Nat) (o : GroupObj)
    (hproto : ctx.proto name = some source) (hsrc : ctx.groups.get? source = some o)
    (hid : o.matrix = Matrix4.identity)
    (hwf : wellFormed ctx.groups = true)
    (hg : ctx.currentGroup = some g) (hlt : g < ctx.groups.length)
    (hcur : ctx.currentTransform = some r)
    (hstack : ∀ t ∈ ctx.transformStack, t ≠ none) :
    ∃ m c, getFinalTransform ctx = Except.ok m ∧
      exec env ctx (Command.protoinstance name) = Except.ok c ∧
      c.groups.get? g = (ctx.groups.get? g).map
        (fun x => { x with children := x.children ++ [Child.group ctx.groups.length] }) ∧
      ctx.groups.length < c.groups.length ∧
      (c.groups.get? ctx.groups.length).map (fun x => x.matrix) = some m ∧
      (∀ i, i < ctx.groups.length → i ≠ g → c.groups.get? i = ctx.groups.get? i) ∧
      c.rwxProtoDict = ctx.rwxProtoDict ∧
      c.mats = ctx.mats ∧
      (∀ cmd : Command, cmd.isTransform = true →
        ∃ c1, exec env c cmd = Except.ok c1 ∧ c1.groups = c.groups) := by
  have hsl : source < ctx.groups.length := by
    rw [List.get?_eq_getElem?] at hsrc
    exact (List.getElem?_eq_some_iff.mp hsrc).1
  obtain ⟨arena1, hclone, hext, hlen, o2, kids, ho2, hnew⟩ :=
    cloneGroup_spec ctx.groups hwf (ctx.groups.length + 1) ctx.groups source
      (extends_refl _) hsl (by omega)
  rw [hsrc] at ho2
  cases ho2
  obtain ⟨m, hm⟩ := getFinalTransform_ok ctx r hcur hstack
  have hm1 : getFinalTransform { ctx with groups := arena1 } = Except.ok m := hm
  have hgne : g ≠ ctx.groups.length := Nat.ne_of_lt hlt
  have hmatrix : ((modifyAt (fun x => { x with children := x.children ++
        [Child.group ctx.groups.length] }) g
      (modifyAt (fun x => { x with matrix := m.multiply x.matrix }) ctx.groups.length
        arena1)).get? ctx.groups.length).map (fun x => x.matrix) = some m := by
    rw [get?_modifyAt_ne _ g _ _ hgne.symm, get?_modifyAt_self, hnew]
    show some (m.multiply o.matrix) = some m
    rw [hid, Matrix4.multiply_identity]
  refine ⟨m, (applyMatrix4 { ctx with groups := arena1 } ctx.groups.length m).addChild g
    (Child.group ctx.groups.length), hm, ?_, ?_, ?_, hmatrix, ?_, rfl, rfl, ?_⟩
  · simp only [exec, hproto, hclone, bind, Except.bind, hm1]
    simp only [applyMatrix4, hg]
    rfl
  · show (modifyAt _ g (modifyAt _ ctx.groups.length arena1)).get? g = _
    rw [get?_modifyAt_self, get?_modifyAt_ne _ _ g _ hgne, hext.2 g hlt]
  · show ctx.groups.length < (modifyAt _ g (modifyAt _ ctx.groups.length arena1)).length
    rw [length_modifyAt, length_modifyAt]
    exact hlen
  · intro i hi hne
    show (modifyAt _ g (modifyAt _ ctx.groups.length arena1)).get? i = _
    rw [get?_modifyAt_ne _ g i _ hne, get?_modifyAt_ne _ _ i _ (Nat.ne_of_lt hi), hext.2 i hi]
  · intro cmd hcmd
    rcases exec_transform env _ cmd r hcmd
      (show ((applyMatrix4 { ctx with groups := arena1 } ctx.groups.length m).addChild g
        (Child.group ctx.groups.length)).currentTransform = some r from hcur) with he | ⟨k, he⟩
    · exact ⟨_, he, rfl⟩
    · exact ⟨_, he, rfl⟩

/-- Instance of C21: the prototype `p` instanced in the clump that declared it,
after `translate 1 2 3`. -/
theorem C21_protoinstance_places_clone_witness :
    protoContext.proto "p" = some 2 ∧
      protoContext.groups.get? 2 = some triangleProto ∧
      triangleProto.matrix = Matrix4.identity ∧
      wellFormed protoContext.groups = true ∧
      protoContext.currentGroup = some 1 ∧ 1 < protoContext.groups.length ∧
      protoContext.currentTransform = some 1 ∧
      (∀ t ∈ protoContext.transformStack, t ≠ none) ∧
      ∃ m c, getFinalTransform protoContext = Except.ok m ∧
        exec exampleEnv protoContext (Command.protoinstance "p") = Except.ok c ∧
        c.groups.get? 1 = (protoContext.groups.get? 1).map
          (fun x => { x with children := x.children ++ [Child.group protoContext.groups.length] }) ∧
        protoContext.groups.length < c.groups.length ∧
        (c.groups.get? protoContext.groups.length).map (fun x => x.matrix) = some m ∧
        (∀ i, i < protoContext.groups.length → i ≠ 1 →
          c.groups.get? i = protoContext.groups.get? i) ∧
        c.rwxProtoDict = protoContext.rwxProtoDict ∧
        c.mats = protoContext.mats ∧
        (∀ cmd : Command, cmd.isTransform = true →
          ∃ c1, exec exampleEnv c cmd = Except.ok c1 ∧ c1.groups = c.groups) :=
  ⟨by with_unfolding_all decide, by with_unfolding_all decide, rfl,
    by with_unfolding_all decide, by with_unfolding_all decide, by with_unfolding_all decide,
    by with_unfolding_all decide, by with_unfolding_all decide,
    C21_protoinstance_places_clone exampleEnv protoContext "p" 2 1 1 triangleProto
      (by with_unfolding_all decide) (by with_unfolding_all decide) rfl
      (by with_unfolding_all decide) (by with_unfolding_all decide)
      (by with_unfolding_all decide) (by with_unfolding_all decide)
      (by with_unfolding_all decide)⟩

/-- The same on text: two instances of one prototype under different
translations keep their own matrices (the translation is the last column). -/
theorem parse_two_instances :
    (twoInstancesContext.groups.map
        (fun x => (x.children.length, x.matrix.e12, x.matrix.e13, x.matrix.e14)))
      = [(1, 0, 0, 0), (2, 0, 0, 0), (1, 0, 0, 0), (1, 1, 0, 0), (1, 1, 5, 0)] := by
  with_unfolding_all decide

/-! ### C20: flattening -/

/-- Truncating an integer. -/
theorem trunc_intCast (z : Int) : trunc (z : ℚ) = z := by
  have hfloor : ∀ w : Int, Rat.floor (w : ℚ) = w := by
    intro w
    rw [Rat.floor_def']
    simp
  unfold trunc
  by_cases h : (z : ℚ) < 0
  · rw [if_pos h]
    have : (-(z : ℚ)) = ((-z : Int) : ℚ) := by push_cast; rfl
    rw [this, hfloor]
    omega
  · rw [if_neg h, hfloor]

/-- Storing an integer in a typed array. -/
theorem toUint_intCast (bits : Nat) (z : Int) : toUint bits (z : ℚ) = z % (2 : Int) ^ bits := by
  unfold toUint
  rw [trunc_intCast]

/-- Storing the sum of an integer and a natural number in a typed array. -/
theorem toUint_add (bits : Nat) (z : Int) (v : Nat) :
    toUint bits ((z : ℚ) + (v : ℚ)) = (z + (v : Int)) % (2 : Int) ^ bits := by
  have : (z : ℚ) + (v : ℚ) = ((z + (v : Int) : Int) : ℚ) := by push_cast; rfl
  rw [this, toUint_intCast]

theorem wrappedIndices_append (wide : List Int → Bool) (a b : List Mesh) :
    ∀ v, wrappedIndices wide v (a ++ b)
      = wrappedIndices wide v a ++ wrappedIndices wide (v + (a.map Mesh.vertexCount).sum) b := by
  induction a with
  | nil => intro v; simp [wrappedIndices]
  | cons s rest ih =>
    intro v
    simp only [List.cons_append, wrappedIndices, List.append_eq, ih, List.map_cons,
      List.sum_cons, List.append_assoc, Nat.add_assoc]

theorem rebasedGroups_append (a b : List Mesh) :
    ∀ i k, rebasedGroups i k (a ++ b)
      = rebasedGroups i k a ++ rebasedGroups (i + (a.map (fun s => s.index.length)).sum)
          (k + (a.map (fun s => s.material.length)).sum) b := by
  induction a with
  | nil => intro i k; simp [rebasedGroups]
  | cons s rest ih =>
    intro i k
    simp only [List.cons_append, rebasedGroups, List.append_eq, ih, List.map_cons,
      List.sum_cons, List.append_assoc, Nat.add_assoc]

theorem wrappedIndices_length (wide : List Int → Bool) (ms : List Mesh) :
    ∀ v, (wrappedIndices wide v ms).length = (ms.map (fun s => s.index.length)).sum := by
  induction ms with
  | nil => intro v; rfl
  | cons s rest ih =>
    intro v
    simp only [wrappedIndices, List.length_append, List.length_map, ih, List.map_cons,
      List.sum_cons]

theorem flatMap_material_length (ms : List Mesh) :
    (ms.flatMap (fun s => s.material)).length = (ms.map (fun s => s.material.length)).sum := by
  induction ms with
  | nil => rfl
  | cons s rest ih =>
    simp only [List.flatMap_cons, List.length_append, ih, List.map_cons, List.sum_cons]

/-- The positions pushed for a mesh: three numbers per vertex. -/
theorem transformed_length (t : Matrix4) (buffer : List (Option ℚ)) (n : Nat) :
    ((List.range n).flatMap (transformedVertex t buffer)).length = 3 * n := by
  have h : ∀ l : List Nat, (l.flatMap (transformedVertex t buffer)).length = 3 * l.length := by
    intro l
    induction l with
    | nil => rfl
    | cons i rest ih =>
      have h3 : (transformedVertex t buffer i).length = 3 := by
        unfold transformedVertex
        split <;> rfl
      simp only [List.flatMap_cons, List.length_append, ih, h3, List.length_cons]
      omega
  rw [h, List.length_range]

theorem Merged.nil (wide : List Int → Bool) (ctx : FlatCtx) (v : Nat)
    (h : ctx.positions.length = 3 * v) : Merged wide ctx ctx v [] :=
  ⟨by simp [wrappedIndices], by simp [rebasedGroups], by simp, by simpa using h⟩

/-- Merging one mesh. -/
theorem Merged.mesh (wide : List Int → Bool) (ctx : FlatCtx) (t : Matrix4) (m : Mesh) (v : Nat)
    (h : ctx.positions.length = 3 * v) : Merged wide ctx (mergeMesh wide ctx t m) v [m] := by
  refine ⟨?_, ?_, ?_, ?_⟩
  · have hq : ((ctx.positions.length : ℚ) / 3) = (v : ℚ) := by
      rw [h]
      push_cast
      field_simp
    simp only [mergeMesh, wrappedIndices, List.append_nil, List.map_map, hq]
    rfl
  · simp only [mergeMesh, rebasedGroups, List.append_nil]
  · simp only [mergeMesh, List.flatMap_cons, List.flatMap_nil, List.append_nil]
  · simp only [mergeMesh, List.length_append, transformed_length, h, List.map_cons, List.map_nil,
      List.sum_cons, List.sum_nil, Mesh.vertexCount]
    omega

/-- Merging one run of meshes after another. -/
theorem Merged.append {wide : List Int → Bool} {a b c : FlatCtx} {v : Nat} {ms ms1 : List Mesh}
    (h1 : Merged wide a b v ms) (h2 : Merged wide b c (v + (ms.map Mesh.vertexCount).sum) ms1) :
    Merged wide a c v (ms ++ ms1) := by
  have hi : b.indices.length = a.indices.length + (ms.map (fun s => s.index.length)).sum := by
    rw [h1.indices, List.length_append, wrappedIndices_length]
  have hm : b.materials.length
      = a.materials.length + (ms.map (fun s => s.material.length)).sum := by
    rw [h1.materials, List.length_append, flatMap_material_length]
  refine ⟨?_, ?_, ?_, ?_⟩
  · rw [h2.indices, h1.indices, wrappedIndices_append, List.append_assoc]
  · rw [h2.groups, h1.groups, rebasedGroups_append, List.append_assoc, hi, hm]
  · rw [h2.materials, h1.materials, List.flatMap_append, List.append_assoc]
  · rw [h2.positions, List.map_append, List.sum_append]
    omega

/-- The merge of a group visits the meshes below it, depth first in child
order. -/
theorem merge_spec (wide : List Int → Bool) (groups : List GroupObj) :
    ∀ (fuel : Nat) (ctx : FlatCtx) (id : Nat) (t : Matrix4) (v : Nat),
      ctx.positions.length = 3 * v →
      Merged wide ctx (mergeGeometryRecursive wide groups fuel ctx id t) v
        (meshesBelow groups fuel id) := by
  intro fuel
  induction fuel with
  | zero => exact fun ctx id t v h => Merged.nil wide ctx v h
  | succ fuel ih =>
    intro ctx id t v h
    simp only [mergeGeometryRecursive, meshesBelow]
    cases hg : groups.get? id with
    | none => exact Merged.nil wide ctx v h
    | some g =>
      simp only []
      generalize g.children = cs
      induction cs generalizing ctx v with
      | nil => exact Merged.nil wide ctx v h
      | cons c rest ihc =>
        simp only [List.foldl_cons, List.flatMap_cons]
        cases c with
        | group k =>
          simp only []
          cases hk : groups.get? k with
          | none =>
            have hnil : meshesBelow groups fuel k = [] := by
              cases fuel with
              | zero => rfl
              | succ f => simp only [meshesBelow, hk]
            rw [hnil, List.nil_append]
            exact ihc ctx v h
          | some o =>
            simp only []
            have h1 := ih ctx k (t.multiply o.matrix) v h
            exact h1.append (ihc _ _ h1.positions)
        | mesh m =>
          simp only []
          have h1 := Merged.mesh wide ctx (t.multiply Matrix4.identity) m v h
          exact h1.append (ihc _ _ h1.positions)
        | lines l =>
          simp only [List.nil_append]
          exact ihc ctx v h

/-- Without wrap-around the merge adds the plain offsets. -/
theorem wrappedIndices_noWrap (wide : List Int → Bool) (ms : List Mesh) :
    ∀ v, noWrap wide v ms → wrappedIndices wide v ms = rebasedIndices v ms := by
  induction ms with
  | nil => intro v _; rfl
  | cons s rest ih =>
    intro v h
    simp only [wrappedIndices, rebasedIndices, ih _ h.2]
    congr 1
    apply List.map_congr_left
    intro i hi
    obtain ⟨h0, hlt⟩ := h.1 i hi
    have hv : (0 : Int) ≤ (v : Int) := Int.ofNat_nonneg v
    rw [toUint_intCast, Int.emod_eq_of_lt h0 (by omega), toUint_add,
      Int.emod_eq_of_lt (by omega) hlt]

/-- The flattened mesh of a group: its batch ranges, its material list and its
counts are those of the specification for the meshes below the group, and so is
its index list when no index wraps around. -/
theorem flattenGroup_spec (wide : List Int → Bool) (groups : List GroupObj) (fuel id : Nat)
    (g : GroupObj) (hg : groups.get? id = some g) :
    ∃ flat, flattenGroup wide groups fuel id = some (flat, g.axisAlignment) ∧
      flat.index = wrappedIndices wide 0 (meshesBelow groups fuel id) ∧
      (noWrap wide 0 (meshesBelow groups fuel id) →
        flat.index = rebasedIndices 0 (meshesBelow groups fuel id)) ∧
      flat.groups = rebasedGroups 0 0 (meshesBelow groups fuel id) ∧
      flat.material = (meshesBelow groups fuel id).flatMap (fun s => s.material) ∧
      flat.position.length = 3 * ((meshesBelow groups fuel id).map Mesh.vertexCount).sum ∧
      flat.index.length = ((meshesBelow groups fuel id).map (fun s => s.index.length)).sum ∧
      flat.material.length
        = ((meshesBelow groups fuel id).map (fun s => s.material.length)).sum := by
  have h := merge_spec wide groups fuel {} id g.matrix 0 rfl
  have hi : (mergeGeometryRecursive wide groups fuel {} id g.matrix).indices
      = wrappedIndices wide 0 (meshesBelow groups fuel id) := by
    rw [h.indices]
    rfl
  have hm : (mergeGeometryRecursive wide groups fuel {} id g.matrix).materials
      = (meshesBelow groups fuel id).flatMap (fun s => s.material) := by
    rw [h.materials]
    rfl
  simp only [flattenGroup, hg]
  refine ⟨_, rfl, hi, fun hn => ?_, ?_, hm, ?_, ?_, ?_⟩
  · exact hi.trans (wrappedIndices_noWrap wide _ 0 hn)
  · show (mergeGeometryRecursive wide groups fuel {} id g.matrix).groups = _
    rw [h.groups]
    rfl
  · show (mergeGeometryRecursive wide groups fuel {} id g.matrix).positions.length = _
    rw [h.positions, Nat.zero_add]
  · show (mergeGeometryRecursive wide groups fuel {} id g.matrix).indices.length = _
    rw [hi, wrappedIndices_length]
  · show (mergeGeometryRecursive wide groups fuel {} id g.matrix).materials.length = _
    rw [hm, flatMap_material_length]

/-- An index stored in a typed array, offset and stored again. -/
theorem wrap_eq (bits : Nat) (i : Int) (v : Nat) :
    toUint bits (((toUint bits (i : ℚ) : Int) : ℚ) + (v : ℚ))
      = (i % (2 : Int) ^ bits + (v : Int)) % (2 : Int) ^ bits := by
  rw [toUint_intCast, toUint_add]

/-- C20 (refuted on the code): flatten the scene graph of a model with two
clumps, the first with 65536 vertices and the triangle `1 2 3`, the second with
three vertices and the triangle `1 2 3`.  The meshes below the root are the two
meshes in this order, the first has 65536 vertices, and the specification asks
for the index list `0 1 2 65536 65537 65538`.  The index of the second mesh is a
16-bit typed array (for every test `wide` that keeps `[0, 1, 2]` in 16 bits, as
three.js does), the sums wrap around and the flattened index list is
`0 1 2 0 1 2`: the second triangle is drawn over the vertices of the first
mesh. -/
theorem C20_flattened_indices_wrap (wide : List Int → Bool) (hw : wide [0, 1, 2] = false) :
    meshesBelow bigScene 3 0 = [bigMesh, smallMesh] ∧
      bigMesh.vertexCount = 65536 ∧
      rebasedIndices 0 (meshesBelow bigScene 3 0) = [0, 1, 2, 65536, 65537, 65538] ∧
      (flattenGroup wide bigScene 3 0).map (fun p => p.1.index) = some [0, 1, 2, 0, 1, 2] := by
  have hms : meshesBelow bigScene 3 0 = [bigMesh, smallMesh] := rfl
  have hbi : bigMesh.index = [0, 1, 2] := rfl
  have hsi : smallMesh.index = [0, 1, 2] := rfl
  have hbp : bigMesh.position = List.replicate 196608 (some 0) := rfl
  have hvc : bigMesh.vertexCount = 65536 := by
    rw [Mesh.vertexCount, hbp, List.length_replicate]
  have hb1 : indexBits wide bigMesh = 16 := by
    rw [indexBits, hbi, hw]
    rfl
  have hb2 : indexBits wide smallMesh = 16 := by
    rw [indexBits, hsi, hw]
    rfl
  refine ⟨hms, hvc, ?_, ?_⟩
  · rw [hms, rebasedIndices, rebasedIndices, rebasedIndices, hvc, hbi, hsi]
    decide
  · obtain ⟨flat, hflat, hi, -⟩ := flattenGroup_spec wide bigScene 3 0 _ rfl
    rw [hflat, Option.map_some', hi, hms, wrappedIndices, wrappedIndices, wrappedIndices, hvc,
      hb1, hb2, hbi, hsi]
    simp only [List.map_cons, List.map_nil, wrap_eq]
    decide

/-- Instance of C20 with the test of three.js. -/
theorem C20_flattened_indices_wrap_witness :
    arrayNeedsUint32 [0, 1, 2] = false ∧
      meshesBelow bigScene 3 0 = [bigMesh, smallMesh] ∧
      bigMesh.vertexCount = 65536 ∧
      rebasedIndices 0 (meshesBelow bigScene 3 0) = [0, 1, 2, 65536, 65537, 65538] ∧
      (flattenGroup arrayNeedsUint32 bigScene 3 0).map (fun p => p.1.index)
        = some [0, 1, 2, 0, 1, 2] :=
  ⟨by decide, C20_flattened_indices_wrap arrayNeedsUint32 (by decide)⟩

/-- The scene graph of a small model with two clumps has the shape of
`bigScene`, and its flattened mesh is the one the specification describes. -/
theorem flatten_two_clumps :
    twoClumps.map (fun p => p.ctx.groups.map (fun o => o.children.length)) = some [2, 1, 1] ∧
      twoClumps.map (fun p => p.meshes.map (fun s => s.index)) = some [[0, 1, 2], [0, 1, 2]] ∧
      flatTwoClumps.map (fun f => f.1.index) = some [0, 1, 2, 3, 4, 5] ∧
      flatTwoClumps.map (fun f => f.1.groups)
        = some [⟨0, 0, some 0⟩, ⟨0, 3, some 0⟩, ⟨3, 0, some 1⟩, ⟨3, 3, some 1⟩] ∧
      flatTwoClumps.map (fun f => f.1.material.length) = some 2 ∧
      flatTwoClumps.map (fun f => f.1.position.length) = some 18 ∧
      flatTwoClumps.map (fun f => f.2) = some (some "none") := by
  with_unfolding_all decide

/-! ### C19: the axis alignment of the root -/

/-- C19 (refuted on the code): the document `modelbegin`,
`axisalignment zorienty`, `clumpend`, `protobegin a`, `clumpbegin` has a single
`modelbegin` and one axis alignment line.  Its parse succeeds, but the stray
`clumpend` popped the root off the group stack, so the group handed back as the
root is the group of the prototype `a` (object 1), which has no axis alignment
at all; the value `zorienty` sits on object 0, which is not returned.  With the
axis alignment line after the stray `clumpend` the parse throws. -/
theorem C19_root_metadata_lost_after_stray_clumpend :
    strayClumpend.toOption.map (fun p => p.root) = some 1 ∧
      strayClumpend.toOption.map
        (fun p => (p.ctx.groups.get? p.root).bind (fun o => o.axisAlignment)) = some none ∧
      strayClumpend.toOption.map (fun p => p.ctx.groups.map (fun o => o.axisAlignment))
        = some [some "zorienty", none, none] ∧
      parse exampleEnv 0 "modelbegin\nclumpend\naxisalignment zorienty"
        = Except.error Err.typeError := by
  refine ⟨?_, ?_, ?_, ?_⟩
  · with_unfolding_all decide
  · with_unfolding_all decide
  · with_unfolding_all decide
  · with_unfolding_all rfl

/-- In a well-nested document the value of the last axis alignment line, lower
cased, is on the root and on no other group, whether the lines stand in nested
clumps or in a prototype body. -/
theorem parse_axisalignment_nested :
    nestedAlignment.toOption.map (fun p => p.root) = some 0 ∧
      nestedAlignment.toOption.map (fun p => p.ctx.groups.map (fun o => o.axisAlignment))
        = some [some "xyz", none, none, none] := by
  with_unfolding_all decide

end RWX
